import Mathlib

/-!
# X300 transport and routing core (host/lib/usrp/x300/x300_impl.cpp)

A shallow embedding of the stateful parts of `x300_impl`: the PCIe DMA channel
pool, the SID router, the MTU prober, the clock-source controller, the claim
manager with the teardown of a session, device discovery, the detection of the
frame sizes when a session is opened and the Ethernet branch of make_transport,
followed by the properties proved about them.

Conventions of the embedding:
* a member function that mutates the object and may throw is a function from
  the state before the call to a pair (outcome, state after the call), so that
  the state left behind by a throwing call is visible;
* constants and macros that live in headers outside this translation unit are
  collected in `x300_consts` and passed as a parameter;
* hardware and network peers are oracles passed as parameters.
-/

namespace X300

/-! ## Errors -/

/-- The exception classes thrown by the functions embedded here: those of uhd, and
boost::bad_lexical_cast. -/
inductive uhd_error where
  | runtime_error
  | key_error
  | not_implemented_error
  | value_error
  | io_error
  | bad_lexical_cast
  deriving DecidableEq, Repr

/-! ## Constants from headers -/

/-- The motherboard kinds of x300_impl::x300_mboard_t. -/
inductive x300_mboard_t where
  | USRP_X300_MB
  | USRP_X310_MB
  | UNKNOWN
  deriving DecidableEq, Repr

/-- Constants and macros used by x300_impl.cpp whose definitions are in headers
(x300_impl.hpp, x300_regs.hpp, x300_fw_common.h, udp_constants.hpp) that are not
part of the translation unit; every function of the embedding takes them as a
parameter. `pcie_ssid_mb_type` is the table of the product numbers
(X300_USRP_PCIE_SSID_ADC_33 and so on) that the two switch statements of
get_mb_type_from_pcie and get_mb_type_from_eeprom map to a motherboard kind. -/
structure x300_consts where
  X300_PCIE_MAX_CHANNELS : Nat
  SR_ADDR : Nat → Nat → Nat
  SET0_BASE : Nat
  SETXB_BASE : Nat
  ZPU_SR_XB_LOCAL : Nat
  ZPU_SR_SW_RST : Nat
  ZPU_SR_SW_RST_RADIO_CLK_PLL : Nat
  ZPU_SR_SW_RST_ADC_IDELAYCTRL : Nat
  IP_PROTOCOL_MIN_MTU_SIZE : Nat
  IP_PROTOCOL_UDP_PLUS_IP_HEADER : Nat
  X300_MTU_DETECT_ECHO_REQUEST : Nat
  X300_MTU_DETECT_ECHO_REPLY : Nat
  X300_FW_SHMEM_BASE : Nat
  X300_FW_SHMEM_CLAIM_STATUS : Nat
  X300_FW_SHMEM_CLAIM_TIME : Nat
  X300_FW_SHMEM_CLAIM_SRC : Nat
  X300_FW_COMMS_FLAGS_ACK : Nat
  ZPU_RB_ETH_TYPE0 : Nat
  ZPU_RB_ETH_TYPE1 : Nat
  ZPU_SR_DRAM_FIFO0 : Nat
  ZPU_RB_DRAM_FIFO0 : Nat
  ZPU_SR_DRAM_FIFO1 : Nat
  ZPU_RB_DRAM_FIFO1 : Nat
  pcie_ssid_mb_type : Nat → x300_mboard_t
  X300_10GE_DATA_FRAME_MAX_SIZE : Nat
  X300_1GE_DATA_FRAME_MAX_SIZE : Nat
  X300_ETH_MSG_FRAME_SIZE : Nat
  X300_ETH_DATA_NUM_FRAMES : Nat
  X300_ETH_MSG_NUM_FRAMES : Nat
  X300_MAX_RATE_10GIGE : Nat
  X300_MAX_RATE_1GIGE : Nat
  X300_SRC_ADDR0 : Nat
  X300_SRC_ADDR1 : Nat
  X300_XB_DST_E0 : Nat
  X300_XB_DST_E1 : Nat
  X300_VITA_UDP_PORT : Nat
  ZPU_SR_ETHINT0 : Nat
  ZPU_SR_ETHINT1 : Nat

/-- One concrete choice of the header constants, used to evaluate the embedding
on concrete inputs. -/
def sample_consts : x300_consts where
  X300_PCIE_MAX_CHANNELS := 6
  SR_ADDR := fun base offset => base + 4 * offset
  SET0_BASE := 0xa000
  SETXB_BASE := 0xb000
  ZPU_SR_XB_LOCAL := 3
  ZPU_SR_SW_RST := 100
  ZPU_SR_SW_RST_RADIO_CLK_PLL := 4
  ZPU_SR_SW_RST_ADC_IDELAYCTRL := 8
  IP_PROTOCOL_MIN_MTU_SIZE := 576
  IP_PROTOCOL_UDP_PLUS_IP_HEADER := 28
  X300_MTU_DETECT_ECHO_REQUEST := 1
  X300_MTU_DETECT_ECHO_REPLY := 2
  X300_FW_SHMEM_BASE := 0x6000
  X300_FW_SHMEM_CLAIM_STATUS := 5
  X300_FW_SHMEM_CLAIM_TIME := 6
  X300_FW_SHMEM_CLAIM_SRC := 7
  X300_FW_COMMS_FLAGS_ACK := 1
  ZPU_RB_ETH_TYPE0 := 4
  ZPU_RB_ETH_TYPE1 := 5
  ZPU_SR_DRAM_FIFO0 := 200
  ZPU_RB_DRAM_FIFO0 := 10
  ZPU_SR_DRAM_FIFO1 := 208
  ZPU_RB_DRAM_FIFO1 := 11
  pcie_ssid_mb_type := fun pid =>
    if pid = 0x7736 ∨ pid = 0x76CA then x300_mboard_t.USRP_X300_MB
    else if pid = 0x7737 ∨ pid = 0x76CB then x300_mboard_t.USRP_X310_MB
    else x300_mboard_t.UNKNOWN
  X300_10GE_DATA_FRAME_MAX_SIZE := 8000
  X300_1GE_DATA_FRAME_MAX_SIZE := 1472
  X300_ETH_MSG_FRAME_SIZE := 1472
  X300_ETH_DATA_NUM_FRAMES := 32
  X300_ETH_MSG_NUM_FRAMES := 64
  X300_MAX_RATE_10GIGE := 1250000000
  X300_MAX_RATE_1GIGE := 125000000
  X300_SRC_ADDR0 := 0
  X300_SRC_ADDR1 := 1
  X300_XB_DST_E0 := 0
  X300_XB_DST_E1 := 1
  X300_VITA_UDP_PORT := 49153
  ZPU_SR_ETHINT0 := 40
  ZPU_SR_ETHINT1 := 56

/-! ## Stream identifiers -/

/-- Modelled from the spec: uhd::sid_t (uhd/types/sid.hpp is included by
x300_impl.cpp but is not part of the sources). The spec describes a SID as "a
fixed-width value packing {source address, source endpoint, destination address,
destination endpoint, destination crossbar port}". The source handles the packed
value as a uint32_t (`uint32_t raw_sid = tx_sid.get()`), builds SIDs from four
fields (`sid_t(X300_SRC_ADDR0, 0, X300_DST_ADDR, 0)`), shifts the 16-bit
destination into the upper half of a word (`recv_sid.get_dst() << 16`) and indexes
the upper half of the crossbar table with `256 + get_dst_endpoint()`: four 8-bit
fields, source address in the top byte, the crossbar port being the upper nibble
of the destination endpoint. -/
structure sid_t where
  raw : Nat
  deriving DecidableEq, Repr

namespace sid_t

/-- Modelled from the spec: sid_t::get, the packed value as a uint32_t. -/
def get (s : sid_t) : Nat := s.raw % 2 ^ 32

/-- Modelled from the spec: sid_t::get_src_addr, bits 31..24. -/
def get_src_addr (s : sid_t) : Nat := s.raw / 2 ^ 24 % 256

/-- Modelled from the spec: sid_t::get_src_endpoint, bits 23..16. -/
def get_src_endpoint (s : sid_t) : Nat := s.raw / 2 ^ 16 % 256

/-- Modelled from the spec: sid_t::get_dst_addr, bits 15..8. -/
def get_dst_addr (s : sid_t) : Nat := s.raw / 2 ^ 8 % 256

/-- Modelled from the spec: sid_t::get_dst_endpoint, bits 7..0. -/
def get_dst_endpoint (s : sid_t) : Nat := s.raw % 256

/-- Modelled from the spec: sid_t::get_dst_xbarport, the upper nibble of the
destination endpoint. -/
def get_dst_xbarport (s : sid_t) : Nat := s.raw / 16 % 16

/-- Modelled from the spec: sid_t::set_src_addr; the argument is a uint32_t of
which the field keeps the low eight bits. -/
def set_src_addr (s : sid_t) (new_addr : Nat) : sid_t :=
  ⟨(new_addr % 256) * 2 ^ 24 + s.raw % 2 ^ 24⟩

/-- Modelled from the spec: sid_t::set_src_endpoint; the argument is a uint32_t
of which the field keeps the low eight bits. -/
def set_src_endpoint (s : sid_t) (new_endpoint : Nat) : sid_t :=
  ⟨(s.raw / 2 ^ 24 % 256) * 2 ^ 24 + (new_endpoint % 256) * 2 ^ 16 + s.raw % 2 ^ 16⟩

/-- Modelled from the spec: sid_t::get_dst, the 16-bit destination (address and
endpoint), bits 15..0. -/
def get_dst (s : sid_t) : Nat := s.raw % 2 ^ 16

/-- Modelled from the spec: sid_t::get_src, the 16-bit source (address and
endpoint), bits 31..16. -/
def get_src (s : sid_t) : Nat := s.raw / 2 ^ 16 % 2 ^ 16

/-- Modelled from the spec: sid_t::reversed, the SID with source and destination
exchanged ("reversal swaps src/dst"). -/
def reversed (s : sid_t) : sid_t := ⟨s.get_dst * 2 ^ 16 + s.get_src⟩

end sid_t

/-! ## PCIe DMA channel pool -/

/-- The transport kinds this file distinguishes (device3_impl::xport_type_t). -/
inductive xport_type_t where
  | CTRL
  | TX_DATA
  | RX_DATA
  deriving DecidableEq, Repr

/-- The member `_dma_chan_pool`, a std::map from raw SID to channel number, as an
association list with at most one entry per key. Only `count`, `size`,
`operator[]` are used on it, none of which observes the order of the entries;
new keys are appended. -/
abbrev dma_chan_pool_t := List (Nat × Nat)

/-- The call `_dma_chan_pool.count(raw_sid)`. -/
def pool_count (pool : dma_chan_pool_t) (raw_sid : Nat) : Nat :=
  if (pool.lookup raw_sid).isSome then 1 else 0

/-- Reading `_dma_chan_pool[raw_sid]` (a missing key reads as the default 0). -/
def pool_at (pool : dma_chan_pool_t) (raw_sid : Nat) : Nat :=
  (pool.lookup raw_sid).getD 0

/-- The assignment `_dma_chan_pool[raw_sid] = v`. -/
def pool_assign (pool : dma_chan_pool_t) (raw_sid v : Nat) : dma_chan_pool_t :=
  if (pool.lookup raw_sid).isSome then
    pool.map (fun e => if e.1 = raw_sid then (e.1, v) else e)
  else pool ++ [(raw_sid, v)]

def CTRL_CHANNEL : Nat := 0

def FIRST_DATA_CHANNEL : Nat := 1

/-- The function x300_impl::allocate_pcie_dma_chan (lines 1068-1089). The result
is the returned channel or the exception thrown, together with `_dma_chan_pool`
after the call. In `_dma_chan_pool[raw_sid] = _dma_chan_pool.size() + 1` the right
operand is evaluated before the entry is created (the order C++17 fixes for an
assignment), so a new SID gets the old size plus one. The budget check follows
the insertion, as in the source. Channel numbers stay below the budget, so the
conversion of the size to uint32_t never truncates and is not modelled. -/
def allocate_pcie_dma_chan (k : x300_consts) (pool : dma_chan_pool_t)
    (tx_sid : sid_t) (xport_type : xport_type_t) :
    Except uhd_error Nat × dma_chan_pool_t :=
  if xport_type = xport_type_t.CTRL then
    (Except.ok CTRL_CHANNEL, pool)
  else
    let raw_sid := tx_sid.get
    let pool1 :=
      if pool_count pool raw_sid = 0 then
        pool_assign pool raw_sid (pool.length + FIRST_DATA_CHANNEL)
      else pool
    if pool1.length + FIRST_DATA_CHANNEL > k.X300_PCIE_MAX_CHANNELS then
      (Except.error uhd_error.runtime_error, pool1)
    else
      (Except.ok (pool_at pool1 raw_sid), pool1)

/-- A sequence of allocate_pcie_dma_chan calls on one session, starting from the
pool `pool`: the outcomes in call order and the final pool. -/
def allocate_pcie_dma_chans (k : x300_consts) :
    dma_chan_pool_t → List (sid_t × xport_type_t) →
      List (Except uhd_error Nat) × dma_chan_pool_t
  | pool, [] => ([], pool)
  | pool, (sid, ty) :: rest =>
    let r := allocate_pcie_dma_chan k pool sid ty
    let rs := allocate_pcie_dma_chans k r.2 rest
    (r.1 :: rs.1, rs.2)

/-- The raw SIDs of a request sequence in the order in which they are first
requested (each distinct value once). -/
def first_requests : List Nat → List Nat → List Nat
  | seen, [] => seen
  | seen, x :: xs => if x ∈ seen then first_requests seen xs else first_requests (seen ++ [x]) xs

/-- The raw SIDs that have an entry in the pool, in insertion order. -/
def pool_keys (pool : dma_chan_pool_t) : List Nat := pool.map Prod.fst

/-- The invariant of the pool: the entry of the key at (0-based) position i of
the insertion order is channel i + 1. -/
def pool_wf (pool : dma_chan_pool_t) : Prop :=
  ∀ x ∈ pool_keys pool, pool.lookup x = some ((pool_keys pool).indexOf x + 1)

/-- The raw SIDs of the data-kind requests of a request sequence. -/
def data_raws (reqs : List (sid_t × xport_type_t)) : List Nat :=
  (reqs.filter (fun r => r.2 ≠ xport_type_t.CTRL)).map (fun r => r.1.get)

/-! ## Hardware seen by a motherboard -/

/-- The values of the clock-source fields of the clock control register
(fw_regmap_t::clk_ctrl_reg_t::SRC_INTERNAL and so on). -/
inductive clk_src_t where
  | SRC_EXTERNAL
  | SRC_INTERNAL
  | SRC_GPSDO
  deriving DecidableEq, Repr

/-- Modelled from the spec: the soft register fw_regmap_t::clk_ctrl_reg_t behind
`fw_regmap->clock_ctrl_reg` (x300_regs.hpp is not among the sources), one entry
per field the source names. `set` changes the soft copy held by the host, `flush`
writes the soft copy to the device in one register write, `write` does both. -/
structure clk_ctrl_reg_t where
  CLK_SOURCE : clk_src_t
  TCXO_EN : Nat
  PPS_SELECT : clk_src_t
  PPS_OUT_EN : Nat
  TIME_SYNC : Nat
  deriving DecidableEq, Repr

/-- The fields of the clock status register that the source polls. -/
inductive clk_status_field where
  | LMK_LOCK
  | RADIO_CLK_LOCK
  | IDELAYCTRL_LOCK
  | PPS_DETECT
  deriving DecidableEq, Repr

/-- What a motherboard's hardware is asked to do, in program order.
`framer_packet` is the packet of two words (given before the conversion to network
byte order) that make_transport sends from a new socket on the interface
`interface_addr` to program the Ethernet framer. -/
inductive hw_event where
  | poke32 (addr data : Nat)
  | clock_ctrl_reg_flush (reg : clk_ctrl_reg_t)
  | clock_status_reg_read (which : clk_status_field) (value : Nat)
  | reset_clocks
  | reset_codec (radio : Nat)
  | peek32 (addr : Nat)
  | framer_packet (interface_addr : String) (word0 word1 : Nat)
  deriving DecidableEq, Repr

/-- The behaviour of the hardware and of the host clock, given from outside:
the value a read of a status field returns at a given time (in ms), and by how
many ms a 1 ms sleep started at a given time overruns. -/
structure hw_oracle where
  clock_status : clk_status_field → Nat → Nat
  sleep_overrun : Nat → Nat

/-- The link kinds of x300_eth_iface_t (declared in x300_impl.hpp), by the names
the source uses. -/
inductive x300_eth_iface_t where
  | X300_IFACE_NONE
  | X300_IFACE_ETH0
  | X300_IFACE_ETH1
  deriving DecidableEq, Repr

/-- The struct x300_eth_conn_t: one physical link of a motherboard. -/
structure x300_eth_conn_t where
  addr : String
  type : x300_eth_iface_t
  deriving DecidableEq, Repr

/-- The members of mboard_members_t used by the functions embedded here, together
with the host time `now` (ms) and the log `trace` of what has been done to the
hardware of this motherboard. `radios` is the number of entries of `mb.radios`, `pri_eth_addr` is
`mb.get_pri_eth().addr` and `claimer_task` tells whether the claimer task of the
motherboard is alive. `link_max_rate` is the entry link_max_rate of the motherboard
in the property tree. -/
structure mboard_members_t where
  pri_eth_addr : String
  claimer_task : Bool
  eth_conns : List x300_eth_conn_t
  next_src_addr : Nat
  loaded_fpga_image : String
  link_max_rate : Nat
  current_refclk_src : String
  initialization_done : Bool
  hw_rev : Nat
  clock_ctrl_reg : clk_ctrl_reg_t
  radios : Nat
  now : Nat
  trace : List hw_event
  deriving DecidableEq, Repr

/-- The call `mb.zpu_ctrl->poke32(addr, data)`. -/
def poke32 (mb : mboard_members_t) (addr data : Nat) : mboard_members_t :=
  { mb with trace := mb.trace ++ [hw_event.poke32 addr data] }

/-- A motherboard state on which to evaluate the embedding. -/
def sample_mb : mboard_members_t where
  pri_eth_addr := "192.168.10.2"
  claimer_task := true
  eth_conns := [{ addr := "192.168.10.2", type := x300_eth_iface_t.X300_IFACE_ETH0 },
                { addr := "192.168.20.2", type := x300_eth_iface_t.X300_IFACE_ETH1 }]
  next_src_addr := 0
  loaded_fpga_image := "HG"
  link_max_rate := 1250000000
  current_refclk_src := "internal"
  initialization_done := true
  hw_rev := 6
  clock_ctrl_reg :=
    { CLK_SOURCE := clk_src_t.SRC_INTERNAL, TCXO_EN := 1, PPS_SELECT := clk_src_t.SRC_INTERNAL,
      PPS_OUT_EN := 0, TIME_SYNC := 0 }
  radios := 2
  now := 0
  trace := []

/-! ## SID router -/

/-- The function x300_impl::allocate_sid (lines 1307-1333). The member
`_sid_framer` is passed in and returned next to the motherboard; the result is
(returned SID, motherboard after the call, `_sid_framer` after the call). The
arguments `src_addr`, `src_dst` are uint32_t values. -/
def allocate_sid (k : x300_consts) (mb : mboard_members_t) (_sid_framer : Nat)
    (address : sid_t) (src_addr src_dst : Nat) : sid_t × mboard_members_t × Nat :=
  let sid := address
  let sid := sid.set_src_addr src_addr
  let sid := sid.set_src_endpoint _sid_framer
  let mb := poke32 mb (k.SR_ADDR k.SET0_BASE k.ZPU_SR_XB_LOCAL) address.get_dst_addr
  let mb := poke32 mb (k.SR_ADDR k.SETXB_BASE (256 + address.get_dst_endpoint))
    address.get_dst_xbarport
  let mb := poke32 mb (k.SR_ADDR k.SETXB_BASE (0 + src_addr)) src_dst
  let _sid_framer := _sid_framer + 1
  (sid, mb, _sid_framer)

/-- A sequence of allocate_sid calls of one session, each given as (address,
src_addr, src_dst): the SIDs returned in call order, and the motherboard and
counter after the last call. -/
def allocate_sids (k : x300_consts) :
    mboard_members_t → Nat → List (sid_t × Nat × Nat) → List sid_t × mboard_members_t × Nat
  | mb, fr, [] => ([], mb, fr)
  | mb, fr, (address, src_addr, src_dst) :: rest =>
    let r := allocate_sid k mb fr address src_addr src_dst
    let rs := allocate_sids k r.2.1 r.2.2 rest
    (r.1 :: rs.1, rs.2)

/-- The (source address, source endpoint) pair a SID carries. -/
def src_pair (s : sid_t) : Nat × Nat := (s.get_src_addr, s.get_src_endpoint)

/-! ## Clock-source controller -/

/-- The call `mb.fw_regmap->clock_ctrl_reg.flush()`: one register write of the
soft copy. -/
def clock_ctrl_reg_flush (mb : mboard_members_t) : mboard_members_t :=
  { mb with trace := mb.trace ++ [hw_event.clock_ctrl_reg_flush mb.clock_ctrl_reg] }

/-- The call `mb.clock->reset_clocks()`. -/
def reset_clocks (mb : mboard_members_t) : mboard_members_t :=
  { mb with trace := mb.trace ++ [hw_event.reset_clocks] }

/-- The call `mb.fw_regmap->clock_status_reg.read(which)`: the value read and
the motherboard with the read logged. -/
def clock_status_reg_read (hw : hw_oracle) (mb : mboard_members_t) (which : clk_status_field) :
    Nat × mboard_members_t :=
  let v := hw.clock_status which mb.now
  (v, { mb with trace := mb.trace ++ [hw_event.clock_status_reg_read which v] })

/-- The call `boost::this_thread::sleep(milliseconds(1))`. -/
def sleep_1ms (hw : hw_oracle) (mb : mboard_members_t) : mboard_members_t :=
  { mb with now := mb.now + 1 + hw.sleep_overrun mb.now }

/-- The do-while loop of wait_for_clk_locked followed by the last read. Every
pass sleeps at least 1 ms, so the loop makes at most `timeout_time - now` passes
after the first; `passes` bounds the passes still to make. -/
def wait_for_clk_locked_loop (hw : hw_oracle) (which : clk_status_field) (timeout_time : Nat) :
    Nat → mboard_members_t → Bool × mboard_members_t
  | 0, mb =>
    let r := clock_status_reg_read hw mb which
    (r.1 == 1, r.2)
  | passes + 1, mb =>
    let r := clock_status_reg_read hw mb which
    if r.1 = 1 then (true, r.2)
    else
      let mb := sleep_1ms hw r.2
      if mb.now < timeout_time then wait_for_clk_locked_loop hw which timeout_time passes mb
      else
        let r := clock_status_reg_read hw mb which
        (r.1 == 1, r.2)

/-- The function x300_impl::wait_for_clk_locked (lines 1476-1487); `timeout_ms`
is `timeout * 1000.0`. -/
def wait_for_clk_locked (hw : hw_oracle) (mb : mboard_members_t) (which : clk_status_field)
    (timeout_ms : Nat) : Bool × mboard_members_t :=
  let timeout_time := mb.now + timeout_ms
  wait_for_clk_locked_loop hw which timeout_time (timeout_ms + 1) mb

/-- The loop `BOOST_FOREACH(r, mb.radios) r->reset_codec()` over the first `n`
radios. -/
def reset_codecs (mb : mboard_members_t) : Nat → mboard_members_t
  | 0 => mb
  | n + 1 =>
    let mb := reset_codecs mb n
    { mb with trace := mb.trace ++ [hw_event.reset_codec n] }

/-- The first block of update_clock_source (lines 1374-1392): select the source
on the clock MUX, flush, reset the LMK. -/
def update_clock_source_mux (mb : mboard_members_t) (source : String) :
    Except uhd_error Unit × mboard_members_t :=
  let r : Except uhd_error Unit × mboard_members_t :=
    if source = "internal" then
      (Except.ok (), { mb with clock_ctrl_reg :=
        { mb.clock_ctrl_reg with CLK_SOURCE := clk_src_t.SRC_INTERNAL, TCXO_EN := 1 } })
    else if source = "external" then
      (Except.ok (), { mb with clock_ctrl_reg :=
        { mb.clock_ctrl_reg with CLK_SOURCE := clk_src_t.SRC_EXTERNAL, TCXO_EN := 0 } })
    else if source = "gpsdo" then
      (Except.ok (), { mb with clock_ctrl_reg :=
        { mb.clock_ctrl_reg with CLK_SOURCE := clk_src_t.SRC_GPSDO, TCXO_EN := 0 } })
    else (Except.error uhd_error.key_error, mb)
  match r with
  | (Except.error e, mb) => (Except.error e, mb)
  | (Except.ok (), mb) =>
    let mb := clock_ctrl_reg_flush mb
    let mb := reset_clocks mb
    (Except.ok (), mb)

/-- The wait for the LMK lock of update_clock_source (lines 1398-1413). -/
def update_clock_source_ref_lock (hw : hw_oracle) (mb : mboard_members_t) :
    Except uhd_error Unit × mboard_members_t :=
  let timeout_ms := if mb.initialization_done then 30000 else 1000
  if mb.hw_rev > 4 then
    let r := wait_for_clk_locked hw mb clk_status_field.LMK_LOCK timeout_ms
    if ! r.1 then
      if r.2.initialization_done then (Except.error uhd_error.runtime_error, r.2)
      else (Except.ok (), r.2)
    else (Except.ok (), r.2)
  else (Except.ok (), mb)

/-- The last block of update_clock_source (lines 1415-1438): reset and poll the
radio clock PLL, reset and poll the IDELAYCTRL, reset the codecs. -/
def update_clock_source_relock (k : x300_consts) (hw : hw_oracle) (mb : mboard_members_t) :
    Except uhd_error Unit × mboard_members_t :=
  let mb := poke32 mb (k.SR_ADDR k.SET0_BASE k.ZPU_SR_SW_RST) k.ZPU_SR_SW_RST_RADIO_CLK_PLL
  let mb := poke32 mb (k.SR_ADDR k.SET0_BASE k.ZPU_SR_SW_RST) 0
  let r := wait_for_clk_locked hw mb clk_status_field.RADIO_CLK_LOCK 10
  if ! r.1 then (Except.error uhd_error.runtime_error, r.2)
  else
    let mb := r.2
    let mb := poke32 mb (k.SR_ADDR k.SET0_BASE k.ZPU_SR_SW_RST) k.ZPU_SR_SW_RST_ADC_IDELAYCTRL
    let mb := poke32 mb (k.SR_ADDR k.SET0_BASE k.ZPU_SR_SW_RST) 0
    let r := wait_for_clk_locked hw mb clk_status_field.IDELAYCTRL_LOCK 10
    if ! r.1 then (Except.error uhd_error.runtime_error, r.2)
    else (Except.ok (), reset_codecs r.2 r.2.radios)

/-- The function x300_impl::update_clock_source (lines 1368-1442): the outcome
and the motherboard after the call (also after a throw). -/
def update_clock_source (k : x300_consts) (hw : hw_oracle) (mb : mboard_members_t)
    (source : String) : Except uhd_error Unit × mboard_members_t :=
  let reconfigure_clks : Bool := (mb.current_refclk_src != "internal") || (source != "internal")
  let r1 := if reconfigure_clks then update_clock_source_mux mb source else (Except.ok (), mb)
  match r1 with
  | (Except.error e, mb) => (Except.error e, mb)
  | (Except.ok (), mb) =>
    match update_clock_source_ref_lock hw mb with
    | (Except.error e, mb) => (Except.error e, mb)
    | (Except.ok (), mb) =>
      let r3 := if reconfigure_clks then update_clock_source_relock k hw mb else (Except.ok (), mb)
      match r3 with
      | (Except.error e, mb) => (Except.error e, mb)
      | (Except.ok (), mb) => (Except.ok (), { mb with current_refclk_src := source })

/-- The value the first block of update_clock_source leaves in the soft copy of
the clock control register for a valid source name. -/
def clock_mux_setting (reg : clk_ctrl_reg_t) (source : String) : clk_ctrl_reg_t :=
  if source = "internal" then { reg with CLK_SOURCE := clk_src_t.SRC_INTERNAL, TCXO_EN := 1 }
  else if source = "external" then { reg with CLK_SOURCE := clk_src_t.SRC_EXTERNAL, TCXO_EN := 0 }
  else { reg with CLK_SOURCE := clk_src_t.SRC_GPSDO, TCXO_EN := 0 }

/-- An event that writes a register. -/
def hw_event.is_register_write : hw_event → Bool
  | hw_event.poke32 _ _ => true
  | hw_event.clock_ctrl_reg_flush _ => true
  | _ => false

/-- An event that resets the synthesizer or a codec. -/
def hw_event.is_reset : hw_event → Bool
  | hw_event.reset_clocks => true
  | hw_event.reset_codec _ => true
  | _ => false

/-! ## MTU prober -/

/-- Modelled from the spec: the record x300_mtu_t (x300_fw_common.h is not among
the sources) that heads every MTU-detection datagram, "{flags: 32-bit, size:
32-bit}"; the source reads and writes `request->flags` and `request->size`. -/
structure x300_mtu_t where
  flags : Nat
  size : Nat
  deriving DecidableEq, Repr

/-- Modelled from the spec: the value of `sizeof(x300_mtu_t)`, two 32-bit words. -/
def sizeof_x300_mtu_t : Nat := 8

/-- What one `udp->send` puts on the wire: the header at the front of the buffer
and the number of bytes sent. -/
structure mtu_probe where
  hdr : x300_mtu_t
  nbytes : Nat
  deriving DecidableEq, Repr

/-- What arrives within the echo timeout after a send: the length of the datagram
(0 when nothing arrives) and the header it starts with. -/
structure mtu_reply where
  len : Nat
  hdr : x300_mtu_t
  deriving DecidableEq, Repr

/-- The network and the device behind it: the reply to the n-th datagram sent
(counted from 0) as a function of n and of that datagram. -/
abbrev mtu_peer := Nat → mtu_probe → mtu_reply

/-- The struct frame_size_t. -/
structure frame_size_t where
  recv_frame_size : Nat
  send_frame_size : Nat
  deriving DecidableEq, Repr

/-- The call `udp->recv(boost::asio::buffer(buffer), echo_timeout)` on a buffer of
`bufsize` bytes whose header currently reads `request`: the returned length (the
datagram cut to the buffer) and the header of the buffer afterwards (a word is
overwritten when the datagram covers it). -/
def udp_recv (bufsize : Nat) (request : x300_mtu_t) (reply : mtu_reply) : Nat × x300_mtu_t :=
  let len := min reply.len bufsize
  (len, { flags := if 4 ≤ len then reply.hdr.flags else request.flags,
          size := if 8 ≤ len then reply.hdr.size else request.size })

/-- The value of `(max/2 + min/2 + 3) & ~3`: on a size_t, `x & ~3` clears the two
low bits, which is `x / 4 * 4`. -/
def test_frame_size (min_frame_size max_frame_size : Nat) : Nat :=
  (max_frame_size / 2 + min_frame_size / 2 + 3) / 4 * 4

/-- One probe of the receive loop (lines 1584-1588): the echo request for `test`
bytes goes out as datagram `n`, in `sizeof(x300_mtu_t)` bytes; the result is the
`len` that `udp->recv` returns. -/
def recv_probe (k : x300_consts) (peer : mtu_peer) (bufsize n test : Nat) : Nat :=
  let request : x300_mtu_t := { flags := k.X300_MTU_DETECT_ECHO_REQUEST, size := test }
  let reply := peer n { hdr := request, nbytes := min sizeof_x300_mtu_t bufsize }
  (udp_recv bufsize request reply).1

/-- The receive loop of determine_max_frame_size (lines 1580-1594), run for at
most `fuel` passes: `n` counts the datagrams sent so far; the result is `none`
when the loop is still running after `fuel` passes, else (n, min_recv_frame_size,
max_recv_frame_size) at loop exit. -/
def recv_search (k : x300_consts) (peer : mtu_peer) (bufsize : Nat) :
    Nat → Nat → Nat → Nat → Option (Nat × Nat × Nat)
  | 0, _, _, _ => none
  | fuel + 1, n, min_recv_frame_size, max_recv_frame_size =>
    if min_recv_frame_size < max_recv_frame_size then
      let test := test_frame_size min_recv_frame_size max_recv_frame_size
      let len := recv_probe k peer bufsize n test
      if len ≥ test then recv_search k peer bufsize fuel (n + 1) test max_recv_frame_size
      else recv_search k peer bufsize fuel (n + 1) min_recv_frame_size (test - 4)
    else some (n, min_recv_frame_size, max_recv_frame_size)

/-- One probe of the send loop (lines 1604-1610): a request of `test` bytes (cut
to the buffer) goes out as datagram `n`; the result is `len` after line 1610, the
size word of the reply when a whole header came back. -/
def send_probe (k : x300_consts) (peer : mtu_peer) (bufsize n test : Nat) : Nat :=
  let request : x300_mtu_t :=
    { flags := k.X300_MTU_DETECT_ECHO_REQUEST, size := sizeof_x300_mtu_t }
  let reply := peer n { hdr := request, nbytes := min test bufsize }
  let r := udp_recv bufsize request reply
  if r.1 ≥ sizeof_x300_mtu_t then r.2.size else r.1

/-- The send loop of determine_max_frame_size (lines 1600-1616), as recv_search. -/
def send_search (k : x300_consts) (peer : mtu_peer) (bufsize : Nat) :
    Nat → Nat → Nat → Nat → Option (Nat × Nat × Nat)
  | 0, _, _, _ => none
  | fuel + 1, n, min_send_frame_size, max_send_frame_size =>
    if min_send_frame_size < max_send_frame_size then
      let test := test_frame_size min_send_frame_size max_send_frame_size
      let len := send_probe k peer bufsize n test
      if len ≥ test then send_search k peer bufsize fuel (n + 1) test max_send_frame_size
      else send_search k peer bufsize fuel (n + 1) min_send_frame_size (test - 4)
    else some (n, min_send_frame_size, max_send_frame_size)

/-- The protocol minimum `IP_PROTOCOL_MIN_MTU_SIZE-IP_PROTOCOL_UDP_PLUS_IP_HEADER`. -/
def min_frame_size (k : x300_consts) : Nat :=
  k.IP_PROTOCOL_MIN_MTU_SIZE - k.IP_PROTOCOL_UDP_PLUS_IP_HEADER

/-- The test holler of determine_max_frame_size (lines 1566-1570): a request of
`sizeof(x300_mtu_t)` bytes is sent as datagram 0 and the reply is received into
the buffer; the result is the header of the buffer afterwards. -/
def test_holler (k : x300_consts) (peer : mtu_peer) (bufsize : Nat) : x300_mtu_t :=
  let request : x300_mtu_t :=
    { flags := k.X300_MTU_DETECT_ECHO_REQUEST, size := sizeof_x300_mtu_t }
  let reply := peer 0 { hdr := request, nbytes := min sizeof_x300_mtu_t bufsize }
  (udp_recv bufsize request reply).2

/-- The function x300_impl::determine_max_frame_size (lines 1556-1630) with each
loop run for at most `fuel` passes: `none` when a loop is still running after that
many passes, else the exception thrown or the frame sizes returned. Sizes are
bounded by the length of the buffer allocated on entry, so no size_t or uint32_t
arithmetic wraps; the byte-order conversions cancel and are left out. -/
def determine_max_frame_size (k : x300_consts) (peer : mtu_peer) (fuel : Nat)
    (user_frame_size : frame_size_t) : Option (Except uhd_error frame_size_t) :=
  let bufsize := max user_frame_size.recv_frame_size user_frame_size.send_frame_size
  let request := test_holler k peer bufsize
  if request.flags &&& k.X300_MTU_DETECT_ECHO_REPLY = 0 then
    some (Except.error uhd_error.not_implemented_error)
  else
    match recv_search k peer bufsize fuel 1 sizeof_x300_mtu_t user_frame_size.recv_frame_size with
    | none => none
    | some (n, min_recv_frame_size, _) =>
      if min_recv_frame_size < min_frame_size k then some (Except.error uhd_error.runtime_error)
      else
        match send_search k peer bufsize fuel n sizeof_x300_mtu_t
            user_frame_size.send_frame_size with
        | none => none
        | some (_, min_send_frame_size, _) =>
          if min_send_frame_size < min_frame_size k then
            some (Except.error uhd_error.runtime_error)
          else
            some (Except.ok
              { recv_frame_size := min min_recv_frame_size min_send_frame_size,
                send_frame_size := min min_recv_frame_size min_send_frame_size })

/-- An echo peer with threshold `T`: a datagram passes when it has at most `T`
bytes. An echo request that asks for `size` bytes is answered with `size` bytes
when `size ≤ T` and with nothing otherwise; the reply reports in its size word the
number of bytes of the request that arrived. -/
def threshold_peer (k : x300_consts) (T : Nat) : mtu_peer := fun _ probe =>
  if probe.nbytes ≤ T ∧ probe.hdr.size ≤ T then
    { len := max probe.hdr.size sizeof_x300_mtu_t,
      hdr := { flags := k.X300_MTU_DETECT_ECHO_REPLY, size := probe.nbytes } }
  else { len := 0, hdr := { flags := 0, size := 0 } }

/-- A peer answers echo requests with threshold `T`: a request for `s` bytes,
sent as a bare header, is answered with at least `s` bytes when `s ≤ T` and with
fewer than `s` bytes (or nothing) when `s > T`. -/
def echo_threshold (peer : mtu_peer) (T : Nat) : Prop :=
  ∀ (n : Nat) (probe : mtu_probe), probe.nbytes ≤ sizeof_x300_mtu_t →
    (probe.hdr.size ≤ T → probe.hdr.size ≤ (peer n probe).len) ∧
    (T < probe.hdr.size → (peer n probe).len < probe.hdr.size)

/-- A hardware whose status bits always read locked and whose sleeps are exact,
on which to evaluate the embedding. -/
def hw_locked : hw_oracle where
  clock_status := fun _ _ => 1
  sleep_overrun := fun _ => 0

/-! ## Time-source selection and the shape of a clock reconfiguration -/

/-- The call `mb.fw_regmap->clock_ctrl_reg.write(PPS_SELECT, v)`: set the field in
the soft copy and flush it. -/
def clock_ctrl_reg_write_PPS_SELECT (mb : mboard_members_t) (v : clk_src_t) :
    mboard_members_t :=
  clock_ctrl_reg_flush { mb with clock_ctrl_reg := { mb.clock_ctrl_reg with PPS_SELECT := v } }

/-- The function x300_impl::update_time_source (lines 1444-1462): the outcome and
the motherboard after the call. -/
def update_time_source (mb : mboard_members_t) (source : String) :
    Except uhd_error Unit × mboard_members_t :=
  if source = "internal" then
    (Except.ok (), clock_ctrl_reg_write_PPS_SELECT mb clk_src_t.SRC_INTERNAL)
  else if source = "external" then
    (Except.ok (), clock_ctrl_reg_write_PPS_SELECT mb clk_src_t.SRC_EXTERNAL)
  else if source = "gpsdo" then
    (Except.ok (), clock_ctrl_reg_write_PPS_SELECT mb clk_src_t.SRC_GPSDO)
  else (Except.error uhd_error.key_error, mb)

/-- The clock-source value that belongs to a valid source name. -/
def clk_src_of_name (source : String) : clk_src_t :=
  if source = "internal" then clk_src_t.SRC_INTERNAL
  else if source = "external" then clk_src_t.SRC_EXTERNAL
  else clk_src_t.SRC_GPSDO

/-- The trace of one lock poll: the reads of the status field `which` that
returned the values `vs`, in order. -/
def status_reads (which : clk_status_field) (vs : List Nat) : List hw_event :=
  vs.map (hw_event.clock_status_reg_read which)

/-- The trace of the codec resets of `n` radios. -/
def codec_resets (n : Nat) : List hw_event :=
  (List.range n).map hw_event.reset_codec

/-- The values `vs` are what one poll of `which` read: at least one read, every
value is what the hardware returned at some time, and no read but the last
returned 1. -/
def poll_values (hw : hw_oracle) (which : clk_status_field) (vs : List Nat) : Prop :=
  vs ≠ [] ∧ (∀ v ∈ vs.dropLast, v ≠ 1) ∧ ∀ v ∈ vs, ∃ t, v = hw.clock_status which t

/-- The pulse on the software reset register that update_clock_source uses to
reset a clock block: the block's reset bit, then 0. -/
def sw_rst_pulse (k : x300_consts) (bit : Nat) : List hw_event :=
  [hw_event.poke32 (k.SR_ADDR k.SET0_BASE k.ZPU_SR_SW_RST) bit,
   hw_event.poke32 (k.SR_ADDR k.SET0_BASE k.ZPU_SR_SW_RST) 0]

/-- A hardware whose radio clock PLL never reads locked (everything else reads
locked), on which to evaluate the embedding. -/
def hw_radio_unlocked : hw_oracle where
  clock_status := fun which _ => if which = clk_status_field.RADIO_CLK_LOCK then 0 else 1
  sleep_overrun := fun _ => 0

/-- A hardware whose reference PLL (LMK) never reads locked (everything else
reads locked), on which to evaluate the embedding. -/
def hw_lmk_unlocked : hw_oracle where
  clock_status := fun which _ => if which = clk_status_field.LMK_LOCK then 0 else 1
  sleep_overrun := fun _ => 0

/-- The full reconfiguration sequence of update_clock_source as a trace: the write
of the clock control register with `setting`, the synthesizer reset, the reads
`lmk` of the reference PLL lock, the reset pulse of the radio clock PLL and the
reads `radio` of its lock, the reset pulse of the IDELAYCTRL and the reads `idelay`
of its lock, the reset of the codecs of `radios` radios. -/
def reconfigure_sequence (k : x300_consts) (setting : clk_ctrl_reg_t)
    (lmk radio idelay : List Nat) (radios : Nat) : List hw_event :=
  [hw_event.clock_ctrl_reg_flush setting, hw_event.reset_clocks] ++
    status_reads clk_status_field.LMK_LOCK lmk ++
    sw_rst_pulse k k.ZPU_SR_SW_RST_RADIO_CLK_PLL ++
    status_reads clk_status_field.RADIO_CLK_LOCK radio ++
    sw_rst_pulse k k.ZPU_SR_SW_RST_ADC_IDELAYCTRL ++
    status_reads clk_status_field.IDELAYCTRL_LOCK idelay ++
    codec_resets radios

/-- The sample motherboard on a hardware revision whose reference lock is not
polled. -/
def sample_mb_rev4 : mboard_members_t := { sample_mb with hw_rev := 4 }

/-- The sample motherboard during bring-up (setup_mb has not finished). -/
def sample_mb_bringup : mboard_members_t := { sample_mb with initialization_done := false }

/-- An event that reads the status field `which`. -/
def hw_event.is_status_read (which : clk_status_field) : hw_event → Bool
  | hw_event.clock_status_reg_read w _ => w == which
  | _ => false

/-! ## Claim manager and session teardown -/

/-- The device memory behind a control interface as the host reads it: the word
that `iface->peek32(addr)` returns for each address. -/
abbrev wb_iface := Nat → Nat

/-- The effect of `iface->poke32(addr, data)` on the device memory. -/
def wb_poke (iface : wb_iface) (addr data : Nat) : wb_iface :=
  fun a => if a = addr then data else iface a

/-- The critical section of x300_impl::claimer_loop (lines 1533-1537): the claim
time and the identity hash of the process are written to the device. `time` is
`time(NULL)`, of which the device gets the low 32 bits. -/
def claimer_loop (k : x300_consts) (iface : wb_iface) (time process_hash : Nat) : wb_iface :=
  let iface := wb_poke iface (k.SR_ADDR k.X300_FW_SHMEM_BASE k.X300_FW_SHMEM_CLAIM_TIME)
    (time % 2 ^ 32)
  wb_poke iface (k.SR_ADDR k.X300_FW_SHMEM_BASE k.X300_FW_SHMEM_CLAIM_SRC) process_hash

/-- The function x300_impl::is_claimed (lines 1541-1551); `process_hash` is the
value of get_process_hash() in the calling process. -/
def is_claimed (k : x300_consts) (iface : wb_iface) (process_hash : Nat) : Bool :=
  if iface (k.SR_ADDR k.X300_FW_SHMEM_BASE k.X300_FW_SHMEM_CLAIM_STATUS) = 0 then false
  else iface (k.SR_ADDR k.X300_FW_SHMEM_BASE k.X300_FW_SHMEM_CLAIM_SRC) != process_hash

/-- A device memory on which to evaluate is_claimed: claim status 1, claim time
`time`, claim source 7, every other word 0. -/
def sample_iface (time : Nat) : wb_iface := fun a =>
  if a = sample_consts.SR_ADDR sample_consts.X300_FW_SHMEM_BASE
      sample_consts.X300_FW_SHMEM_CLAIM_STATUS then 1
  else if a = sample_consts.SR_ADDR sample_consts.X300_FW_SHMEM_BASE
      sample_consts.X300_FW_SHMEM_CLAIM_TIME then time
  else if a = sample_consts.SR_ADDR sample_consts.X300_FW_SHMEM_BASE
      sample_consts.X300_FW_SHMEM_CLAIM_SRC then 7
  else 0

/-- The keys of the process-wide registry `get_pcie_zpu_iface_registry()`, a
uhd::dict from resource name to a weak handle of the control interface; the
handles play no part in what is embedded here. -/
abbrev pcie_zpu_iface_registry_t := List String

/-- The behaviour of uhd::dict::pop, which is defined in the uhd library and not in
this translation unit: given the keys of a dict and a key, the keys left or the
exception thrown. The teardown takes it as a parameter. -/
abbrev dict_pop_t := List String → String → Except uhd_error (List String)

/-- One choice for uhd::dict::pop: the entry of the key is removed, and a key
that has no entry makes pop throw a key error. -/
def dict_pop_throwing : dict_pop_t := fun keys key =>
  if key ∈ keys then Except.ok (keys.erase key) else Except.error uhd_error.key_error

/-- The other choice for uhd::dict::pop: the entry of the key is removed if there
is one, and pop never throws. -/
def dict_pop_lenient : dict_pop_t := fun keys key => Except.ok (keys.erase key)

/-- The body of the loop of x300_impl::~x300_impl (lines 979-988) for one
motherboard: the outcome, the registry and the motherboard afterwards. -/
def destroy_mboard (k : x300_consts) (pop : dict_pop_t)
    (registry : pcie_zpu_iface_registry_t) (mb : mboard_members_t) :
    Except uhd_error Unit × pcie_zpu_iface_registry_t × mboard_members_t :=
  let mb := { mb with claimer_task := false }
  let mb := poke32 mb (k.SR_ADDR k.X300_FW_SHMEM_BASE k.X300_FW_SHMEM_CLAIM_TIME) 0
  let mb := poke32 mb (k.SR_ADDR k.X300_FW_SHMEM_BASE k.X300_FW_SHMEM_CLAIM_SRC) 0
  match pop registry mb.pri_eth_addr with
  | Except.error e => (Except.error e, registry, mb)
  | Except.ok registry => (Except.ok (), registry, mb)

/-- The destructor x300_impl::~x300_impl (lines 973-995) on the motherboards `_mb`:
the registry and the motherboards afterwards. An exception thrown in the loop
leaves the loop and is swallowed by the handler, so the motherboards after the
throwing one are not visited. -/
def x300_impl_destructor (k : x300_consts) (pop : dict_pop_t) :
    pcie_zpu_iface_registry_t → List mboard_members_t →
      pcie_zpu_iface_registry_t × List mboard_members_t
  | registry, [] => (registry, [])
  | registry, mb :: rest =>
    match destroy_mboard k pop registry mb with
    | (Except.error _, registry, mb) => (registry, mb :: rest)
    | (Except.ok (), registry, mb) =>
      let r := x300_impl_destructor k pop registry rest
      (r.1, mb :: r.2)

/-- The two writes that unclaim a device: 0 to the claim time word and 0 to the
claim source word. -/
def unclaim_writes (k : x300_consts) : List hw_event :=
  [hw_event.poke32 (k.SR_ADDR k.X300_FW_SHMEM_BASE k.X300_FW_SHMEM_CLAIM_TIME) 0,
   hw_event.poke32 (k.SR_ADDR k.X300_FW_SHMEM_BASE k.X300_FW_SHMEM_CLAIM_SRC) 0]

/-- A second sample motherboard, at another address. -/
def sample_mb2 : mboard_members_t := { sample_mb with pri_eth_addr := "192.168.20.2" }

/-! ## Device discovery -/

/-- The type uhd::device_addr_t, a uhd::dict from string to string: the list of its
(key, value) pairs in insertion order. -/
abbrev device_addr_t := List (String × String)

/-- The type uhd::device_addrs_t, a vector of device addresses. -/
abbrev device_addrs_t := List device_addr_t

/-- The member uhd::dict::has_key. -/
def has_key (d : device_addr_t) (key : String) : Bool :=
  d.any (fun p => p.1 == key)

/-- The value that `d[key]` reads when the key has an entry, and the empty string
that the non-const operator[] creates when it has none. -/
def dict_get (d : device_addr_t) (key : String) : String :=
  (d.lookup key).getD ""

/-- The const operator[] of uhd::dict: it throws when the key has no entry. -/
def dict_at (d : device_addr_t) (key : String) : Except uhd_error String :=
  match d.lookup key with
  | some val => Except.ok val
  | none => Except.error uhd_error.key_error

/-- The assignment `d[key] = val` through the non-const operator[]: the value of an
existing entry is replaced, a missing entry is appended. -/
def dict_set (d : device_addr_t) (key val : String) : device_addr_t :=
  if has_key d key then d.map (fun p => if p.1 == key then (p.1, val) else p)
  else d ++ [(key, val)]

/-- The effect on `d` of reading `d[key]` through the non-const operator[]: a
missing entry is created with the empty string. -/
def dict_touch (d : device_addr_t) (key : String) : device_addr_t :=
  if has_key d key then d else d ++ [(key, "")]

/-- What opening a control interface to a device and reading through it gives:
`ctrl` is the register view of the interface, or the exception that making the
interface throws; `dram_fifo_check` is dma_fifo_core_3000::check on that
interface, a function outside this file; `eeprom` is the motherboard EEPROM, a
dict, or the exception thrown while it is read. Reads of registers through an
open interface are taken not to throw. -/
structure zpu_session where
  ctrl : Except uhd_error wb_iface
  dram_fifo_check : Nat → Nat → Bool
  eeprom : Except uhd_error device_addr_t

/-- The function has_dram_buff (lines 57-63). -/
def has_dram_buff (k : x300_consts) (dram_fifo_check : Nat → Nat → Bool) : Bool :=
  let dramR0 := dram_fifo_check (k.SR_ADDR k.SET0_BASE k.ZPU_SR_DRAM_FIFO0)
    (k.SR_ADDR k.SET0_BASE k.ZPU_RB_DRAM_FIFO0)
  let dramR1 := dram_fifo_check (k.SR_ADDR k.SET0_BASE k.ZPU_SR_DRAM_FIFO1)
    (k.SR_ADDR k.SET0_BASE k.ZPU_RB_DRAM_FIFO1)
  dramR0 && dramR1

/-- The function get_fpga_option (lines 65-79). -/
def get_fpga_option (k : x300_consts) (zpu_ctrl : wb_iface)
    (dram_fifo_check : Nat → Nat → Bool) : String :=
  let eth0XG := zpu_ctrl (k.SR_ADDR k.SET0_BASE k.ZPU_RB_ETH_TYPE0) == 1
  let eth1XG := zpu_ctrl (k.SR_ADDR k.SET0_BASE k.ZPU_RB_ETH_TYPE1) == 1
  let option := if eth0XG && eth1XG then "XG" else if eth1XG then "HG" else "1G"
  if !has_dram_buff k dram_fifo_check then option ++ "S" else option

/-- The function x300_impl::get_mb_type_from_eeprom (lines 1749-1803).
`lexical_cast` is boost::lexical_cast to a 16-bit unsigned number, `none` when it
throws bad_lexical_cast. The read of the product entry is a const operator[] and
throws when the EEPROM has no such entry. -/
def get_mb_type_from_eeprom (k : x300_consts) (lexical_cast : String → Option Nat)
    (mb_eeprom : device_addr_t) : Except uhd_error x300_mboard_t :=
  match dict_at mb_eeprom "product" with
  | Except.error e => Except.error e
  | Except.ok product =>
    if product ≠ "" then
      let product_num := (lexical_cast product).getD 0
      Except.ok (k.pcie_ssid_mb_type product_num)
    else Except.ok x300_mboard_t.UNKNOWN

/-- The function x300_impl::get_mb_type_from_pcie (lines 1691-1747).
`discovery_proxy` is what the kernel proxy made for the resource gives: `none`
when no proxy is made, `some none` when reading the product number ends with a
fatal status, `some (some pid)` otherwise. -/
def get_mb_type_from_pcie (k : x300_consts) (discovery_proxy : Option (Option Nat)) :
    x300_mboard_t :=
  match discovery_proxy with
  | some (some pid) => k.pcie_ssid_mb_type pid
  | _ => x300_mboard_t.UNKNOWN

/-- One datagram that `comm->recv` hands to x300_find_with_addr: its length, the
flags and sequence words of the reply as they compare with those of the request,
the address it came from, and what a control session to that address gives. -/
structure fw_comms_reply where
  nbytes : Nat
  flags : Nat
  sequence : Nat
  recv_addr : String
  session : zpu_session

/-- What the network does during one call of x300_find_with_addr: `failure` is the
exception that making the broadcast socket or sending the request throws, if any;
`rand` is what std::rand() returns; `replies` are the datagrams received, in
order, each within the 50 ms window, after which recv times out. -/
structure udp_exchange where
  failure : Option uhd_error
  rand : Nat
  replies : List fw_comms_reply

/-- One entry of the device list of niusrprio_session::enumerate, with what the
driver gives for it: `kernel_proxy` is the outcome of niriok_proxy::make_and_open,
`registered_ctrl` the register view of the interface held by the registry for the
resource, `session` what a newly made control interface gives. -/
structure pcie_device where
  resource_name : String
  discovery_proxy : Option (Option Nat)
  kernel_proxy : Except uhd_error Unit
  registered_ctrl : wb_iface
  session : zpu_session

/-- The outcome of niusrprio_session::enumerate: whether the status is fatal, and
the device list. -/
structure pcie_enumeration where
  status_fatal : Bool
  devices : List pcie_device

/-- One entry of get_if_addrs(). -/
structure if_addrs_t where
  inet : String
  bcast : String

/-- Everything outside this file that discovery depends on. The functions
separate_device_addr and combine_device_addrs belong to the uhd library and
`lexical_cast` to boost; the network and the driver are oracles, asked with the
number of probes and enumerations made so far and with the address or the RPC
port: `udp n addr` is the exchange of the call of x300_find_with_addr that is
number `n` and goes to `addr`. -/
structure find_env where
  separate_device_addr : device_addr_t → device_addrs_t
  combine_device_addrs : device_addrs_t → device_addr_t
  lexical_cast : String → Option Nat
  process_hash : Nat
  registry : pcie_zpu_iface_registry_t
  get_if_addrs : List if_addrs_t
  udp : Nat → String → udp_exchange
  pcie : Nat → String → pcie_enumeration

/-- The macro NIUSRPRIO_DEFAULT_RPC_PORT (line 44). -/
def NIUSRPRIO_DEFAULT_RPC_PORT : String := "5444"

/-- The handler of lines 142-148: name and serial become the empty string. -/
def enrich_catch (new_addr : device_addr_t) : device_addr_t :=
  dict_set (dict_set new_addr "name" "") "serial" ""

/-- The try block of x300_find_with_addr with its handler (lines 115-148): `none`
is the `continue` taken for a device claimed by another process, otherwise the
candidate with the fields that were read. -/
def enrich_enet (k : x300_consts) (env : find_env) (s : zpu_session)
    (new_addr : device_addr_t) : Option device_addr_t :=
  match s.ctrl with
  | Except.error _ => some (enrich_catch new_addr)
  | Except.ok zpu_ctrl =>
    if is_claimed k zpu_ctrl env.process_hash then none
    else
      let new_addr := dict_set new_addr "fpga" (get_fpga_option k zpu_ctrl s.dram_fifo_check)
      match s.eeprom with
      | Except.error _ => some (enrich_catch new_addr)
      | Except.ok mb_eeprom =>
        match dict_at mb_eeprom "name" with
        | Except.error _ => some (enrich_catch new_addr)
        | Except.ok name =>
          let new_addr := dict_set new_addr "name" name
          match dict_at mb_eeprom "serial" with
          | Except.error _ => some (enrich_catch new_addr)
          | Except.ok serial =>
            let new_addr := dict_set new_addr "serial" serial
            match get_mb_type_from_eeprom k env.lexical_cast mb_eeprom with
            | Except.error _ => some (enrich_catch new_addr)
            | Except.ok x300_mboard_t.USRP_X300_MB => some (dict_set new_addr "product" "X300")
            | Except.ok x300_mboard_t.USRP_X310_MB => some (dict_set new_addr "product" "X310")
            | Except.ok x300_mboard_t.UNKNOWN => some new_addr

/-- One conjunct `not hint.has_key(key) or hint[key] == new_addr[key]` of the
filter: its value, and the candidate after the read of `new_addr[key]`, which
takes place only when the hint has the key. -/
def filter_key (hint new_addr : device_addr_t) (key : String) : Bool × device_addr_t :=
  if !has_key hint key then (true, new_addr)
  else (dict_get hint key == dict_get new_addr key, dict_touch new_addr key)

/-- The filter of lines 150-154, evaluated left to right with short circuit. -/
def filter_enet (hint new_addr : device_addr_t) : Bool × device_addr_t :=
  let r1 := filter_key hint new_addr "name"
  if !r1.1 then (false, r1.2)
  else
    let r2 := filter_key hint r1.2 "serial"
    if !r2.1 then (false, r2.2)
    else filter_key hint r2.2 "product"

/-- The reply loop of x300_find_with_addr (lines 101-157) over the datagrams still
to come; `sequence` is the sequence word of the request and `addrs` the result so
far. The loop ends at a timeout (no datagram left, or one of length 0) and at the
first datagram whose flags or sequence word differ from the request. -/
def x300_find_with_addr_loop (k : x300_consts) (env : find_env) (hint : device_addr_t)
    (sequence : Nat) : List fw_comms_reply → device_addrs_t → device_addrs_t
  | [], addrs => addrs
  | reply :: rest, addrs =>
    if reply.nbytes = 0 then addrs
    else if k.X300_FW_COMMS_FLAGS_ACK % 2 ^ 32 ≠ reply.flags then addrs
    else if sequence ≠ reply.sequence then addrs
    else
      let new_addr := dict_set (dict_set [] "type" "x300") "addr" reply.recv_addr
      match enrich_enet k env reply.session new_addr with
      | none => x300_find_with_addr_loop k env hint sequence rest addrs
      | some new_addr =>
        let r := filter_enet hint new_addr
        if r.1 then x300_find_with_addr_loop k env hint sequence rest (addrs ++ [r.2])
        else x300_find_with_addr_loop k env hint sequence rest addrs

/-- The function x300_find_with_addr (lines 86-160), as probe number `n`: the
outcome and the number of probes made afterwards. -/
def x300_find_with_addr (k : x300_consts) (env : find_env) (n : Nat) (hint : device_addr_t) :
    Except uhd_error device_addrs_t × Nat :=
  match dict_at hint "addr" with
  | Except.error e => (Except.error e, n)
  | Except.ok addr =>
    let x := env.udp n addr
    match x.failure with
    | some e => (Except.error e, n + 1)
    | none =>
      (Except.ok (x300_find_with_addr_loop k env hint (x.rand % 2 ^ 32) x.replies []), n + 1)

/-- The try block of x300_find_pcie with its handler (lines 203-245): `none` is the
`continue` taken for a device claimed by another process. -/
def enrich_pcie (k : x300_consts) (env : find_env) (hint : device_addr_t) (dev : pcie_device)
    (resource_d : String) (new_addr : device_addr_t) : Option device_addr_t :=
  let handler := fun (new_addr : device_addr_t) =>
    let new_addr := if !has_key hint "fpga" then dict_set new_addr "fpga" "HGS" else new_addr
    enrich_catch new_addr
  let opened : Except uhd_error wb_iface :=
    if resource_d ∈ env.registry then Except.ok dev.registered_ctrl else dev.session.ctrl
  match opened with
  | Except.error _ => some (handler new_addr)
  | Except.ok zpu_ctrl =>
    if is_claimed k zpu_ctrl env.process_hash then none
    else
      let new_addr :=
        if !has_key hint "fpga" then
          dict_set new_addr "fpga" (get_fpga_option k zpu_ctrl dev.session.dram_fifo_check)
        else new_addr
      match dev.session.eeprom with
      | Except.error _ => some (handler new_addr)
      | Except.ok mb_eeprom =>
        match dict_at mb_eeprom "name" with
        | Except.error _ => some (handler new_addr)
        | Except.ok name =>
          let new_addr := dict_set new_addr "name" name
          match dict_at mb_eeprom "serial" with
          | Except.error _ => some (handler new_addr)
          | Except.ok serial => some (dict_set new_addr "serial" serial)

/-- The filter of lines 248-256. -/
def filter_pcie (hint new_addr : device_addr_t) (resource_d : String) : Bool × device_addr_t :=
  let resource_i := (if has_key hint "resource" then dict_get hint "resource" else "").toUpper
  if !(!has_key hint "resource" || resource_i == resource_d) then (false, new_addr)
  else
    let r1 := filter_key hint new_addr "name"
    if !r1.1 then (false, r1.2)
    else
      let r2 := filter_key hint r1.2 "serial"
      if !r2.1 then (false, r2.2)
      else filter_key hint r2.2 "product"

/-- The device loop of x300_find_pcie (lines 180-259). An exception of
niriok_proxy::make_and_open, which is called outside the try block, ends the loop
and the function. -/
def x300_find_pcie_loop (k : x300_consts) (env : find_env) (hint : device_addr_t) :
    List pcie_device → device_addrs_t → Except uhd_error device_addrs_t
  | [], addrs => Except.ok addrs
  | dev :: rest, addrs =>
    let new_addr := dict_set (dict_set [] "type" "x300") "resource" dev.resource_name
    let resource_d := dev.resource_name.toUpper
    let typed : Option device_addr_t :=
      match get_mb_type_from_pcie k dev.discovery_proxy with
      | x300_mboard_t.USRP_X300_MB => some (dict_set new_addr "product" "X300")
      | x300_mboard_t.USRP_X310_MB => some (dict_set new_addr "product" "X310")
      | x300_mboard_t.UNKNOWN => none
    match typed with
    | none => x300_find_pcie_loop k env hint rest addrs
    | some new_addr =>
      match dev.kernel_proxy with
      | Except.error e => Except.error e
      | Except.ok () =>
        match enrich_pcie k env hint dev resource_d new_addr with
        | none => x300_find_pcie_loop k env hint rest addrs
        | some new_addr =>
          let r := filter_pcie hint new_addr resource_d
          if r.1 then x300_find_pcie_loop k env hint rest (addrs ++ [r.2])
          else x300_find_pcie_loop k env hint rest addrs

/-- The function x300_find_pcie (lines 168-261), as enumeration number `n`. A fatal
status of the enumeration becomes a runtime error when `explicit_query` is set
(nirio_status_to_exception) and is ignored otherwise. -/
def x300_find_pcie (k : x300_consts) (env : find_env) (n : Nat) (hint : device_addr_t)
    (explicit_query : Bool) : Except uhd_error device_addrs_t × Nat :=
  let rpc_port_name :=
    if has_key hint "niusrpriorpc_port" then dict_get hint "niusrpriorpc_port"
    else NIUSRPRIO_DEFAULT_RPC_PORT
  let r := env.pcie n rpc_port_name
  if explicit_query && r.status_fatal then (Except.error uhd_error.runtime_error, n + 1)
  else (x300_find_pcie_loop k env hint r.devices [], n + 1)

/-- The outcome of a call of x300_find in the embedding: `none` when the depth
allowed for the recursion is used up, otherwise the result or the exception, and
the number of probes and enumerations made afterwards. -/
abbrev find_result := Option (Except uhd_error device_addrs_t × Nat)

/-- The loop of lines 271-278 over the sub-hints still to resolve. `find` is the
recursive call; `found_devices` and `error_msg` are the variables of the source,
the message being kept as the list of the hints it names (it is empty exactly
when that list is). An exception of a recursive call leaves the loop. -/
def x300_find_multi_loop (find : Nat → device_addr_t → find_result) :
    Nat → List device_addr_t → device_addrs_t → List device_addr_t →
      Option (Except uhd_error (device_addrs_t × List device_addr_t) × Nat)
  | n, [], found_devices, error_msg => some (Except.ok (found_devices, error_msg), n)
  | n, hint_i :: rest, found_devices, error_msg =>
    match find n hint_i with
    | none => none
    | some (Except.error e, n) => some (Except.error e, n)
    | some (Except.ok found_devices_i, n) =>
      match found_devices_i with
      | [dev] => x300_find_multi_loop find n rest (found_devices ++ [dev]) error_msg
      | _ => x300_find_multi_loop find n rest found_devices (error_msg ++ [hint_i])

/-- The loop of lines 309-313: every address that replied to the first probe is
probed again, with the reply as the hint, and the results are put in front of
those found so far. The second probe is not inside a try block. -/
def x300_find_second_pass (k : x300_consts) (env : find_env) :
    Nat → List device_addr_t → device_addrs_t → Except uhd_error device_addrs_t × Nat
  | n, [], addrs => (Except.ok addrs, n)
  | n, reply_addr :: rest, addrs =>
    match x300_find_with_addr k env n reply_addr with
    | (Except.error e, n) => (Except.error e, n)
    | (Except.ok new_addrs, n) => x300_find_second_pass k env n rest (new_addrs ++ addrs)

/-- The loop of lines 320-332 over the network interfaces: the loopback interface
is skipped, the others are searched through their broadcast address by a
recursive call. -/
def x300_find_if_loop (find : Nat → device_addr_t → find_result) (hint : device_addr_t) :
    Nat → List if_addrs_t → device_addrs_t → find_result
  | n, [], addrs => some (Except.ok addrs, n)
  | n, if_addrs :: rest, addrs =>
    if if_addrs.inet = "127.0.0.1" then x300_find_if_loop find hint n rest addrs
    else
      let new_hint := dict_set hint "addr" if_addrs.bcast
      match find n new_hint with
      | none => none
      | some (Except.error e, n) => some (Except.error e, n)
      | some (Except.ok new_addrs, n) => x300_find_if_loop find hint n rest (new_addrs ++ addrs)

/-- The function x300_find (lines 263-339). The first argument bounds the depth of
the recursion (a multi-device hint calls x300_find on each sub-hint, a hint with
neither address nor resource calls it once per network interface); the second is
the number of probes and enumerations made before the call. -/
def x300_find (k : x300_consts) (env : find_env) : Nat → Nat → device_addr_t → find_result
  | 0, _, _ => none
  | fuel + 1, n, hint_ =>
    let hints := env.separate_device_addr hint_
    if hints.length > 1 then
      match x300_find_multi_loop (x300_find k env fuel) n hints [] [] with
      | none => none
      | some (Except.error e, n) => some (Except.error e, n)
      | some (Except.ok (found_devices, error_msg), n) =>
        if found_devices.isEmpty then some (Except.ok [], n)
        else if !error_msg.isEmpty then some (Except.error uhd_error.value_error, n)
        else some (Except.ok [env.combine_device_addrs found_devices], n)
    else
      let hint := hints.headD []
      if has_key hint "type" && dict_get hint "type" != "x300" then some (Except.ok [], n)
      else if has_key hint "addr" then
        let first := x300_find_with_addr k env n hint
        let reply_addrs := match first.1 with
          | Except.error _ => []
          | Except.ok reply_addrs => reply_addrs
        some (x300_find_second_pass k env first.2 reply_addrs [])
      else
        let searched : find_result :=
          if !has_key hint "resource" then
            x300_find_if_loop (x300_find k env fuel) hint n env.get_if_addrs []
          else some (Except.ok [], n)
        match searched with
        | none => none
        | some (Except.error e, n) => some (Except.error e, n)
        | some (Except.ok addrs, n) =>
          match x300_find_pcie k env n hint (has_key hint "resource") with
          | (Except.error e, n) => some (Except.error e, n)
          | (Except.ok pcie_addrs, n) => some (Except.ok (addrs ++ pcie_addrs), n)

/-- A sample control session: a device that nobody has claimed (every register
reads 0), with DRAM buffers, whose EEPROM holds the given name, serial and
product number. -/
def sample_session (name serial product : String) : zpu_session where
  ctrl := Except.ok (fun _ => 0)
  dram_fifo_check := fun _ _ => true
  eeprom := Except.ok [("name", name), ("serial", serial), ("product", product)]

/-- A sample reply that answers a request whose sequence word is 0. -/
def sample_reply (recv_addr : String) (session : zpu_session) : fw_comms_reply where
  nbytes := 16
  flags := sample_consts.X300_FW_COMMS_FLAGS_ACK
  sequence := 0
  recv_addr := recv_addr
  session := session

/-- A sample network: an X310 named lab at 192.168.10.2 and an X300 named bench at
192.168.10.3, both of which answer the broadcast address 192.168.10.255 and their
own address; no other address is answered. -/
def sample_udp (addr : String) : udp_exchange where
  failure := none
  rand := 0
  replies :=
    if addr = "192.168.10.255" then
      [sample_reply "192.168.10.2" (sample_session "lab" "30F1A" "30519"),
       sample_reply "192.168.10.3" (sample_session "bench" "30F2B" "30410")]
    else if addr = "192.168.10.2" then
      [sample_reply "192.168.10.2" (sample_session "lab" "30F1A" "30519")]
    else if addr = "192.168.10.3" then
      [sample_reply "192.168.10.3" (sample_session "bench" "30F2B" "30410")]
    else []

/-- A sample of separate_device_addr: a hint with the keys addr0 and addr1 is two
sub-hints, one per address; any other hint is one sub-hint, itself. -/
def sample_separate (hint : device_addr_t) : device_addrs_t :=
  if has_key hint "addr0" && has_key hint "addr1" then
    [[("addr", dict_get hint "addr0")], [("addr", dict_get hint "addr1")]]
  else [hint]

/-- A sample of combine_device_addrs: the entries of device number i, each key
followed by i. -/
def sample_combine (devs : device_addrs_t) : device_addr_t :=
  (devs.enum.map (fun d => d.2.map (fun p => (p.1 ++ toString d.1, p.2)))).flatten

/-- A sample environment: the sample network, no PCIe device, one network
interface beside the loopback; the number cast knows the two product numbers of
the sample network. -/
def sample_env : find_env where
  separate_device_addr := sample_separate
  combine_device_addrs := sample_combine
  lexical_cast := fun s =>
    if s = "30519" then some 30519 else if s = "30410" then some 30410 else none
  process_hash := 9
  registry := []
  get_if_addrs := [⟨"127.0.0.1", "127.255.255.255"⟩, ⟨"192.168.10.1", "192.168.10.255"⟩]
  udp := fun _ addr => sample_udp addr
  pcie := fun _ _ => ⟨false, []⟩

/-- The sample environment on a network that fails after the first probe: probe
number 0 is answered as in the sample network, every later probe throws an I/O
error when the socket is made. -/
def failing_env : find_env :=
  { sample_env with
    udp := fun n addr => if n = 0 then sample_udp addr else ⟨some uhd_error.io_error, 0, []⟩ }

/-- The sample environment on a network where every probe throws an I/O error. -/
def down_env : find_env :=
  { sample_env with udp := fun _ _ => ⟨some uhd_error.io_error, 0, []⟩ }

/-- The results of the recursive calls for the sub-hints, made one after the
other: `none` when one of them uses up the depth, the first exception when one
throws, otherwise the list of the lists found. -/
def x300_find_each (find : Nat → device_addr_t → find_result) :
    Nat → List device_addr_t → Option (Except uhd_error (List device_addrs_t) × Nat)
  | n, [] => some (Except.ok [], n)
  | n, hint_i :: rest =>
    match find n hint_i with
    | none => none
    | some (Except.error e, n) => some (Except.error e, n)
    | some (Except.ok found_devices_i, n) =>
      match x300_find_each find n rest with
      | none => none
      | some (Except.error e, n) => some (Except.error e, n)
      | some (Except.ok found, n) => some (Except.ok (found_devices_i :: found), n)

/-- The devices of the sub-hints that resolved to exactly one device. -/
def single_devices (found : List device_addrs_t) : device_addrs_t :=
  found.filterMap (fun found_devices_i =>
    match found_devices_i with
    | [dev] => some dev
    | _ => none)

/-- The sub-hints that did not resolve to exactly one device, given the list found
for each sub-hint. -/
def unresolved_hints : List device_addr_t → List device_addrs_t → List device_addr_t
  | hint_i :: hints, found_devices_i :: found =>
    match found_devices_i with
    | [_] => unresolved_hints hints found
    | _ => hint_i :: unresolved_hints hints found
  | _, _ => []

/-- The three keys that the filter of x300_find_with_addr compares. -/
def filter_keys : List String := ["name", "serial", "product"]

/-- A candidate agrees with a hint on the filter keys: for each of name, serial
and product that the hint has, the candidate has the key with the same value. -/
def agrees_with (hint addr : device_addr_t) : Prop :=
  ∀ key ∈ filter_keys, has_key hint key = true →
    has_key addr key = true ∧ dict_get addr key = dict_get hint key

/-- A sample driver report: one X310 on the PCIe bus whose kernel proxy cannot be
opened. -/
def sample_pcie_unopenable : pcie_enumeration where
  status_fatal := false
  devices :=
    [{ resource_name := "RIO0", discovery_proxy := some (some 0x7737),
       kernel_proxy := Except.error uhd_error.io_error,
       registered_ctrl := fun _ => 0, session := sample_session "lab" "30F1A" "30519" }]

/-- The sample environment without network interfaces and with the PCIe device
that cannot be opened. -/
def pcie_env : find_env :=
  { sample_env with get_if_addrs := [], pcie := fun _ _ => sample_pcie_unopenable }

/-! ## Exhaustion of the DMA channels -/

/-- The outcome that a request gets once the budget of DMA channels is used up: a
Control request gets channel 0, every other request the runtime error. -/
def exhausted_outcome (req : sid_t × xport_type_t) : Except uhd_error Nat :=
  if req.2 = xport_type_t.CTRL then Except.ok CTRL_CHANNEL
  else Except.error uhd_error.runtime_error

/-- A pool on which to evaluate the embedding: the pool of a session after data
requests for the SIDs 1 to 5, which get the channels 1 to 5. -/
def sample_pool : dma_chan_pool_t := [(1, 1), (2, 2), (3, 3), (4, 4), (5, 5)]

/-! ## Frame size detection when a session is opened -/

/-- The number of datagrams that determine_max_frame_size (lines 1556-1630) has
sent when it returns or throws: the test holler, then one per pass of the receive
loop, then one per pass of the send loop. `none` when a loop is still running
after `fuel` passes. -/
def determine_max_frame_size_sent (k : x300_consts) (peer : mtu_peer) (fuel : Nat)
    (user_frame_size : frame_size_t) : Option Nat :=
  let bufsize := max user_frame_size.recv_frame_size user_frame_size.send_frame_size
  let request := test_holler k peer bufsize
  if request.flags &&& k.X300_MTU_DETECT_ECHO_REPLY = 0 then some 1
  else
    match recv_search k peer bufsize fuel 1 sizeof_x300_mtu_t user_frame_size.recv_frame_size with
    | none => none
    | some (n, min_recv_frame_size, _) =>
      if min_recv_frame_size < min_frame_size k then some n
      else
        match send_search k peer bufsize fuel n sizeof_x300_mtu_t
            user_frame_size.send_frame_size with
        | none => none
        | some (n1, _, _) => some n1

/-- The frame size that setup_mb asks for in one direction (lines 561-566): the
value of the transport argument `key` when it is given, else
X300_10GE_DATA_FRAME_MAX_SIZE. `lexical_cast` is boost::lexical_cast to size_t,
`none` when it throws. -/
def req_frame_size (k : x300_consts) (lexical_cast : String → Option Nat)
    (args : device_addr_t) (key : String) : Except uhd_error Nat :=
  if has_key args key then
    match lexical_cast (dict_get args key) with
    | some v => Except.ok v
    | none => Except.error uhd_error.bad_lexical_cast
  else Except.ok k.X300_10GE_DATA_FRAME_MAX_SIZE

/-- The part of x300_impl::setup_mb that detects the frame sizes of an Ethernet
motherboard (lines 561-581): the value of the member `_max_frame_sizes`
afterwards, or the exception that leaves setup_mb; `none` when a loop of
determine_max_frame_size is still running after `fuel` passes. The call of
determine_max_frame_size is inside a try block whose handler reports the
exception and goes on, so that `_max_frame_sizes` keeps the value it had. -/
def setup_mb_max_frame_sizes (k : x300_consts) (lexical_cast : String → Option Nat)
    (peer : mtu_peer) (fuel : Nat) (recv_args send_args : device_addr_t)
    (_max_frame_sizes : frame_size_t) : Option (Except uhd_error frame_size_t) :=
  match req_frame_size k lexical_cast recv_args "recv_frame_size" with
  | Except.error e => some (Except.error e)
  | Except.ok recv_frame_size =>
    match req_frame_size k lexical_cast send_args "send_frame_size" with
    | Except.error e => some (Except.error e)
    | Except.ok send_frame_size =>
      match determine_max_frame_size k peer fuel ⟨recv_frame_size, send_frame_size⟩ with
      | none => none
      | some (Except.error _) => some (Except.ok _max_frame_sizes)
      | some (Except.ok frame_size) => some (Except.ok frame_size)

/-- A peer that never answers. -/
def silent_peer : mtu_peer := fun _ _ => { len := 0, hdr := { flags := 0, size := 0 } }

/-- A peer that answers the first datagram, the test holler, as an echo peer does
and then nothing. -/
def holler_only_peer (k : x300_consts) : mtu_peer := fun n probe =>
  if n = 0 then
    { len := sizeof_x300_mtu_t,
      hdr := { flags := k.X300_MTU_DETECT_ECHO_REPLY, size := probe.nbytes } }
  else { len := 0, hdr := { flags := 0, size := 0 } }

/-! ## Replies that end a discovery probe -/

/-- A datagram that the reply loop of x300_find_with_addr goes on with: it is not
empty (not a timeout) and its flags and sequence words are those of the request.
The loop ends at the first datagram that is not of this kind. -/
def reply_accepted (k : x300_consts) (sequence : Nat) (reply : fw_comms_reply) : Bool :=
  decide (reply.nbytes ≠ 0) && decide (k.X300_FW_COMMS_FLAGS_ACK % 2 ^ 32 = reply.flags) &&
    decide (sequence = reply.sequence)

/-- A sample network for a search of the broadcast address 192.168.10.255: the
X310 at 192.168.10.2 answers, then a datagram with another sequence word arrives
from 192.168.10.9, then the X300 at 192.168.10.3 answers. -/
def stray_udp (addr : String) : udp_exchange where
  failure := none
  rand := 0
  replies :=
    if addr = "192.168.10.255" then
      [sample_reply "192.168.10.2" (sample_session "lab" "30F1A" "30519"),
       { sample_reply "192.168.10.9" (sample_session "" "" "") with sequence := 77 },
       sample_reply "192.168.10.3" (sample_session "bench" "30F2B" "30410")]
    else (sample_udp addr).replies

/-- The sample environment on the network with the stray datagram. -/
def stray_env : find_env := { sample_env with udp := fun _ addr => stray_udp addr }

/-! ## Ethernet transports -/

/-- The call `s.substr(pos, n)` of std::string on a string of one-byte characters:
the at most `n` characters from position `pos` on. -/
def substr (s : String) (pos n : Nat) : String :=
  String.mk ((s.data.drop pos).take n)

/-- The struct uhd::transport::zero_copy_xport_params (uhd/transport/zero_copy.hpp),
with the four fields that make_transport sets. -/
structure zero_copy_xport_params where
  recv_frame_size : Nat
  send_frame_size : Nat
  num_recv_frames : Nat
  num_send_frames : Nat
  deriving DecidableEq, Repr

/-- The struct udp_zero_copy::buff_params, filled in by udp_zero_copy::make. -/
structure buff_params where
  recv_buff_size : Nat
  send_buff_size : Nat
  deriving DecidableEq, Repr

/-- The function udp_zero_copy::make, which is outside this file, on the port
X300_VITA_UDP_PORT: given the address, the default buffer arguments and the
transport arguments of the caller it makes the socket and fills in the buffer
sizes, or throws. -/
abbrev udp_zero_copy_make_t :=
  String → zero_copy_xport_params → device_addr_t → Except uhd_error buff_params

/-- The struct both_xports_t for an Ethernet transport. The two transport handles
are one object (`xports.send = xports.recv`), described by the address and the
buffer arguments it was made with and by whether it was wrapped into a receive
offload thread. -/
structure both_xports_t where
  send_sid : sid_t
  recv_sid : sid_t
  recv_buff_size : Nat
  send_buff_size : Nat
  interface_addr : String
  buff_args : zero_copy_xport_params
  recv_offload : Bool
  deriving DecidableEq, Repr

/-- The recommended frame size of a connection, `eth_data_rec_frame_size`, and the
link rate published in the property tree, as lines 1184-1201 of make_transport
compute them from the first two characters of the loaded image descriptor and the
crossbar port of the link; 0 and no rate when neither case applies. `conns` is
`mb.eth_conns.size()`. -/
def eth_data_rec_frame_size (k : x300_consts) (loaded_fpga_image : String)
    (xbar_src_dst conns : Nat) : Nat × Option Nat :=
  if substr loaded_fpga_image 0 2 = "HG" then
    if xbar_src_dst = k.X300_XB_DST_E0 then
      (k.X300_1GE_DATA_FRAME_MAX_SIZE, some k.X300_MAX_RATE_1GIGE)
    else if xbar_src_dst = k.X300_XB_DST_E1 then
      (k.X300_10GE_DATA_FRAME_MAX_SIZE, some k.X300_MAX_RATE_10GIGE)
    else (0, none)
  else if substr loaded_fpga_image 0 2 = "XG" then
    (k.X300_10GE_DATA_FRAME_MAX_SIZE, some (k.X300_MAX_RATE_10GIGE * conns))
  else (0, none)

/-- The default buffer arguments that lines 1229-1251 of make_transport compute
from the probed frame sizes `_max_frame_sizes` and the transport kind. -/
def eth_buff_args (k : x300_consts) (_max_frame_sizes : frame_size_t)
    (xport_type : xport_type_t) : zero_copy_xport_params :=
  let system_max_send_frame_size := _max_frame_sizes.send_frame_size
  let system_max_recv_frame_size := _max_frame_sizes.recv_frame_size
  { send_frame_size :=
      if xport_type = xport_type_t.TX_DATA then
        min system_max_send_frame_size k.X300_10GE_DATA_FRAME_MAX_SIZE
      else min system_max_send_frame_size k.X300_ETH_MSG_FRAME_SIZE,
    recv_frame_size :=
      if xport_type = xport_type_t.RX_DATA then
        min system_max_recv_frame_size k.X300_10GE_DATA_FRAME_MAX_SIZE
      else min system_max_recv_frame_size k.X300_ETH_MSG_FRAME_SIZE,
    num_send_frames :=
      if xport_type = xport_type_t.TX_DATA then k.X300_ETH_DATA_NUM_FRAMES
      else k.X300_ETH_MSG_NUM_FRAMES,
    num_recv_frames :=
      if xport_type = xport_type_t.RX_DATA then k.X300_ETH_DATA_NUM_FRAMES
      else k.X300_ETH_MSG_NUM_FRAMES }

/-- The choice of the link and the allocation of the SID in the Ethernet branch of
make_transport (lines 1170-1178), for the link `conn` that `mb.next_src_addr`
selects: the crossbar source address and port, and (send SID, motherboard,
`_sid_framer`) after the link index has advanced and allocate_sid has run. -/
def make_transport_eth_route (k : x300_consts) (mb : mboard_members_t) (_sid_framer : Nat)
    (address : sid_t) (conn : x300_eth_conn_t) : sid_t × mboard_members_t × Nat :=
  let xbar_src_addr := if mb.next_src_addr = 0 then k.X300_SRC_ADDR0 else k.X300_SRC_ADDR1
  let xbar_src_dst :=
    if conn.type = x300_eth_iface_t.X300_IFACE_ETH0 then k.X300_XB_DST_E0
    else k.X300_XB_DST_E1
  let mb := { mb with next_src_addr := (mb.next_src_addr + 1) % mb.eth_conns.length }
  allocate_sid k mb _sid_framer address xbar_src_addr xbar_src_dst

/-- The write of the link rate to the property tree (lines 1191, 1194, 1200), when
one of the cases applies. -/
def set_link_max_rate (mb : mboard_members_t) (rate : Option Nat) : mboard_members_t :=
  match rate with
  | some rate => { mb with link_max_rate := rate }
  | none => mb

/-- The making of the socket and the programming of the framer in the Ethernet
branch of make_transport (lines 1229-1302), for the send SID `send_sid` and the
interface address `interface_addr`. -/
def make_transport_eth_socket (k : x300_consts) (udp_zero_copy_make : udp_zero_copy_make_t)
    (mb : mboard_members_t) (_max_frame_sizes : frame_size_t) (send_sid : sid_t)
    (interface_addr : String) (xport_type : xport_type_t) (xport_args : device_addr_t) :
    Except uhd_error both_xports_t × mboard_members_t :=
  let default_buff_args := eth_buff_args k _max_frame_sizes xport_type
  match udp_zero_copy_make interface_addr default_buff_args xport_args with
  | Except.error e => (Except.error e, mb)
  | Except.ok params =>
    let mb :=
      { mb with trace := mb.trace ++ [hw_event.framer_packet interface_addr 0 send_sid.get] }
    let mb := poke32 mb (k.SR_ADDR k.SET0_BASE (k.ZPU_SR_ETHINT0 + 8 + 3)) k.X300_VITA_UDP_PORT
    let mb := poke32 mb (k.SR_ADDR k.SET0_BASE (k.ZPU_SR_ETHINT1 + 8 + 3)) k.X300_VITA_UDP_PORT
    let mb := { mb with trace := mb.trace ++ [hw_event.peek32 0] }
    (Except.ok
      { send_sid := send_sid,
        recv_sid := send_sid.reversed,
        recv_buff_size := params.recv_buff_size,
        send_buff_size := params.send_buff_size,
        interface_addr := interface_addr,
        buff_args := default_buff_args,
        recv_offload := decide (xport_type = xport_type_t.RX_DATA) },
      mb)

/-- The branch `mb.xport_path == "eth"` of x300_impl::make_transport (lines
1168-1302) for the motherboard `mb` that the destination address of `address`
selects. The members `_sid_framer` and `_max_frame_sizes` of the session are
passed in; the result is the outcome, the motherboard and `_sid_framer` after the
call (also after a throw). It is `none` when `mb.next_src_addr` is not an index
of `mb.eth_conns`, which the source does not check. The warnings about frame
sizes below the recommended size only print and are left out. -/
def make_transport_eth (k : x300_consts) (udp_zero_copy_make : udp_zero_copy_make_t)
    (mb : mboard_members_t) (_sid_framer : Nat) (_max_frame_sizes : frame_size_t)
    (address : sid_t) (xport_type : xport_type_t) (args : device_addr_t) :
    Option (Except uhd_error both_xports_t × mboard_members_t × Nat) :=
  match mb.eth_conns[mb.next_src_addr]? with
  | none => none
  | some conn =>
    let xport_args : device_addr_t := if xport_type = xport_type_t.CTRL then [] else args
    let xbar_src_dst :=
      if conn.type = x300_eth_iface_t.X300_IFACE_ETH0 then k.X300_XB_DST_E0
      else k.X300_XB_DST_E1
    let r := make_transport_eth_route k mb _sid_framer address conn
    let rec_size :=
      eth_data_rec_frame_size k r.2.1.loaded_fpga_image xbar_src_dst r.2.1.eth_conns.length
    let mb := set_link_max_rate r.2.1 rec_size.2
    if rec_size.1 = 0 then some (Except.error uhd_error.runtime_error, mb, r.2.2)
    else
      let s := make_transport_eth_socket k udp_zero_copy_make mb _max_frame_sizes r.1 conn.addr
        xport_type xport_args
      some (s.1, s.2, r.2.2)

/-- A sample of udp_zero_copy::make that always makes the socket, with socket
buffers of 1 MB. -/
def sample_udp_zero_copy_make : udp_zero_copy_make_t :=
  fun _ _ _ => Except.ok { recv_buff_size := 1048576, send_buff_size := 1048576 }

/-- The sample motherboard with the image whose two ports are both 1 Gigabit. -/
def sample_mb_1G : mboard_members_t := { sample_mb with loaded_fpga_image := "1GS" }

/-! # Properties

## PCIe DMA channel pool -/
theorem pool_lookup_isSome_iff (pool : dma_chan_pool_t) (x : Nat) :
    (pool.lookup x).isSome = true ↔ x ∈ pool_keys pool := by
  simp [pool_keys]

theorem pool_count_eq_zero_iff (pool : dma_chan_pool_t) (x : Nat) :
    pool_count pool x = 0 ↔ x ∉ pool_keys pool := by
  unfold pool_count
  rw [← pool_lookup_isSome_iff]
  split <;> simp_all

theorem pool_lookup_none_of_not_mem (pool : dma_chan_pool_t) (x : Nat)
    (h : x ∉ pool_keys pool) : pool.lookup x = none := by
  have := (pool_lookup_isSome_iff pool x).not.mpr h
  cases hl : pool.lookup x <;> simp_all

theorem pool_assign_of_not_mem (pool : dma_chan_pool_t) (x v : Nat)
    (h : x ∉ pool_keys pool) : pool_assign pool x v = pool ++ [(x, v)] := by
  unfold pool_assign
  rw [pool_lookup_none_of_not_mem pool x h]
  simp

/-- The value of a data-kind call in terms of membership of the SID. -/
theorem allocate_data_eq (k : x300_consts) (pool : dma_chan_pool_t) (sid : sid_t)
    (ty : xport_type_t) (hty : ty ≠ xport_type_t.CTRL) :
    allocate_pcie_dma_chan k pool sid ty =
      if sid.get ∈ pool_keys pool then
        (if pool.length + 1 > k.X300_PCIE_MAX_CHANNELS then
          (Except.error uhd_error.runtime_error, pool)
         else (Except.ok (pool_at pool sid.get), pool))
      else
        (if pool.length + 2 > k.X300_PCIE_MAX_CHANNELS then
          (Except.error uhd_error.runtime_error, pool ++ [(sid.get, pool.length + 1)])
         else (Except.ok (pool.length + 1), pool ++ [(sid.get, pool.length + 1)])) := by
  unfold allocate_pcie_dma_chan
  simp only [hty, if_false, FIRST_DATA_CHANNEL]
  by_cases hm : sid.get ∈ pool_keys pool
  · have hc : ¬ pool_count pool sid.get = 0 := by
      rw [pool_count_eq_zero_iff]; simpa using hm
    simp [hm, hc]
  · have hc : pool_count pool sid.get = 0 := (pool_count_eq_zero_iff _ _).mpr hm
    simp only [hm, hc, if_true, if_false, pool_assign_of_not_mem pool _ _ hm]
    have hl : pool_at (pool ++ [(sid.get, pool.length + 1)]) sid.get = pool.length + 1 := by
      unfold pool_at
      rw [List.lookup_append, pool_lookup_none_of_not_mem pool _ hm]
      simp
    simp [hl, Nat.add_assoc]

/-- C1: a successful data-kind allocate_pcie_dma_chan call is idempotent: the
immediately repeated call with the same SID succeeds as well, returns the same
channel and leaves the pool as the first call left it. -/
theorem allocate_pcie_dma_chan_idempotent (k : x300_consts) (pool : dma_chan_pool_t)
    (sid : sid_t) (ty : xport_type_t) (c : Nat) (hty : ty ≠ xport_type_t.CTRL)
    (h : (allocate_pcie_dma_chan k pool sid ty).1 = Except.ok c) :
    allocate_pcie_dma_chan k (allocate_pcie_dma_chan k pool sid ty).2 sid ty =
      (Except.ok c, (allocate_pcie_dma_chan k pool sid ty).2) := by
  rw [allocate_data_eq k pool sid ty hty] at h ⊢
  by_cases hm : sid.get ∈ pool_keys pool
  · simp only [hm, if_true] at h ⊢
    by_cases hb : pool.length + 1 > k.X300_PCIE_MAX_CHANNELS
    · simp [hb] at h
    · simp only [hb, if_false] at h ⊢
      rw [allocate_data_eq k pool sid ty hty]
      simp only [hm, hb, if_true, if_false]
      simpa using h
  · simp only [hm, if_false] at h ⊢
    by_cases hb : pool.length + 2 > k.X300_PCIE_MAX_CHANNELS
    · simp [hb] at h
    · simp only [hb, if_false] at h ⊢
      rw [allocate_data_eq k _ sid ty hty]
      have hm2 : sid.get ∈ pool_keys (pool ++ [(sid.get, pool.length + 1)]) := by
        simp [pool_keys]
      have hb2 : ¬ (pool ++ [(sid.get, pool.length + 1)]).length + 1 > k.X300_PCIE_MAX_CHANNELS := by
        simpa [Nat.add_assoc] using hb
      simp only [hm2, hb2, if_true, if_false]
      have hl : pool_at (pool ++ [(sid.get, pool.length + 1)]) sid.get = pool.length + 1 := by
        unfold pool_at
        rw [List.lookup_append, pool_lookup_none_of_not_mem pool _ hm]
        simp
      rw [hl]
      simpa using h

/-- Witness for C1: the first RX request on an empty pool returns channel 1, and
so does its repetition. -/
theorem allocate_pcie_dma_chan_idempotent_witness :
    allocate_pcie_dma_chan sample_consts
        (allocate_pcie_dma_chan sample_consts [] ⟨7⟩ xport_type_t.RX_DATA).2 ⟨7⟩
        xport_type_t.RX_DATA =
      (Except.ok 1, (allocate_pcie_dma_chan sample_consts [] ⟨7⟩ xport_type_t.RX_DATA).2) :=
  allocate_pcie_dma_chan_idempotent sample_consts [] ⟨7⟩ xport_type_t.RX_DATA 1
    (by decide) rfl

theorem allocate_ctrl_eq (k : x300_consts) (pool : dma_chan_pool_t) (sid : sid_t) :
    allocate_pcie_dma_chan k pool sid xport_type_t.CTRL = (Except.ok 0, pool) := by
  simp [allocate_pcie_dma_chan, CTRL_CHANNEL]

/-- C2: a Control request returns channel 0 in every pool state, a full one
included (the budget does not enter), never fails and leaves the pool unchanged. -/
theorem allocate_pcie_dma_chan_ctrl (k : x300_consts) (pool : dma_chan_pool_t) (sid : sid_t) :
    allocate_pcie_dma_chan k pool sid xport_type_t.CTRL = (Except.ok 0, pool) ∧
    (allocate_pcie_dma_chan k pool sid xport_type_t.CTRL).1 = Except.ok CTRL_CHANNEL ∧
    (allocate_pcie_dma_chan k pool sid xport_type_t.CTRL).2 = pool := by
  unfold allocate_pcie_dma_chan
  simp [CTRL_CHANNEL]

theorem pool_wf_nil : pool_wf [] := by
  intro x hx; simp [pool_keys] at hx

theorem pool_keys_length (pool : dma_chan_pool_t) : (pool_keys pool).length = pool.length := by
  simp [pool_keys]

theorem pool_wf_append (pool : dma_chan_pool_t) (x : Nat) (hw : pool_wf pool)
    (hx : x ∉ pool_keys pool) : pool_wf (pool ++ [(x, pool.length + 1)]) := by
  intro y hy
  have hk : pool_keys (pool ++ [(x, pool.length + 1)]) = pool_keys pool ++ [x] := by
    simp [pool_keys]
  rw [hk] at hy ⊢
  rw [List.lookup_append]
  by_cases hm : y ∈ pool_keys pool
  · rw [hw y hm, List.indexOf_append_of_mem hm]; simp
  · have hyx : y = x := by simpa [hm] using hy
    subst hyx
    rw [pool_lookup_none_of_not_mem pool _ hm, List.indexOf_append_of_not_mem hm]
    simp [pool_keys_length]

theorem first_requests_extends (xs : List Nat) :
    ∀ seen : List Nat, ∃ extra, first_requests seen xs = seen ++ extra := by
  induction xs with
  | nil => intro seen; exact ⟨[], by simp [first_requests]⟩
  | cons x xs ih =>
    intro seen
    unfold first_requests
    split
    · exact ih seen
    · obtain ⟨e, he⟩ := ih (seen ++ [x])
      exact ⟨x :: e, by simp [he]⟩

theorem mem_first_requests (xs : List Nat) :
    ∀ (seen : List Nat) (y : Nat), y ∈ first_requests seen xs ↔ y ∈ seen ∨ y ∈ xs := by
  induction xs with
  | nil => intro seen y; simp [first_requests]
  | cons x xs ih =>
    intro seen y
    unfold first_requests
    split
    · rename_i hx
      rw [ih]
      constructor
      · rintro (h | h)
        · exact Or.inl h
        · exact Or.inr (List.mem_cons_of_mem _ h)
      · rintro (h | h)
        · exact Or.inl h
        · rcases List.mem_cons.mp h with rfl | h
          · exact Or.inl hx
          · exact Or.inr h
    · rw [ih]
      simp only [List.mem_append, List.mem_singleton, List.mem_cons]
      tauto

theorem nodup_first_requests (xs : List Nat) :
    ∀ seen : List Nat, seen.Nodup → (first_requests seen xs).Nodup := by
  induction xs with
  | nil => intro seen h; simpa [first_requests] using h
  | cons x xs ih =>
    intro seen h
    unfold first_requests
    split
    · exact ih seen h
    · rename_i hx
      apply ih
      rw [List.nodup_append]
      refine ⟨h, List.nodup_singleton x, ?_⟩
      intro a ha hb
      rw [List.mem_singleton] at hb
      exact hx (hb ▸ ha)

/-- One successful call preserves the invariant, extends the insertion order by
the SID when it is a data request for a new SID, and returns the position of the
SID in the insertion order (counted from 1), or 0 for Control. -/
theorem allocate_step (k : x300_consts) (pool pool1 : dma_chan_pool_t) (sid : sid_t)
    (ty : xport_type_t) (c : Nat) (hw : pool_wf pool)
    (h : allocate_pcie_dma_chan k pool sid ty = (Except.ok c, pool1)) :
    pool_wf pool1 ∧
      pool_keys pool1 = first_requests (pool_keys pool) (data_raws [(sid, ty)]) ∧
      c = (if ty = xport_type_t.CTRL then 0 else (pool_keys pool1).indexOf sid.get + 1) ∧
      pool1.length + 1 ≤ k.X300_PCIE_MAX_CHANNELS ∨ ty = xport_type_t.CTRL ∧ pool1 = pool ∧ c = 0 := by
  by_cases hty : ty = xport_type_t.CTRL
  · subst hty
    rw [allocate_ctrl_eq] at h
    simp only [Prod.mk.injEq, Except.ok.injEq] at h
    exact Or.inr ⟨rfl, h.2.symm, h.1.symm⟩
  · left
    rw [allocate_data_eq k pool sid ty hty] at h
    have hd : data_raws [(sid, ty)] = [sid.get] := by simp [data_raws, hty]
    rw [hd]
    by_cases hm : sid.get ∈ pool_keys pool
    · simp only [hm, if_true] at h
      by_cases hb : pool.length + 1 > k.X300_PCIE_MAX_CHANNELS
      · simp [hb] at h
      · simp only [hb, if_false, Prod.mk.injEq, Except.ok.injEq] at h
        obtain ⟨hc, hp⟩ := h
        subst hp
        refine ⟨hw, by simp [first_requests, hm], ?_, by omega⟩
        simp only [hty, if_false]
        rw [← hc]; unfold pool_at; rw [hw _ hm]; rfl
    · simp only [hm, if_false] at h
      by_cases hb : pool.length + 2 > k.X300_PCIE_MAX_CHANNELS
      · simp [hb] at h
      · simp only [hb, if_false, Prod.mk.injEq, Except.ok.injEq] at h
        obtain ⟨hc, hp⟩ := h
        subst hp
        have hk : pool_keys (pool ++ [(sid.get, pool.length + 1)]) = pool_keys pool ++ [sid.get] := by
          simp [pool_keys]
        refine ⟨pool_wf_append pool _ hw hm, by simp [first_requests, hm, hk], ?_, ?_⟩
        · simp only [hty, if_false]
          rw [hk, List.indexOf_append_of_not_mem hm, ← hc]
          simp [pool_keys_length]
        · simp only [List.length_append, List.length_singleton]; omega

theorem first_requests_append (xs ys : List Nat) :
    ∀ seen : List Nat,
      first_requests seen (xs ++ ys) = first_requests (first_requests seen xs) ys := by
  induction xs with
  | nil => intro seen; simp [first_requests]
  | cons x xs ih =>
    intro seen
    simp only [List.cons_append, first_requests]
    split <;> exact ih _

theorem data_raws_cons (r : sid_t × xport_type_t) (rest : List (sid_t × xport_type_t)) :
    data_raws (r :: rest) = data_raws [r] ++ data_raws rest := by
  unfold data_raws
  rw [← List.map_append, ← List.filter_append]
  rfl

/-- A run in which every call succeeds: invariant, insertion order and returned
channels. -/
theorem allocate_run (k : x300_consts) :
    ∀ (reqs : List (sid_t × xport_type_t)) (pool pool1 : dma_chan_pool_t) (chans : List Nat),
      pool_wf pool →
      allocate_pcie_dma_chans k pool reqs = (chans.map Except.ok, pool1) →
      pool_wf pool1 ∧
        pool_keys pool1 = first_requests (pool_keys pool) (data_raws reqs) ∧
        chans = reqs.map (fun r =>
          if r.2 = xport_type_t.CTRL then 0 else (pool_keys pool1).indexOf r.1.get + 1) ∧
        (pool1 = pool ∨ pool1.length + 1 ≤ k.X300_PCIE_MAX_CHANNELS) := by
  intro reqs
  induction reqs with
  | nil =>
    intro pool pool1 chans hw h
    simp only [allocate_pcie_dma_chans, Prod.mk.injEq] at h
    obtain ⟨hc, hp⟩ := h
    subst hp
    have : chans = [] := by simpa using hc.symm
    subst this
    exact ⟨hw, by simp [data_raws, first_requests], by simp, Or.inl rfl⟩
  | cons r rest ih =>
    intro pool pool1 chans hw h
    obtain ⟨sid, ty⟩ := r
    simp only [allocate_pcie_dma_chans, Prod.mk.injEq] at h
    obtain ⟨hc, hp⟩ := h
    cases chans with
    | nil => simp at hc
    | cons c cs =>
      simp only [List.map_cons, List.cons.injEq] at hc
      obtain ⟨hc1, hc2⟩ := hc
      have hstep := allocate_step k pool (allocate_pcie_dma_chan k pool sid ty).2 sid ty c hw
        (by rw [← hc1])
      have hw1 : pool_wf (allocate_pcie_dma_chan k pool sid ty).2 := by
        rcases hstep with h1 | h1
        · exact h1.1
        · rw [h1.2.1]; exact hw
      have hk1 : pool_keys (allocate_pcie_dma_chan k pool sid ty).2 =
          first_requests (pool_keys pool) (data_raws [(sid, ty)]) := by
        rcases hstep with h1 | h1
        · exact h1.2.1
        · rw [h1.2.1, h1.1]; simp [data_raws, first_requests]
      obtain ⟨hw2, hk2, hcs, hlen⟩ := ih _ pool1 cs hw1 (by rw [← hc2, ← hp])
      refine ⟨hw2, ?_, ?_, ?_⟩
      · rw [hk2, hk1, data_raws_cons (sid, ty) rest, first_requests_append]
      · simp only [List.map_cons, List.cons.injEq]
        refine ⟨?_, hcs⟩
        rcases hstep with h1 | h1
        · rw [h1.2.2.1]
          by_cases hty : ty = xport_type_t.CTRL
          · simp [hty]
          · simp only [hty, if_false]
            obtain ⟨e, he⟩ := first_requests_extends (data_raws rest)
              (pool_keys (allocate_pcie_dma_chan k pool sid ty).2)
            rw [hk2, he]
            have hmem : sid.get ∈ pool_keys (allocate_pcie_dma_chan k pool sid ty).2 := by
              rw [hk1, mem_first_requests]
              right; simp [data_raws, hty]
            rw [List.indexOf_append_of_mem hmem]
        · simp [h1.1, h1.2.2]
      · rcases hlen with h2 | h2
        · rcases hstep with h1 | h1
          · right; rw [h2]; exact h1.2.2.2
          · left; rw [h2, h1.2.1]
        · exact Or.inr h2

theorem allocate_pcie_dma_chans_length (k : x300_consts) :
    ∀ (reqs : List (sid_t × xport_type_t)) (pool : dma_chan_pool_t),
      (allocate_pcie_dma_chans k pool reqs).1.length = reqs.length := by
  intro reqs
  induction reqs with
  | nil => intro pool; simp [allocate_pcie_dma_chans]
  | cons r rest ih =>
    intro pool
    obtain ⟨sid, ty⟩ := r
    simp [allocate_pcie_dma_chans, ih]

/-- C3: in a run of successful calls from the empty pool the SIDs of the data
requests, taken in the order in which they are first requested, hold the channels
1, 2, 3, ...: every data request returns the position (counted from 1) of its SID
in that order and Control returns 0; the pool holds exactly these assignments; two
data requests get the same channel iff their raw SIDs are equal; no data request
gets channel 0; the first data request gets channel 1; a following request for a
new SID gets the next number; and Control followed by two data requests on
distinct SIDs yields 0, 1, 2 whenever the budget admits two data channels. -/
theorem dma_chan_kth_distinct (k : x300_consts) (reqs : List (sid_t × xport_type_t))
    (chans : List Nat) (pool : dma_chan_pool_t)
    (hrun : allocate_pcie_dma_chans k [] reqs = (chans.map Except.ok, pool)) :
    (first_requests [] (data_raws reqs)).Nodup ∧
    (∀ x, x ∈ first_requests [] (data_raws reqs) ↔ x ∈ data_raws reqs) ∧
    chans = reqs.map (fun r =>
      if r.2 = xport_type_t.CTRL then 0
      else (first_requests [] (data_raws reqs)).indexOf r.1.get + 1) ∧
    (∀ x ∈ data_raws reqs,
      pool_at pool x = (first_requests [] (data_raws reqs)).indexOf x + 1) ∧
    pool.length = (first_requests [] (data_raws reqs)).length ∧
    (∀ (i j : Nat) (s1 : sid_t) (t1 : xport_type_t) (s2 : sid_t) (t2 : xport_type_t),
      reqs[i]? = some (s1, t1) → reqs[j]? = some (s2, t2) →
      t1 ≠ xport_type_t.CTRL → t2 ≠ xport_type_t.CTRL →
      (chans[i]? = chans[j]? ↔ s1.get = s2.get)) ∧
    (∀ (i : Nat) (s : sid_t) (t : xport_type_t), reqs[i]? = some (s, t) →
      t ≠ xport_type_t.CTRL → chans[i]? ≠ some 0) ∧
    (∀ (pre : List (sid_t × xport_type_t)) (s : sid_t) (t : xport_type_t)
        (rest : List (sid_t × xport_type_t)), reqs = pre ++ (s, t) :: rest → (∀ r ∈ pre, r.2 = xport_type_t.CTRL) →
      t ≠ xport_type_t.CTRL → chans[pre.length]? = some 1) ∧
    (∀ (s : sid_t) (t : xport_type_t) (c : Nat), t ≠ xport_type_t.CTRL → s.get ∉ data_raws reqs →
      (allocate_pcie_dma_chan k pool s t).1 = Except.ok c →
      c = (first_requests [] (data_raws reqs)).length + 1) ∧
    (∀ (s0 s1 s2 : sid_t) (t1 t2 : xport_type_t), t1 ≠ xport_type_t.CTRL → t2 ≠ xport_type_t.CTRL →
      s1.get ≠ s2.get → 3 ≤ k.X300_PCIE_MAX_CHANNELS →
      (allocate_pcie_dma_chans k [] [(s0, xport_type_t.CTRL), (s1, t1), (s2, t2)]).1 =
        [Except.ok 0, Except.ok 1, Except.ok 2]) := by
  obtain ⟨hw, hk, hc, -⟩ := allocate_run k reqs [] pool chans pool_wf_nil hrun
  have hk0 : pool_keys pool = first_requests [] (data_raws reqs) := by
    simpa [pool_keys] using hk
  rw [hk0] at hc
  have hmem : ∀ x, x ∈ first_requests [] (data_raws reqs) ↔ x ∈ data_raws reqs := by
    intro x; rw [mem_first_requests]; simp
  have hmem_req : ∀ (i : Nat) (s : sid_t) (t : xport_type_t), reqs[i]? = some (s, t) → t ≠ xport_type_t.CTRL →
      s.get ∈ first_requests [] (data_raws reqs) := by
    intro i s t hi ht
    rw [hmem]
    unfold data_raws
    rw [List.mem_map]
    refine ⟨(s, t), ?_, rfl⟩
    rw [List.mem_filter]
    exact ⟨List.getElem?_mem hi, by simpa using ht⟩
  have hget : ∀ (i : Nat) (s : sid_t) (t : xport_type_t), reqs[i]? = some (s, t) → t ≠ xport_type_t.CTRL →
      chans[i]? = some ((first_requests [] (data_raws reqs)).indexOf s.get + 1) := by
    intro i s t hi ht
    rw [hc, List.getElem?_map, hi]
    simp [ht]
  refine ⟨nodup_first_requests _ [] List.nodup_nil, hmem, hc, ?_, ?_, ?_, ?_, ?_, ?_, ?_⟩
  · intro x hx
    have hx1 : x ∈ pool_keys pool := by rw [hk0, hmem]; exact hx
    unfold pool_at
    rw [hw x hx1, hk0]; rfl
  · rw [← hk0, pool_keys_length]
  · intro i j s1 t1 s2 t2 hi hj ht1 ht2
    rw [hget i s1 t1 hi ht1, hget j s2 t2 hj ht2]
    simp only [Option.some.injEq, Nat.add_right_cancel_iff]
    exact List.indexOf_inj (hmem_req i s1 t1 hi ht1) (hmem_req j s2 t2 hj ht2)
  · intro i s t hi ht
    rw [hget i s t hi ht]
    simp
  · intro pre s t rest hreq hpre ht
    have hi : reqs[pre.length]? = some (s, t) := by
      rw [hreq, List.getElem?_append_right (Nat.le_refl _)]; simp
    rw [hget _ s t hi ht]
    have hd : data_raws reqs = s.get :: data_raws rest := by
      rw [hreq]
      unfold data_raws
      rw [List.filter_append, List.filter_cons]
      have : List.filter (fun r => decide (r.2 ≠ xport_type_t.CTRL)) pre = [] := by
        rw [List.filter_eq_nil_iff]
        intro a ha
        simp [hpre a ha]
      rw [this]
      simp [ht]
    rw [hd]
    simp only [first_requests, List.not_mem_nil, if_false, List.nil_append]
    obtain ⟨e, he⟩ := first_requests_extends (data_raws rest) [s.get]
    rw [he]
    simp
  · intro s t c ht hs hok
    rw [allocate_data_eq k pool s t ht] at hok
    have hs1 : s.get ∉ pool_keys pool := by rw [hk0, hmem]; exact hs
    simp only [hs1, if_false] at hok
    by_cases hb : pool.length + 2 > k.X300_PCIE_MAX_CHANNELS
    · simp [hb] at hok
    · simp only [hb, if_false, Except.ok.injEq] at hok
      rw [← hok, ← hk0, pool_keys_length]
  · intro s0 s1 s2 t1 t2 ht1 ht2 hne hmax
    simp only [allocate_pcie_dma_chans, allocate_ctrl_eq]
    rw [allocate_data_eq k [] s1 t1 ht1]
    have h1 : ¬ (0 + 2 > k.X300_PCIE_MAX_CHANNELS) := by omega
    simp only [pool_keys, List.map_nil, List.not_mem_nil, if_false, List.length_nil, h1,
      List.nil_append]
    rw [allocate_data_eq k _ s2 t2 ht2]
    have h2 : ¬ (1 + 2 > k.X300_PCIE_MAX_CHANNELS) := by omega
    have h3 : s2.get ∉ pool_keys [(s1.get, 0 + 1)] := by
      simp [pool_keys]; exact fun h => hne h.symm
    simp only [h3, if_false, List.length_singleton, h2]

/-- Witness for C3: Control, then RX data and TX data on two SIDs, then the first
SID again, under a budget of six channels. -/
theorem dma_chan_kth_distinct_witness :
    allocate_pcie_dma_chans sample_consts []
        [(⟨0x20⟩, xport_type_t.CTRL), (⟨0x10020⟩, xport_type_t.RX_DATA),
         (⟨0x20030⟩, xport_type_t.TX_DATA), (⟨0x10020⟩, xport_type_t.RX_DATA)] =
      ([0, 1, 2, 1].map Except.ok, [(0x10020, 1), (0x20030, 2)]) ∧
    [(0x10020, 1), (0x20030, 2)].length =
      (first_requests [] (data_raws
        [(⟨0x20⟩, xport_type_t.CTRL), (⟨0x10020⟩, xport_type_t.RX_DATA),
         (⟨0x20030⟩, xport_type_t.TX_DATA), (⟨0x10020⟩, xport_type_t.RX_DATA)])).length :=
  ⟨rfl, (dma_chan_kth_distinct sample_consts
    [(⟨0x20⟩, xport_type_t.CTRL), (⟨0x10020⟩, xport_type_t.RX_DATA),
     (⟨0x20030⟩, xport_type_t.TX_DATA), (⟨0x10020⟩, xport_type_t.RX_DATA)]
    [0, 1, 2, 1] [(0x10020, 1), (0x20030, 2)] rfl).2.2.2.2.1⟩

/-- Every call preserves the pool invariant, whether it succeeds or throws, and a
channel returned for a data request is below the budget. -/
theorem allocate_any_step (k : x300_consts) (pool : dma_chan_pool_t) (sid : sid_t)
    (ty : xport_type_t) (hw : pool_wf pool) :
    pool_wf (allocate_pcie_dma_chan k pool sid ty).2 ∧
      ∀ c, (allocate_pcie_dma_chan k pool sid ty).1 = Except.ok c →
        ty ≠ xport_type_t.CTRL ∨ 0 < k.X300_PCIE_MAX_CHANNELS →
        c < k.X300_PCIE_MAX_CHANNELS := by
  by_cases hty : ty = xport_type_t.CTRL
  · subst hty
    rw [allocate_ctrl_eq]
    refine ⟨hw, ?_⟩
    intro c hc hor
    simp only [Except.ok.injEq] at hc
    rcases hor with h | h
    · exact absurd rfl h
    · omega
  · rw [allocate_data_eq k pool sid ty hty]
    by_cases hm : sid.get ∈ pool_keys pool
    · simp only [hm, if_true]
      by_cases hb : pool.length + 1 > k.X300_PCIE_MAX_CHANNELS
      · simp only [hb, if_true]
        exact ⟨hw, by intro c hc; simp at hc⟩
      · simp only [hb, if_false]
        refine ⟨hw, ?_⟩
        intro c hc _
        simp only [Except.ok.injEq] at hc
        have hlt := List.indexOf_lt_length.mpr hm
        rw [pool_keys_length] at hlt
        have hv : pool_at pool sid.get = (pool_keys pool).indexOf sid.get + 1 := by
          unfold pool_at; rw [hw _ hm]; rfl
        omega
    · simp only [hm, if_false]
      by_cases hb : pool.length + 2 > k.X300_PCIE_MAX_CHANNELS
      · simp only [hb, if_true]
        exact ⟨pool_wf_append pool _ hw hm, by intro c hc; simp at hc⟩
      · simp only [hb, if_false]
        refine ⟨pool_wf_append pool _ hw hm, ?_⟩
        intro c hc _
        simp only [Except.ok.injEq] at hc
        omega

theorem allocate_any_run (k : x300_consts) :
    ∀ (reqs : List (sid_t × xport_type_t)) (pool : dma_chan_pool_t), pool_wf pool →
      ∀ (i : Nat) (s : sid_t) (t : xport_type_t) (c : Nat), reqs[i]? = some (s, t) →
        (allocate_pcie_dma_chans k pool reqs).1[i]? = some (Except.ok c) →
        t ≠ xport_type_t.CTRL ∨ 0 < k.X300_PCIE_MAX_CHANNELS →
        c < k.X300_PCIE_MAX_CHANNELS := by
  intro reqs
  induction reqs with
  | nil => intro pool _ i s t c hi; simp at hi
  | cons r rest ih =>
    intro pool hw i s t c hi hres hor
    obtain ⟨sid, ty⟩ := r
    obtain ⟨hw1, hstep⟩ := allocate_any_step k pool sid ty hw
    simp only [allocate_pcie_dma_chans] at hres
    cases i with
    | zero =>
      simp only [List.getElem?_cons_zero, Option.some.injEq, Prod.mk.injEq] at hi hres
      obtain ⟨rfl, rfl⟩ := hi
      exact hstep c hres hor
    | succ i =>
      simp only [List.getElem?_cons_succ] at hi hres
      exact ih _ hw1 i s t c hi hres hor

/-- C4: a data-kind request for a SID that is not in the pool succeeds exactly
when the channel number it would be assigned, the pool size plus one, is below
X300_PCIE_MAX_CHANNELS, and otherwise throws a runtime error; and in every run
from the empty pool, failed calls included, each channel returned for a data
request is below X300_PCIE_MAX_CHANNELS (as is the 0 returned for Control when the
budget is not zero). -/
theorem dma_chan_budget (k : x300_consts) :
    (∀ (pool : dma_chan_pool_t) (sid : sid_t) (ty : xport_type_t),
      ty ≠ xport_type_t.CTRL → pool_count pool sid.get = 0 →
      ((allocate_pcie_dma_chan k pool sid ty).1 = Except.ok (pool.length + FIRST_DATA_CHANNEL) ↔
          pool.length + FIRST_DATA_CHANNEL < k.X300_PCIE_MAX_CHANNELS) ∧
      ((∃ c, (allocate_pcie_dma_chan k pool sid ty).1 = Except.ok c) ↔
          pool.length + FIRST_DATA_CHANNEL < k.X300_PCIE_MAX_CHANNELS) ∧
      (¬ pool.length + FIRST_DATA_CHANNEL < k.X300_PCIE_MAX_CHANNELS →
        (allocate_pcie_dma_chan k pool sid ty).1 = Except.error uhd_error.runtime_error)) ∧
    (∀ (reqs : List (sid_t × xport_type_t)) (i : Nat) (s : sid_t) (t : xport_type_t) (c : Nat),
      reqs[i]? = some (s, t) →
      (allocate_pcie_dma_chans k [] reqs).1[i]? = some (Except.ok c) →
      t ≠ xport_type_t.CTRL ∨ 0 < k.X300_PCIE_MAX_CHANNELS →
      c < k.X300_PCIE_MAX_CHANNELS) := by
  refine ⟨?_, fun reqs => allocate_any_run k reqs [] pool_wf_nil⟩
  intro pool sid ty hty hcount
  have hm : sid.get ∉ pool_keys pool := (pool_count_eq_zero_iff _ _).mp hcount
  rw [allocate_data_eq k pool sid ty hty]
  simp only [hm, if_false, FIRST_DATA_CHANNEL]
  by_cases hb : pool.length + 2 > k.X300_PCIE_MAX_CHANNELS
  · simp only [hb, if_true]
    refine ⟨?_, ?_, fun _ => trivial⟩
    · constructor
      · intro h; simp at h
      · intro h; omega
    · constructor
      · rintro ⟨c, h⟩; simp at h
      · intro h; omega
  · simp only [hb, if_false]
    refine ⟨?_, ?_, ?_⟩
    · constructor
      · intro _; omega
      · intro _; trivial
    · constructor
      · intro _; omega
      · intro _; exact ⟨_, rfl⟩
    · intro h; omega

/-! ## SID router -/

theorem get_src_endpoint_set_src_endpoint (s : sid_t) (v : Nat) :
    (s.set_src_endpoint v).get_src_endpoint = v % 256 := by
  simp only [sid_t.set_src_endpoint, sid_t.get_src_endpoint]
  norm_num
  omega

theorem get_src_addr_set_src_endpoint (s : sid_t) (v : Nat) :
    (s.set_src_endpoint v).get_src_addr = s.get_src_addr := by
  simp only [sid_t.set_src_endpoint, sid_t.get_src_addr]
  norm_num
  omega

theorem get_src_addr_set_src_addr (s : sid_t) (v : Nat) :
    (s.set_src_addr v).get_src_addr = v % 256 := by
  simp only [sid_t.set_src_addr, sid_t.get_src_addr]
  norm_num
  omega

theorem allocate_sid_raw (k : x300_consts) (mb : mboard_members_t) (fr : Nat)
    (address : sid_t) (src_addr src_dst : Nat) :
    (allocate_sid k mb fr address src_addr src_dst).1.raw =
      (src_addr % 256) * 2 ^ 24 + (fr % 256) * 2 ^ 16 + address.raw % 2 ^ 16 := by
  simp only [allocate_sid, sid_t.set_src_endpoint, sid_t.set_src_addr]
  norm_num
  omega

theorem allocate_sid_src_pair (k : x300_consts) (mb : mboard_members_t) (fr : Nat)
    (address : sid_t) (src_addr src_dst : Nat) :
    src_pair (allocate_sid k mb fr address src_addr src_dst).1 = (src_addr % 256, fr % 256) := by
  simp only [src_pair, sid_t.get_src_addr, sid_t.get_src_endpoint, allocate_sid_raw]
  norm_num
  constructor <;> omega

/-- The SID returned by the i-th call of a sequence carries the low eight bits of
that call's src_addr and of the counter value at that call. -/
theorem allocate_sids_src_pair (k : x300_consts) :
    ∀ (reqs : List (sid_t × Nat × Nat)) (mb : mboard_members_t) (fr i : Nat)
      (address : sid_t) (src_addr src_dst : Nat) (s : sid_t),
      reqs[i]? = some (address, src_addr, src_dst) →
      (allocate_sids k mb fr reqs).1[i]? = some s →
      src_pair s = (src_addr % 256, (fr + i) % 256) := by
  intro reqs
  induction reqs with
  | nil => intro mb fr i address src_addr src_dst s hi; simp at hi
  | cons r rest ih =>
    intro mb fr i address src_addr src_dst s hi hs
    obtain ⟨a0, sa0, sd0⟩ := r
    simp only [allocate_sids] at hs
    cases i with
    | zero =>
      simp only [List.getElem?_cons_zero, Option.some.injEq, Prod.mk.injEq] at hi hs
      obtain ⟨rfl, rfl, rfl⟩ := hi
      rw [← hs, allocate_sid_src_pair]
      simp
    | succ i =>
      simp only [List.getElem?_cons_succ] at hi hs
      have hfr : (allocate_sid k mb fr a0 sa0 sd0).2.2 = fr + 1 := rfl
      rw [hfr] at hs
      rw [ih _ (fr + 1) i address src_addr src_dst s hi hs]
      congr 2
      omega

theorem allocate_sids_length (k : x300_consts) :
    ∀ (reqs : List (sid_t × Nat × Nat)) (mb : mboard_members_t) (fr : Nat),
      (allocate_sids k mb fr reqs).1.length = reqs.length := by
  intro reqs
  induction reqs with
  | nil => intro mb fr; simp [allocate_sids]
  | cons r rest ih =>
    intro mb fr
    obtain ⟨a0, sa0, sd0⟩ := r
    simp [allocate_sids, ih]

/-- C5 as stated fails: in a session whose counter starts at 0, 257 allocate_sid
calls with the same src_addr return, at the first and at the 257th call, SIDs with
the same (source address, source endpoint) pair (0, 0). -/
theorem allocate_sid_pair_repeats :
    ((allocate_sids sample_consts sample_mb 0 (List.replicate 257 (⟨0x0220⟩, 0, 1))).1[0]?).map
        src_pair = some (0, 0) ∧
    ((allocate_sids sample_consts sample_mb 0 (List.replicate 257 (⟨0x0220⟩, 0, 1))).1[256]?).map
        src_pair = some (0, 0) := by
  have hlen : (allocate_sids sample_consts sample_mb 0
      (List.replicate 257 (⟨0x0220⟩, 0, 1))).1.length = 257 := by
    rw [allocate_sids_length, List.length_replicate]
  have h0 : 0 < (allocate_sids sample_consts sample_mb 0
      (List.replicate 257 (⟨0x0220⟩, 0, 1))).1.length := by rw [hlen]; decide
  have h256 : 256 < (allocate_sids sample_consts sample_mb 0
      (List.replicate 257 (⟨0x0220⟩, 0, 1))).1.length := by rw [hlen]; decide
  have hr : ∀ i, i < 257 → (List.replicate 257 ((⟨0x0220⟩, 0, 1) : sid_t × Nat × Nat))[i]? =
      some (⟨0x0220⟩, 0, 1) := by
    intro i hi
    rw [List.getElem?_replicate, if_pos hi]
  constructor
  · rw [List.getElem?_eq_getElem h0, Option.map_some',
      allocate_sids_src_pair sample_consts _ sample_mb 0 0 ⟨0x0220⟩ 0 1 _ (hr 0 (by decide))
        (List.getElem?_eq_getElem h0)]
  · rw [List.getElem?_eq_getElem h256, Option.map_some',
      allocate_sids_src_pair sample_consts _ sample_mb 0 256 ⟨0x0220⟩ 0 1 _ (hr 256 (by decide))
        (List.getElem?_eq_getElem h256)]

/-- C5, amended: two allocate_sid calls of one session whose positions in the call
sequence differ by a number that is not a multiple of 256 return SIDs with
different (source address, source endpoint) pairs, whatever the addresses and
src_addr arguments and wherever the counter starts; in particular the SIDs
returned by a sequence of at most 256 calls carry pairwise different pairs. -/
theorem allocate_sid_pairs_distinct (k : x300_consts) (mb : mboard_members_t) (fr : Nat)
    (reqs : List (sid_t × Nat × Nat)) :
    (∀ (i j : Nat) (si sj : sid_t), i < j → (j - i) % 256 ≠ 0 →
      (allocate_sids k mb fr reqs).1[i]? = some si →
      (allocate_sids k mb fr reqs).1[j]? = some sj →
      src_pair si ≠ src_pair sj) ∧
    (reqs.length ≤ 256 →
      ∀ (i j : Nat) (si sj : sid_t), i ≠ j →
        (allocate_sids k mb fr reqs).1[i]? = some si →
        (allocate_sids k mb fr reqs).1[j]? = some sj →
        src_pair si ≠ src_pair sj) := by
  have key : ∀ (i j : Nat) (si sj : sid_t), i < j → (j - i) % 256 ≠ 0 →
      (allocate_sids k mb fr reqs).1[i]? = some si →
      (allocate_sids k mb fr reqs).1[j]? = some sj →
      src_pair si ≠ src_pair sj := by
    intro i j si sj hij hmod hi hj
    have hil : i < reqs.length := by
      rw [← allocate_sids_length k reqs mb fr]
      exact (List.getElem?_eq_some.mp hi).1
    have hjl : j < reqs.length := by
      rw [← allocate_sids_length k reqs mb fr]
      exact (List.getElem?_eq_some.mp hj).1
    have h1 := allocate_sids_src_pair k reqs mb fr i reqs[i].1 reqs[i].2.1 reqs[i].2.2 si
      (List.getElem?_eq_getElem hil) hi
    have h2 := allocate_sids_src_pair k reqs mb fr j reqs[j].1 reqs[j].2.1 reqs[j].2.2 sj
      (List.getElem?_eq_getElem hjl) hj
    rw [h1, h2]
    intro heq
    simp only [Prod.mk.injEq] at heq
    omega
  refine ⟨key, ?_⟩
  intro hlen i j si sj hne hi hj
  have hil : i < reqs.length := by
    rw [← allocate_sids_length k reqs mb fr]
    exact (List.getElem?_eq_some.mp hi).1
  have hjl : j < reqs.length := by
    rw [← allocate_sids_length k reqs mb fr]
    exact (List.getElem?_eq_some.mp hj).1
  rcases Nat.lt_or_gt_of_ne hne with h | h
  · exact key i j si sj h (by omega) hi hj
  · exact fun heq => key j i sj si h (by omega) hj hi heq.symm

/-- C6 as stated fails: with the counter at 256 and src_addr 256 the returned SID
carries source endpoint 0 and source address 0, not 256. -/
theorem allocate_sid_fields_truncated :
    (allocate_sid sample_consts sample_mb 256 ⟨0x0220⟩ 256 1).1.get_src_endpoint = 0 ∧
    (allocate_sid sample_consts sample_mb 256 ⟨0x0220⟩ 256 1).1.get_src_addr = 0 ∧
    (allocate_sid sample_consts sample_mb 256 ⟨0x0220⟩ 0 1).1.get_src_endpoint ≠ 256 ∧
    (allocate_sid sample_consts sample_mb 0 ⟨0x0220⟩ 256 1).1.get_src_addr ≠ 256 := by
  decide

/-- C6, amended: allocate_sid performs exactly three register writes, in this
order: the local-address register := destination address of `address`; crossbar
table entry (256 + destination endpoint) := destination crossbar port; crossbar
table entry (src_addr) := src_dst. It returns `address` with only its source
address replaced, by the low eight bits of src_addr, and its source endpoint
replaced, by the low eight bits of the counter value before the call; the counter
is then one larger, and nothing else of the motherboard state changes. -/
theorem allocate_sid_effect (k : x300_consts) (mb : mboard_members_t) (fr : Nat)
    (address : sid_t) (src_addr src_dst : Nat) :
    (allocate_sid k mb fr address src_addr src_dst).2.1 =
      { mb with trace := mb.trace ++
        [hw_event.poke32 (k.SR_ADDR k.SET0_BASE k.ZPU_SR_XB_LOCAL) address.get_dst_addr,
         hw_event.poke32 (k.SR_ADDR k.SETXB_BASE (256 + address.get_dst_endpoint))
           address.get_dst_xbarport,
         hw_event.poke32 (k.SR_ADDR k.SETXB_BASE src_addr) src_dst] } ∧
    (allocate_sid k mb fr address src_addr src_dst).1.get_src_addr = src_addr % 256 ∧
    (allocate_sid k mb fr address src_addr src_dst).1.get_src_endpoint = fr % 256 ∧
    (allocate_sid k mb fr address src_addr src_dst).1.get_dst_addr = address.get_dst_addr ∧
    (allocate_sid k mb fr address src_addr src_dst).1.get_dst_endpoint =
      address.get_dst_endpoint ∧
    (allocate_sid k mb fr address src_addr src_dst).1.get_dst_xbarport =
      address.get_dst_xbarport ∧
    (allocate_sid k mb fr address src_addr src_dst).1.get =
      (src_addr % 256) * 2 ^ 24 + (fr % 256) * 2 ^ 16 + address.get % 2 ^ 16 ∧
    (allocate_sid k mb fr address src_addr src_dst).2.2 = fr + 1 := by
  have hraw := allocate_sid_raw k mb fr address src_addr src_dst
  have hp := allocate_sid_src_pair k mb fr address src_addr src_dst
  simp only [src_pair, Prod.mk.injEq] at hp
  refine ⟨?_, hp.1, hp.2, ?_, ?_, ?_, ?_, rfl⟩
  · simp [allocate_sid, poke32]
  · simp only [sid_t.get_dst_addr, hraw]; norm_num; omega
  · simp only [sid_t.get_dst_endpoint, hraw]; norm_num; omega
  · simp only [sid_t.get_dst_xbarport, hraw]; norm_num; omega
  · simp only [sid_t.get, hraw]; norm_num; omega

/-! ## MTU prober -/

theorem recv_search_succ (k : x300_consts) (peer : mtu_peer) (bufsize fuel n mn mx : Nat) :
    recv_search k peer bufsize (fuel + 1) n mn mx =
      if mn < mx then
        if recv_probe k peer bufsize n (test_frame_size mn mx) ≥ test_frame_size mn mx
        then recv_search k peer bufsize fuel (n + 1) (test_frame_size mn mx) mx
        else recv_search k peer bufsize fuel (n + 1) mn (test_frame_size mn mx - 4)
      else some (n, mn, mx) := rfl

theorem send_search_succ (k : x300_consts) (peer : mtu_peer) (bufsize fuel n mn mx : Nat) :
    send_search k peer bufsize (fuel + 1) n mn mx =
      if mn < mx then
        if send_probe k peer bufsize n (test_frame_size mn mx) ≥ test_frame_size mn mx
        then send_search k peer bufsize fuel (n + 1) (test_frame_size mn mx) mx
        else send_search k peer bufsize fuel (n + 1) mn (test_frame_size mn mx - 4)
      else some (n, mn, mx) := rfl

/-- Against a threshold peer a probe succeeds exactly when its size is at most
the threshold, provided the buffer can hold a datagram of threshold size. -/
theorem recv_probe_threshold (k : x300_consts) (peer : mtu_peer) (bufsize T n s : Nat)
    (hpeer : echo_threshold peer T) (hbuf : T ≤ bufsize) :
    recv_probe k peer bufsize n s ≥ s ↔ s ≤ T := by
  have h := hpeer n ⟨⟨k.X300_MTU_DETECT_ECHO_REQUEST, s⟩, min sizeof_x300_mtu_t bufsize⟩
    (Nat.min_le_left _ _)
  simp only [recv_probe, udp_recv] at h ⊢
  constructor
  · intro hge
    by_contra hlt
    have := h.2 (by omega)
    omega
  · intro hle
    have := h.1 hle
    omega

/-- The receive loop never exits when the user ceiling is 1 modulo 4 and the
threshold of the peer is the ceiling or one less: every probe succeeds, and the
probe of the window [ceiling - 1, ceiling] is its own lower end. -/
theorem recv_search_stuck (k : x300_consts) (peer : mtu_peer) (bufsize C T : Nat)
    (hpeer : echo_threshold peer T) (hbuf : T ≤ bufsize) (hC : C % 4 = 1) (hT : C ≤ T + 1) :
    ∀ (fuel n mn : Nat), mn % 4 = 0 → mn < C → recv_search k peer bufsize fuel n mn C = none := by
  intro fuel
  induction fuel with
  | zero => intro n mn _ _; rfl
  | succ fuel ih =>
    intro n mn hmn hlt
    rw [recv_search_succ]
    have htest : test_frame_size mn C ≤ T := by unfold test_frame_size; omega
    have hprobe := (recv_probe_threshold k peer bufsize T n (test_frame_size mn C) hpeer hbuf).mpr
      htest
    simp only [hlt, if_true, hprobe]
    apply ih
    · unfold test_frame_size; omega
    · unfold test_frame_size; omega

/-- In every other case the receive loop exits with both ends of the window at
the largest multiple of 4 that is at most the threshold. -/
theorem recv_search_converges_from (k : x300_consts) (peer : mtu_peer) (bufsize T : Nat)
    (hpeer : echo_threshold peer T) (hbuf : T ≤ bufsize) :
    ∀ (fuel n mn mx : Nat), mn % 4 = 0 → mn ≤ T / 4 * 4 → T / 4 * 4 ≤ mx →
      (mx % 4 = 1 → T / 4 * 4 + 5 ≤ mx) → 8 ≤ mn → mx - mn < fuel →
      ∃ n1, recv_search k peer bufsize fuel n mn mx = some (n1, T / 4 * 4, T / 4 * 4) := by
  intro fuel
  induction fuel with
  | zero => intro n mn mx _ _ _ _ _ h; omega
  | succ fuel ih =>
    intro n mn mx hmn hlo hhi hone h8 hfuel
    rw [recv_search_succ]
    by_cases hlt : mn < mx
    · simp only [hlt, if_true]
      have hp := recv_probe_threshold k peer bufsize T n (test_frame_size mn mx) hpeer hbuf
      by_cases hs : test_frame_size mn mx ≤ T
      · simp only [hp.mpr hs, if_true]
        unfold test_frame_size at hs ⊢
        apply ih <;> omega
      · have : ¬ recv_probe k peer bufsize n (test_frame_size mn mx) ≥ test_frame_size mn mx :=
          fun h => hs (hp.mp h)
        simp only [this, if_false]
        unfold test_frame_size at hs ⊢
        apply ih <;> omega
    · simp only [hlt, if_false]
      have h1 : mn = T / 4 * 4 := by omega
      have h2 : mx = T / 4 * 4 := by omega
      exact ⟨n, by rw [h1, h2]⟩

/-- The receive search of determine_max_frame_size against a threshold peer with
`sizeof(x300_mtu_t) ≤ T ≤ C`: unless `C` is 1 modulo 4 and `T ≥ C - 1`, enough fuel
makes the loop exit with the largest multiple of 4 that is at most `T`. -/
theorem recv_search_converges (k : x300_consts) (peer : mtu_peer) (bufsize C T : Nat)
    (hpeer : echo_threshold peer T) (hbuf : T ≤ bufsize) (h8 : sizeof_x300_mtu_t ≤ T)
    (hTC : T ≤ C) (hgood : ¬ (C % 4 = 1 ∧ C ≤ T + 1)) :
    ∃ n1, recv_search k peer bufsize (C + 1) 1 sizeof_x300_mtu_t C =
      some (n1, T / 4 * 4, T / 4 * 4) := by
  unfold sizeof_x300_mtu_t at h8 ⊢
  apply recv_search_converges_from k peer bufsize T hpeer hbuf <;> omega

theorem threshold_peer_echo_threshold (k : x300_consts) (T : Nat) (h8 : sizeof_x300_mtu_t ≤ T) :
    echo_threshold (threshold_peer k T) T := by
  intro n probe hn
  unfold threshold_peer
  unfold sizeof_x300_mtu_t at h8 hn ⊢
  constructor
  · intro h
    have : probe.nbytes ≤ T ∧ probe.hdr.size ≤ T := ⟨by omega, h⟩
    simp only [this, and_self, if_true]
    omega
  · intro h
    have : ¬ (probe.nbytes ≤ T ∧ probe.hdr.size ≤ T) := by omega
    simp only [this, if_false]
    omega

theorem determine_max_frame_size_recv_none (k : x300_consts) (peer : mtu_peer) (fuel : Nat)
    (user : frame_size_t)
    (hholler : (test_holler k peer (max user.recv_frame_size user.send_frame_size)).flags &&&
      k.X300_MTU_DETECT_ECHO_REPLY ≠ 0)
    (hrecv : recv_search k peer (max user.recv_frame_size user.send_frame_size) fuel 1
      sizeof_x300_mtu_t user.recv_frame_size = none) :
    determine_max_frame_size k peer fuel user = none := by
  unfold determine_max_frame_size
  simp only [hholler, if_false, hrecv]

/-- C7: the receive search does not converge for every ceiling. With the user
receive ceiling 9 and a threshold peer with T = 8 (header size ≤ T ≤ C) the loop
probes size 8 for ever: whatever the number of passes allowed, the search has not
exited and determine_max_frame_size has neither returned nor thrown, where the
claim expects the search to converge to 8 and determine_max_frame_size to fail.
The same happens for the ceiling 1473 on a path that carries 1472 bytes. -/
theorem determine_max_frame_size_hangs (fuel : Nat) :
    recv_search sample_consts (threshold_peer sample_consts 8) 9 fuel 1 sizeof_x300_mtu_t 9 =
      none ∧
    determine_max_frame_size sample_consts (threshold_peer sample_consts 8) fuel ⟨9, 9⟩ = none ∧
    recv_search sample_consts (threshold_peer sample_consts 1472) 8000 fuel 1
      sizeof_x300_mtu_t 1473 = none ∧
    determine_max_frame_size sample_consts (threshold_peer sample_consts 1472) fuel
      ⟨1473, 8000⟩ = none := by
  have h1 := recv_search_stuck sample_consts (threshold_peer sample_consts 8) 9 9 8
    (threshold_peer_echo_threshold sample_consts 8 (by decide)) (by decide) (by decide)
    (by decide) fuel 1 sizeof_x300_mtu_t (by decide) (by decide)
  have h2 := recv_search_stuck sample_consts (threshold_peer sample_consts 1472) 8000 1473 1472
    (threshold_peer_echo_threshold sample_consts 1472 (by decide)) (by decide) (by decide)
    (by decide) fuel 1 sizeof_x300_mtu_t (by decide) (by decide)
  refine ⟨h1, ?_, h2, ?_⟩
  · exact determine_max_frame_size_recv_none _ _ _ _ (by decide) h1
  · exact determine_max_frame_size_recv_none _ _ _ _ (by decide) h2

theorem recv_search_mono (k : x300_consts) (peer : mtu_peer) (bufsize : Nat) :
    ∀ (fuel n mn mx : Nat) (r : Nat × Nat × Nat),
      recv_search k peer bufsize fuel n mn mx = some r →
      ∀ fuel1, fuel ≤ fuel1 → recv_search k peer bufsize fuel1 n mn mx = some r := by
  intro fuel
  induction fuel with
  | zero => intro n mn mx r h; simp [recv_search] at h
  | succ fuel ih =>
    intro n mn mx r h fuel1 hle
    obtain ⟨f, rfl⟩ : ∃ f, fuel1 = f + 1 := ⟨fuel1 - 1, by omega⟩
    rw [recv_search_succ] at h ⊢
    split at h
    · split at h
      · rename_i h1 h2
        simp only [h1, h2, if_true]
        exact ih _ _ _ _ h f (by omega)
      · rename_i h1 h2
        simp only [h1, h2, if_true, if_false]
        exact ih _ _ _ _ h f (by omega)
    · rename_i h1
      simp only [h1, if_false]
      exact h

theorem send_search_mono (k : x300_consts) (peer : mtu_peer) (bufsize : Nat) :
    ∀ (fuel n mn mx : Nat) (r : Nat × Nat × Nat),
      send_search k peer bufsize fuel n mn mx = some r →
      ∀ fuel1, fuel ≤ fuel1 → send_search k peer bufsize fuel1 n mn mx = some r := by
  intro fuel
  induction fuel with
  | zero => intro n mn mx r h; simp [send_search] at h
  | succ fuel ih =>
    intro n mn mx r h fuel1 hle
    obtain ⟨f, rfl⟩ : ∃ f, fuel1 = f + 1 := ⟨fuel1 - 1, by omega⟩
    rw [send_search_succ] at h ⊢
    split at h
    · split at h
      · rename_i h1 h2
        simp only [h1, h2, if_true]
        exact ih _ _ _ _ h f (by omega)
      · rename_i h1 h2
        simp only [h1, h2, if_true, if_false]
        exact ih _ _ _ _ h f (by omega)
    · rename_i h1
      simp only [h1, if_false]
      exact h

/-- C8: whenever determine_max_frame_size returns frame sizes, the receive search
on the window [sizeof(x300_mtu_t), user receive ceiling] and the send search on the
window [sizeof(x300_mtu_t), user send ceiling], which starts afresh and takes
nothing from the receive search but the count of datagrams already sent, have both
exited, and recv_frame_size and send_frame_size are equal, both the minimum of
the two sizes found. -/
theorem determine_max_frame_size_min_of_both (k : x300_consts) (peer : mtu_peer) (fuel : Nat)
    (user fs : frame_size_t)
    (h : determine_max_frame_size k peer fuel user = some (Except.ok fs)) :
    ∃ n r rmax n1 s smax,
      recv_search k peer (max user.recv_frame_size user.send_frame_size) fuel 1
        sizeof_x300_mtu_t user.recv_frame_size = some (n, r, rmax) ∧
      send_search k peer (max user.recv_frame_size user.send_frame_size) fuel n
        sizeof_x300_mtu_t user.send_frame_size = some (n1, s, smax) ∧
      fs.recv_frame_size = min r s ∧ fs.send_frame_size = min r s ∧
      fs.recv_frame_size = fs.send_frame_size := by
  unfold determine_max_frame_size at h
  simp only at h
  split at h
  · simp at h
  · split at h
    · simp at h
    · rename_i n r rmax hr
      split at h
      · simp at h
      · split at h
        · simp at h
        · rename_i n1 s smax hs
          split at h
          · simp at h
          · simp only [Option.some.injEq, Except.ok.injEq] at h
            subst h
            exact ⟨n, r, rmax, n1, s, smax, hr, hs, rfl, rfl, rfl⟩

/-- Witness for C8: ceilings of 8000 bytes and a path that carries 1472 bytes. -/
theorem determine_max_frame_size_min_of_both_witness :
    determine_max_frame_size sample_consts (threshold_peer sample_consts 1472) 16 ⟨8000, 8000⟩ =
      some (Except.ok ⟨1472, 1472⟩) ∧
    ∃ n r rmax n1 s smax,
      recv_search sample_consts (threshold_peer sample_consts 1472) (max 8000 8000) 16 1
        sizeof_x300_mtu_t 8000 = some (n, r, rmax) ∧
      send_search sample_consts (threshold_peer sample_consts 1472) (max 8000 8000) 16 n
        sizeof_x300_mtu_t 8000 = some (n1, s, smax) ∧
      1472 = min r s ∧ 1472 = min r s ∧ 1472 = 1472 :=
  ⟨rfl, determine_max_frame_size_min_of_both sample_consts
    (threshold_peer sample_consts 1472) 16 ⟨8000, 8000⟩ ⟨1472, 1472⟩ rfl⟩

theorem determine_throws_of_recv_below (k : x300_consts) (peer : mtu_peer) (fuel : Nat)
    (user : frame_size_t) (n r rmax : Nat)
    (hh : (test_holler k peer (max user.recv_frame_size user.send_frame_size)).flags &&&
      k.X300_MTU_DETECT_ECHO_REPLY ≠ 0)
    (hr : recv_search k peer (max user.recv_frame_size user.send_frame_size) fuel 1
      sizeof_x300_mtu_t user.recv_frame_size = some (n, r, rmax))
    (hlt : r < k.IP_PROTOCOL_MIN_MTU_SIZE - k.IP_PROTOCOL_UDP_PLUS_IP_HEADER)
    (fuel1 : Nat) (hle : fuel ≤ fuel1) :
    determine_max_frame_size k peer fuel1 user = some (Except.error uhd_error.runtime_error) := by
  have hr1 := recv_search_mono k peer _ fuel 1 _ _ _ hr fuel1 hle
  unfold determine_max_frame_size
  simp only [hh, if_false, hr1, min_frame_size, hlt, if_true]

theorem determine_throws_of_send_below (k : x300_consts) (peer : mtu_peer) (fuel : Nat)
    (user : frame_size_t) (n r rmax n1 s smax : Nat)
    (hh : (test_holler k peer (max user.recv_frame_size user.send_frame_size)).flags &&&
      k.X300_MTU_DETECT_ECHO_REPLY ≠ 0)
    (hr : recv_search k peer (max user.recv_frame_size user.send_frame_size) fuel 1
      sizeof_x300_mtu_t user.recv_frame_size = some (n, r, rmax))
    (hs : send_search k peer (max user.recv_frame_size user.send_frame_size) fuel n
      sizeof_x300_mtu_t user.send_frame_size = some (n1, s, smax))
    (hlt : s < k.IP_PROTOCOL_MIN_MTU_SIZE - k.IP_PROTOCOL_UDP_PLUS_IP_HEADER)
    (fuel1 : Nat) (hle : fuel ≤ fuel1) :
    determine_max_frame_size k peer fuel1 user = some (Except.error uhd_error.runtime_error) := by
  have hr1 := recv_search_mono k peer _ fuel 1 _ _ _ hr fuel1 hle
  have hs1 := send_search_mono k peer _ fuel n _ _ _ hs fuel1 hle
  unfold determine_max_frame_size
  simp only [hh, if_false, hr1, min_frame_size]
  split
  · rfl
  · simp only [hs1, hlt, if_true]

theorem determine_ok_ge_min (k : x300_consts) (peer : mtu_peer) (fuel : Nat)
    (user fs : frame_size_t)
    (h : determine_max_frame_size k peer fuel user = some (Except.ok fs)) :
    k.IP_PROTOCOL_MIN_MTU_SIZE - k.IP_PROTOCOL_UDP_PLUS_IP_HEADER ≤ fs.recv_frame_size ∧
    k.IP_PROTOCOL_MIN_MTU_SIZE - k.IP_PROTOCOL_UDP_PLUS_IP_HEADER ≤ fs.send_frame_size := by
  unfold determine_max_frame_size at h
  simp only [min_frame_size] at h
  split at h
  · simp at h
  · split at h
    · simp at h
    · split at h
      · simp at h
      · split at h
        · simp at h
        · split at h
          · simp at h
          · simp only [Option.some.injEq, Except.ok.injEq] at h
            subst h
            simp only
            omega

/-- Against a threshold peer that answers the test holler, with
`sizeof(x300_mtu_t) ≤ T ≤ C` and outside the case in which the receive loop does
not exit, determine_max_frame_size throws a runtime error when the largest
multiple of 4 that is at most `T` is below the protocol minimum. -/
theorem determine_throws_of_threshold_below (k : x300_consts) (peer : mtu_peer)
    (user : frame_size_t) (T : Nat) (hpeer : echo_threshold peer T)
    (hh : (test_holler k peer (max user.recv_frame_size user.send_frame_size)).flags &&&
      k.X300_MTU_DETECT_ECHO_REPLY ≠ 0)
    (h8 : sizeof_x300_mtu_t ≤ T) (hTC : T ≤ user.recv_frame_size)
    (hgood : ¬ (user.recv_frame_size % 4 = 1 ∧ user.recv_frame_size ≤ T + 1))
    (hlt : T / 4 * 4 < k.IP_PROTOCOL_MIN_MTU_SIZE - k.IP_PROTOCOL_UDP_PLUS_IP_HEADER) :
    determine_max_frame_size k peer (user.recv_frame_size + 1) user =
      some (Except.error uhd_error.runtime_error) := by
  obtain ⟨n1, hr⟩ := recv_search_converges k peer
    (max user.recv_frame_size user.send_frame_size) user.recv_frame_size T hpeer
    (le_trans hTC (le_max_left _ _)) h8 hTC hgood
  exact determine_throws_of_recv_below k peer _ user n1 _ _ hh hr hlt _ (Nat.le_refl _)

/-- C9: once the test holler has been answered with the echo-reply bit, if the
receive search exits with a size below IP_PROTOCOL_MIN_MTU_SIZE -
IP_PROTOCOL_UDP_PLUS_IP_HEADER, or the receive search and then the send search
exit and the send size is below it, determine_max_frame_size throws a runtime
error (for the fuel that sufficed and for every larger fuel); and every frame size
it returns is at least that minimum. -/
theorem determine_max_frame_size_below_min (k : x300_consts) (peer : mtu_peer) (fuel : Nat)
    (user : frame_size_t) :
    (∀ (n r rmax : Nat),
      (test_holler k peer (max user.recv_frame_size user.send_frame_size)).flags &&&
        k.X300_MTU_DETECT_ECHO_REPLY ≠ 0 →
      recv_search k peer (max user.recv_frame_size user.send_frame_size) fuel 1
        sizeof_x300_mtu_t user.recv_frame_size = some (n, r, rmax) →
      r < k.IP_PROTOCOL_MIN_MTU_SIZE - k.IP_PROTOCOL_UDP_PLUS_IP_HEADER →
      ∀ fuel1, fuel ≤ fuel1 →
        determine_max_frame_size k peer fuel1 user =
          some (Except.error uhd_error.runtime_error)) ∧
    (∀ (n r rmax n1 s smax : Nat),
      (test_holler k peer (max user.recv_frame_size user.send_frame_size)).flags &&&
        k.X300_MTU_DETECT_ECHO_REPLY ≠ 0 →
      recv_search k peer (max user.recv_frame_size user.send_frame_size) fuel 1
        sizeof_x300_mtu_t user.recv_frame_size = some (n, r, rmax) →
      send_search k peer (max user.recv_frame_size user.send_frame_size) fuel n
        sizeof_x300_mtu_t user.send_frame_size = some (n1, s, smax) →
      s < k.IP_PROTOCOL_MIN_MTU_SIZE - k.IP_PROTOCOL_UDP_PLUS_IP_HEADER →
      ∀ fuel1, fuel ≤ fuel1 →
        determine_max_frame_size k peer fuel1 user =
          some (Except.error uhd_error.runtime_error)) ∧
    (∀ fs : frame_size_t, determine_max_frame_size k peer fuel user = some (Except.ok fs) →
      k.IP_PROTOCOL_MIN_MTU_SIZE - k.IP_PROTOCOL_UDP_PLUS_IP_HEADER ≤ fs.recv_frame_size ∧
      k.IP_PROTOCOL_MIN_MTU_SIZE - k.IP_PROTOCOL_UDP_PLUS_IP_HEADER ≤ fs.send_frame_size) :=
  ⟨fun n r rmax hh hr hlt fuel1 hle =>
      determine_throws_of_recv_below k peer fuel user n r rmax hh hr hlt fuel1 hle,
    fun n r rmax n1 s smax hh hr hs hlt fuel1 hle =>
      determine_throws_of_send_below k peer fuel user n r rmax n1 s smax hh hr hs hlt fuel1 hle,
    fun fs h => determine_ok_ge_min k peer fuel user fs h⟩

/-- Witness for C9: on a path that carries 500 bytes the receive search exits
with 500, below the minimum 576 - 28, and the call throws a runtime error. -/
theorem determine_max_frame_size_below_min_witness :
    recv_search sample_consts (threshold_peer sample_consts 500) (max 8000 8000) 16 1
      sizeof_x300_mtu_t 8000 = some (12, 500, 500) ∧
    determine_max_frame_size sample_consts (threshold_peer sample_consts 500) 40 ⟨8000, 8000⟩ =
      some (Except.error uhd_error.runtime_error) :=
  ⟨rfl, (determine_max_frame_size_below_min sample_consts (threshold_peer sample_consts 500) 16
    ⟨8000, 8000⟩).1 12 500 500 (by decide) rfl (by decide) 40 (by decide)⟩

/-! ## Clock-source controller -/

theorem poke32_trace (mb : mboard_members_t) (addr data : Nat) :
    mb.trace <+: (poke32 mb addr data).trace :=
  ⟨[hw_event.poke32 addr data], rfl⟩

theorem wait_for_clk_locked_loop_trace (hw : hw_oracle) (which : clk_status_field)
    (timeout_time : Nat) :
    ∀ (passes : Nat) (mb : mboard_members_t),
      ∃ evs, (wait_for_clk_locked_loop hw which timeout_time passes mb).2.trace = mb.trace ++ evs ∧
        ∀ e ∈ evs, ∃ v, e = hw_event.clock_status_reg_read which v := by
  intro passes
  induction passes with
  | zero =>
    intro mb
    exact ⟨[hw_event.clock_status_reg_read which (hw.clock_status which mb.now)], rfl,
      by intro e he; exact ⟨_, List.mem_singleton.mp he⟩⟩
  | succ n ih =>
    intro mb
    unfold wait_for_clk_locked_loop
    simp only
    split
    · exact ⟨[hw_event.clock_status_reg_read which (hw.clock_status which mb.now)], rfl,
        by intro e he; exact ⟨_, List.mem_singleton.mp he⟩⟩
    · split
      · obtain ⟨evs, h1, h2⟩ := ih (sleep_1ms hw (clock_status_reg_read hw mb which).2)
        refine ⟨hw_event.clock_status_reg_read which (hw.clock_status which mb.now) :: evs, ?_, ?_⟩
        · rw [h1]; simp [sleep_1ms, clock_status_reg_read]
        · intro e he
          rcases List.mem_cons.mp he with rfl | he
          · exact ⟨_, rfl⟩
          · exact h2 e he
      · refine ⟨[hw_event.clock_status_reg_read which (hw.clock_status which mb.now),
          hw_event.clock_status_reg_read which (hw.clock_status which
            (sleep_1ms hw (clock_status_reg_read hw mb which).2).now)], ?_, ?_⟩
        · simp [sleep_1ms, clock_status_reg_read]
        · intro e he
          simp only [List.mem_cons, List.mem_singleton, List.not_mem_nil, or_false] at he
          rcases he with rfl | rfl <;> exact ⟨_, rfl⟩

theorem wait_for_clk_locked_reads (hw : hw_oracle) (mb : mboard_members_t)
    (which : clk_status_field) (timeout_ms : Nat) :
    ∃ evs, (wait_for_clk_locked hw mb which timeout_ms).2.trace = mb.trace ++ evs ∧
      ∀ e ∈ evs, ∃ v, e = hw_event.clock_status_reg_read which v :=
  wait_for_clk_locked_loop_trace hw which _ _ mb

theorem wait_for_clk_locked_trace (hw : hw_oracle) (mb : mboard_members_t)
    (which : clk_status_field) (timeout_ms : Nat) :
    mb.trace <+: (wait_for_clk_locked hw mb which timeout_ms).2.trace := by
  obtain ⟨evs, h, -⟩ := wait_for_clk_locked_reads hw mb which timeout_ms
  exact ⟨evs, h.symm⟩

theorem wait_for_clk_locked_loop_frame (hw : hw_oracle) (which : clk_status_field)
    (timeout_time : Nat) :
    ∀ (passes : Nat) (mb : mboard_members_t),
      (wait_for_clk_locked_loop hw which timeout_time passes mb).2.clock_ctrl_reg =
        mb.clock_ctrl_reg := by
  intro passes
  induction passes with
  | zero => intro mb; rfl
  | succ n ih =>
    intro mb
    unfold wait_for_clk_locked_loop
    simp only
    split
    · rfl
    · split
      · rw [ih]; rfl
      · rfl

theorem update_clock_source_ref_lock_reads (hw : hw_oracle) (mb : mboard_members_t) :
    ∃ evs, (update_clock_source_ref_lock hw mb).2.trace = mb.trace ++ evs ∧
      ∀ e ∈ evs, ∃ v, e = hw_event.clock_status_reg_read clk_status_field.LMK_LOCK v := by
  unfold update_clock_source_ref_lock
  simp only
  generalize (if mb.initialization_done = true then 30000 else 1000) = t
  by_cases hrev : mb.hw_rev > 4
  · simp only [hrev, if_true]
    obtain ⟨evs, h1, h2⟩ := wait_for_clk_locked_reads hw mb clk_status_field.LMK_LOCK t
    refine ⟨evs, ?_, h2⟩
    split
    · split <;> exact h1
    · exact h1
  · simp only [hrev, if_false]
    exact ⟨[], by simp, by simp⟩

theorem update_clock_source_ref_lock_trace (hw : hw_oracle) (mb : mboard_members_t) :
    mb.trace <+: (update_clock_source_ref_lock hw mb).2.trace := by
  obtain ⟨evs, h, -⟩ := update_clock_source_ref_lock_reads hw mb
  exact ⟨evs, h.symm⟩

theorem update_clock_source_ref_lock_frame (hw : hw_oracle) (mb : mboard_members_t) :
    (update_clock_source_ref_lock hw mb).2.clock_ctrl_reg = mb.clock_ctrl_reg := by
  unfold update_clock_source_ref_lock
  simp only
  generalize (if mb.initialization_done = true then 30000 else 1000) = t
  have h := wait_for_clk_locked_loop_frame hw clk_status_field.LMK_LOCK (mb.now + t) (t + 1) mb
  by_cases hrev : mb.hw_rev > 4
  · simp only [hrev, if_true]
    split
    · split <;> exact h
    · exact h
  · simp only [hrev, if_false]

theorem reset_codecs_trace (mb : mboard_members_t) :
    ∀ n, mb.trace <+: (reset_codecs mb n).trace := by
  intro n
  induction n with
  | zero => exact List.prefix_refl _
  | succ n ih => exact ih.trans ⟨[hw_event.reset_codec n], rfl⟩

theorem update_clock_source_relock_trace (k : x300_consts) (hw : hw_oracle)
    (mb : mboard_members_t) :
    mb.trace <+: (update_clock_source_relock k hw mb).2.trace := by
  unfold update_clock_source_relock
  simp only
  have h1 := ((poke32_trace mb (k.SR_ADDR k.SET0_BASE k.ZPU_SR_SW_RST)
    k.ZPU_SR_SW_RST_RADIO_CLK_PLL).trans (poke32_trace _ (k.SR_ADDR k.SET0_BASE k.ZPU_SR_SW_RST)
    0)).trans (wait_for_clk_locked_trace hw _ clk_status_field.RADIO_CLK_LOCK 10)
  split
  · exact h1
  · have h2 := ((h1.trans (poke32_trace _ (k.SR_ADDR k.SET0_BASE k.ZPU_SR_SW_RST)
      k.ZPU_SR_SW_RST_ADC_IDELAYCTRL)).trans (poke32_trace _
      (k.SR_ADDR k.SET0_BASE k.ZPU_SR_SW_RST) 0)).trans
      (wait_for_clk_locked_trace hw _ clk_status_field.IDELAYCTRL_LOCK 10)
    split
    · exact h2
    · exact h2.trans (reset_codecs_trace _ _)

theorem update_clock_source_mux_valid (mb : mboard_members_t) (source : String)
    (hsrc : source = "internal" ∨ source = "external" ∨ source = "gpsdo") :
    update_clock_source_mux mb source =
      (Except.ok (), { mb with
        clock_ctrl_reg := clock_mux_setting mb.clock_ctrl_reg source,
        trace := mb.trace ++
          [hw_event.clock_ctrl_reg_flush (clock_mux_setting mb.clock_ctrl_reg source),
           hw_event.reset_clocks] }) := by
  rcases hsrc with rfl | rfl | rfl <;>
    simp [update_clock_source_mux, clock_mux_setting, clock_ctrl_reg_flush, reset_clocks]

/-- C10: update_clock_source skips the reconfiguration exactly when the cached
source and the requested source are both "internal". In that case the call makes
no register write, no synthesizer reset and no codec reset: all it appends to the
hardware trace are reads of the LMK lock status, and the soft copy of the clock
control register is unchanged. For every other cached source and every valid
requested source (external to external and gpsdo to gpsdo included) the call
first writes the clock control register with the requested source selected, the
on-board oscillator enabled only for internal, and then resets the synthesizer,
whatever happens afterwards. -/
theorem update_clock_source_skip_rule (k : x300_consts) (hw : hw_oracle)
    (mb : mboard_members_t) (source : String) :
    (mb.current_refclk_src = "internal" → source = "internal" →
      (∃ evs, (update_clock_source k hw mb source).2.trace = mb.trace ++ evs ∧
        ∀ e ∈ evs, e.is_register_write = false ∧ e.is_reset = false ∧
          ∃ v, e = hw_event.clock_status_reg_read clk_status_field.LMK_LOCK v) ∧
      (update_clock_source k hw mb source).2.clock_ctrl_reg = mb.clock_ctrl_reg) ∧
    (¬ (mb.current_refclk_src = "internal" ∧ source = "internal") →
      source = "internal" ∨ source = "external" ∨ source = "gpsdo" →
      (mb.trace ++ [hw_event.clock_ctrl_reg_flush (clock_mux_setting mb.clock_ctrl_reg source),
          hw_event.reset_clocks]) <+: (update_clock_source k hw mb source).2.trace ∧
      (clock_mux_setting mb.clock_ctrl_reg source).CLK_SOURCE =
        (if source = "internal" then clk_src_t.SRC_INTERNAL
         else if source = "external" then clk_src_t.SRC_EXTERNAL else clk_src_t.SRC_GPSDO) ∧
      (clock_mux_setting mb.clock_ctrl_reg source).TCXO_EN =
        (if source = "internal" then 1 else 0)) := by
  constructor
  · intro hcur hsrc
    have hrc : ((mb.current_refclk_src != "internal") || (source != "internal")) = false := by
      simp [hcur, hsrc]
    unfold update_clock_source
    simp only [hrc, Bool.false_eq_true, if_false]
    obtain ⟨evs, h1, h2⟩ := update_clock_source_ref_lock_reads hw mb
    have h3 := update_clock_source_ref_lock_frame hw mb
    rcases hres : update_clock_source_ref_lock hw mb with ⟨r, mb1⟩
    rw [hres] at h1 h3
    simp only at h1 h3
    have hev : ∀ e ∈ evs, e.is_register_write = false ∧ e.is_reset = false ∧
        ∃ v, e = hw_event.clock_status_reg_read clk_status_field.LMK_LOCK v := by
      intro e he
      obtain ⟨v, rfl⟩ := h2 e he
      exact ⟨rfl, rfl, v, rfl⟩
    cases r with
    | error e => exact ⟨⟨evs, h1, hev⟩, h3⟩
    | ok u => exact ⟨⟨evs, h1, hev⟩, h3⟩
  · intro hnot hvalid
    have hrc : ((mb.current_refclk_src != "internal") || (source != "internal")) = true := by
      by_cases h1 : mb.current_refclk_src = "internal"
      · have h2 : source ≠ "internal" := fun h => hnot ⟨h1, h⟩
        simp [h2]
      · simp [h1]
    refine ⟨?_, ?_, ?_⟩
    · unfold update_clock_source
      simp only [hrc, if_true, update_clock_source_mux_valid mb source hvalid]
      generalize hmb1 : ({ mb with
        clock_ctrl_reg := clock_mux_setting mb.clock_ctrl_reg source,
        trace := mb.trace ++
          [hw_event.clock_ctrl_reg_flush (clock_mux_setting mb.clock_ctrl_reg source),
           hw_event.reset_clocks] } : mboard_members_t) = mb1
      have ht : mb.trace ++
          [hw_event.clock_ctrl_reg_flush (clock_mux_setting mb.clock_ctrl_reg source),
           hw_event.reset_clocks] = mb1.trace := by rw [← hmb1]
      rw [ht]
      have h1 := update_clock_source_ref_lock_trace hw mb1
      rcases hres : update_clock_source_ref_lock hw mb1 with ⟨r, mb2⟩
      rw [hres] at h1
      simp only at h1
      cases r with
      | error e => exact h1
      | ok u =>
        simp only
        have h2 := update_clock_source_relock_trace k hw mb2
        rcases hres2 : update_clock_source_relock k hw mb2 with ⟨r2, mb3⟩
        rw [hres2] at h2
        simp only at h2
        cases r2 with
        | error e => exact h1.trans h2
        | ok u => exact h1.trans h2
    · rcases hvalid with rfl | rfl | rfl <;> simp [clock_mux_setting]
    · rcases hvalid with rfl | rfl | rfl <;> simp [clock_mux_setting]

/-- Witness for C10 on a motherboard whose cached source is "internal", with
hardware that reads locked: a request for "internal" only polls the LMK lock; a
request for "external" begins with the clock control write and the synthesizer
reset and runs the whole sequence. -/
theorem update_clock_source_skip_rule_witness :
    (update_clock_source sample_consts hw_locked sample_mb "internal").2.trace =
      [hw_event.clock_status_reg_read clk_status_field.LMK_LOCK 1] ∧
    (update_clock_source sample_consts hw_locked sample_mb "external").2.trace =
      [hw_event.clock_ctrl_reg_flush
          { CLK_SOURCE := clk_src_t.SRC_EXTERNAL, TCXO_EN := 0,
            PPS_SELECT := clk_src_t.SRC_INTERNAL, PPS_OUT_EN := 0, TIME_SYNC := 0 },
        hw_event.reset_clocks,
        hw_event.clock_status_reg_read clk_status_field.LMK_LOCK 1,
        hw_event.poke32 0xa190 4, hw_event.poke32 0xa190 0,
        hw_event.clock_status_reg_read clk_status_field.RADIO_CLK_LOCK 1,
        hw_event.poke32 0xa190 8, hw_event.poke32 0xa190 0,
        hw_event.clock_status_reg_read clk_status_field.IDELAYCTRL_LOCK 1,
        hw_event.reset_codec 0, hw_event.reset_codec 1] ∧
    (sample_mb.trace ++
        [hw_event.clock_ctrl_reg_flush (clock_mux_setting sample_mb.clock_ctrl_reg "external"),
          hw_event.reset_clocks]) <+:
      (update_clock_source sample_consts hw_locked sample_mb "external").2.trace :=
  ⟨by decide, by decide,
    ((update_clock_source_skip_rule sample_consts hw_locked sample_mb "external").2
      (by decide) (by decide)).1⟩

/-! ## Clock-source controller: the full sequence -/

theorem status_reads_append (which : clk_status_field) (xs ys : List Nat) :
    status_reads which (xs ++ ys) = status_reads which xs ++ status_reads which ys := by
  simp [status_reads]

theorem beq_one_eq_decide (a : Nat) : (a == 1) = decide (a = 1) := by
  by_cases h : a = 1 <;> simp [h]

theorem wait_for_clk_locked_loop_spec (hw : hw_oracle) (which : clk_status_field)
    (timeout_time : Nat) :
    ∀ (passes : Nat) (mb : mboard_members_t),
      ∃ vs now1, poll_values hw which vs ∧
        wait_for_clk_locked_loop hw which timeout_time passes mb =
          (decide (vs.getLast? = some 1),
            { mb with now := now1, trace := mb.trace ++ status_reads which vs }) := by
  intro passes
  induction passes with
  | zero =>
    intro mb
    refine ⟨[hw.clock_status which mb.now], mb.now, ⟨by simp, by simp, ?_⟩, ?_⟩
    · intro v hv
      exact ⟨mb.now, List.mem_singleton.mp hv⟩
    · simp [wait_for_clk_locked_loop, clock_status_reg_read, status_reads, beq_one_eq_decide]
  | succ n ih =>
    intro mb
    unfold wait_for_clk_locked_loop
    simp only
    by_cases h1 : (clock_status_reg_read hw mb which).1 = 1
    · simp only [h1, if_true]
      refine ⟨[hw.clock_status which mb.now], mb.now, ⟨by simp, by simp, ?_⟩, ?_⟩
      · intro v hv
        exact ⟨mb.now, List.mem_singleton.mp hv⟩
      · have h2 : hw.clock_status which mb.now = 1 := h1
        simp [clock_status_reg_read, status_reads, h2]
    · simp only [h1, if_false]
      have h2 : hw.clock_status which mb.now ≠ 1 := h1
      by_cases h3 : (sleep_1ms hw (clock_status_reg_read hw mb which).2).now < timeout_time
      · simp only [h3, if_true]
        obtain ⟨vs, now1, ⟨hne, hdrop, horacle⟩, heq⟩ :=
          ih (sleep_1ms hw (clock_status_reg_read hw mb which).2)
        refine ⟨hw.clock_status which mb.now :: vs, now1, ⟨by simp, ?_, ?_⟩, ?_⟩
        · intro v hv
          rw [List.dropLast_cons_of_ne_nil hne] at hv
          rcases List.mem_cons.mp hv with rfl | hv
          · exact h2
          · exact hdrop v hv
        · intro v hv
          rcases List.mem_cons.mp hv with rfl | hv
          · exact ⟨mb.now, rfl⟩
          · exact horacle v hv
        · rw [heq]
          have hl : (hw.clock_status which mb.now :: vs).getLast? = vs.getLast? := by
            cases vs with
            | nil => exact absurd rfl hne
            | cons a as => simp [List.getLast?_cons_cons]
          rw [hl]
          simp [sleep_1ms, clock_status_reg_read, status_reads]
      · simp only [h3, if_false]
        refine ⟨[hw.clock_status which mb.now, hw.clock_status which
          (sleep_1ms hw (clock_status_reg_read hw mb which).2).now],
          (sleep_1ms hw (clock_status_reg_read hw mb which).2).now, ⟨by simp, ?_, ?_⟩, ?_⟩
        · intro v hv
          simp only [List.dropLast_cons₂, List.dropLast_single, List.mem_singleton] at hv
          rw [hv]; exact h2
        · intro v hv
          simp only [List.mem_cons, List.mem_singleton, List.not_mem_nil, or_false] at hv
          rcases hv with rfl | rfl
          · exact ⟨_, rfl⟩
          · exact ⟨_, rfl⟩
        · simp [sleep_1ms, clock_status_reg_read, status_reads, beq_one_eq_decide]

/-- One lock poll: the values read, the result (the last value read is 1) and the
state after it, which differs from the state before in the time and the trace. -/
theorem wait_for_clk_locked_spec (hw : hw_oracle) (mb : mboard_members_t)
    (which : clk_status_field) (timeout_ms : Nat) :
    ∃ vs now1, poll_values hw which vs ∧
      wait_for_clk_locked hw mb which timeout_ms =
        (decide (vs.getLast? = some 1),
          { mb with now := now1, trace := mb.trace ++ status_reads which vs }) :=
  wait_for_clk_locked_loop_spec hw which _ _ mb

theorem poll_values_last_of_always (hw : hw_oracle) (which : clk_status_field) (vs : List Nat)
    (h : poll_values hw which vs) (hlock : ∀ t, hw.clock_status which t = 1) :
    vs.getLast? = some 1 := by
  obtain ⟨hne, -, horacle⟩ := h
  rw [List.getLast?_eq_getLast _ hne]
  obtain ⟨t, ht⟩ := horacle _ (List.getLast_mem hne)
  rw [ht, hlock]

theorem poll_values_last_of_never (hw : hw_oracle) (which : clk_status_field) (vs : List Nat)
    (h : poll_values hw which vs) (hlock : ∀ t, hw.clock_status which t ≠ 1) :
    vs.getLast? ≠ some 1 := by
  obtain ⟨hne, -, horacle⟩ := h
  rw [List.getLast?_eq_getLast _ hne]
  obtain ⟨t, ht⟩ := horacle _ (List.getLast_mem hne)
  intro heq
  simp only [Option.some.injEq] at heq
  exact hlock t (ht ▸ heq)

theorem reset_codecs_eq (mb : mboard_members_t) :
    ∀ n, reset_codecs mb n = { mb with trace := mb.trace ++ codec_resets n } := by
  intro n
  induction n with
  | zero => simp [reset_codecs, codec_resets]
  | succ n ih =>
    simp only [reset_codecs, ih, codec_resets, List.range_succ, List.map_append, List.map_cons,
      List.map_nil, List.append_assoc]

/-- The wait for the reference PLL: nothing on revisions up to 4; otherwise one
poll of LMK_LOCK, whose failure is an error only when initialization is done. -/
theorem update_clock_source_ref_lock_spec (hw : hw_oracle) (mb : mboard_members_t) :
    ∃ lmk now1,
      ((mb.hw_rev ≤ 4 ∧ lmk = []) ∨
        (4 < mb.hw_rev ∧ poll_values hw clk_status_field.LMK_LOCK lmk)) ∧
      update_clock_source_ref_lock hw mb =
        (if 4 < mb.hw_rev ∧ lmk.getLast? ≠ some 1 ∧ mb.initialization_done = true then
            Except.error uhd_error.runtime_error
          else Except.ok (),
         { mb with now := now1,
                   trace := mb.trace ++ status_reads clk_status_field.LMK_LOCK lmk }) := by
  unfold update_clock_source_ref_lock
  simp only
  by_cases hrev : mb.hw_rev > 4
  · obtain ⟨vs, now1, hp, heq⟩ := wait_for_clk_locked_spec hw mb clk_status_field.LMK_LOCK
      (if mb.initialization_done = true then 30000 else 1000)
    refine ⟨vs, now1, Or.inr ⟨hrev, hp⟩, ?_⟩
    simp only [hrev, if_true, heq]
    by_cases hl : vs.getLast? = some 1
    · simp [hl]
    · by_cases hi : mb.initialization_done = true
      · simp [hl, hi, hrev]
      · simp [hl, hi]
  · refine ⟨[], mb.now, Or.inl ⟨by omega, rfl⟩, ?_⟩
    simp [hrev, status_reads]

/-- The last block of a reconfiguration: pulse and poll the radio clock PLL, pulse
and poll the IDELAYCTRL, reset the codecs; the first poll that does not end on a
read of 1 ends the block with a runtime error. -/
theorem update_clock_source_relock_spec (k : x300_consts) (hw : hw_oracle)
    (mb : mboard_members_t) :
    ∃ radio idelay now1,
      poll_values hw clk_status_field.RADIO_CLK_LOCK radio ∧
      ((radio.getLast? ≠ some 1 ∧
          update_clock_source_relock k hw mb =
            (Except.error uhd_error.runtime_error,
              { mb with now := now1,
                        trace := mb.trace ++ sw_rst_pulse k k.ZPU_SR_SW_RST_RADIO_CLK_PLL ++
                          status_reads clk_status_field.RADIO_CLK_LOCK radio })) ∨
        (radio.getLast? = some 1 ∧ poll_values hw clk_status_field.IDELAYCTRL_LOCK idelay ∧
          ((idelay.getLast? ≠ some 1 ∧
              update_clock_source_relock k hw mb =
                (Except.error uhd_error.runtime_error,
                  { mb with now := now1,
                            trace := mb.trace ++ sw_rst_pulse k k.ZPU_SR_SW_RST_RADIO_CLK_PLL ++
                              status_reads clk_status_field.RADIO_CLK_LOCK radio ++
                              sw_rst_pulse k k.ZPU_SR_SW_RST_ADC_IDELAYCTRL ++
                              status_reads clk_status_field.IDELAYCTRL_LOCK idelay })) ∨
            (idelay.getLast? = some 1 ∧
              update_clock_source_relock k hw mb =
                (Except.ok (),
                  { mb with now := now1,
                            trace := mb.trace ++ sw_rst_pulse k k.ZPU_SR_SW_RST_RADIO_CLK_PLL ++
                              status_reads clk_status_field.RADIO_CLK_LOCK radio ++
                              sw_rst_pulse k k.ZPU_SR_SW_RST_ADC_IDELAYCTRL ++
                              status_reads clk_status_field.IDELAYCTRL_LOCK idelay ++
                              codec_resets mb.radios }))))) := by
  unfold update_clock_source_relock
  simp only
  obtain ⟨radio, now1, hp1, heq1⟩ := wait_for_clk_locked_spec hw
    (poke32 (poke32 mb (k.SR_ADDR k.SET0_BASE k.ZPU_SR_SW_RST) k.ZPU_SR_SW_RST_RADIO_CLK_PLL)
      (k.SR_ADDR k.SET0_BASE k.ZPU_SR_SW_RST) 0) clk_status_field.RADIO_CLK_LOCK 10
  rw [heq1]
  by_cases h1 : radio.getLast? = some 1
  · obtain ⟨idelay, now2, hp2, heq2⟩ := wait_for_clk_locked_spec hw
      (poke32 (poke32
        { poke32 (poke32 mb (k.SR_ADDR k.SET0_BASE k.ZPU_SR_SW_RST)
            k.ZPU_SR_SW_RST_RADIO_CLK_PLL) (k.SR_ADDR k.SET0_BASE k.ZPU_SR_SW_RST) 0 with
          now := now1,
          trace := (poke32 (poke32 mb (k.SR_ADDR k.SET0_BASE k.ZPU_SR_SW_RST)
            k.ZPU_SR_SW_RST_RADIO_CLK_PLL) (k.SR_ADDR k.SET0_BASE k.ZPU_SR_SW_RST) 0).trace ++
            status_reads clk_status_field.RADIO_CLK_LOCK radio }
        (k.SR_ADDR k.SET0_BASE k.ZPU_SR_SW_RST) k.ZPU_SR_SW_RST_ADC_IDELAYCTRL)
        (k.SR_ADDR k.SET0_BASE k.ZPU_SR_SW_RST) 0) clk_status_field.IDELAYCTRL_LOCK 10
    refine ⟨radio, idelay, now2, hp1, Or.inr ⟨h1, hp2, ?_⟩⟩
    simp only [h1, decide_True, Bool.not_true, Bool.false_eq_true, if_false, heq2]
    by_cases h2 : idelay.getLast? = some 1
    · right
      refine ⟨h2, ?_⟩
      simp [h2, reset_codecs_eq, poke32, sw_rst_pulse, List.append_assoc]
    · left
      refine ⟨h2, ?_⟩
      simp [h2, poke32, sw_rst_pulse, List.append_assoc]
  · refine ⟨radio, [], now1, hp1, Or.inl ⟨h1, ?_⟩⟩
    simp [h1, poke32, sw_rst_pulse, List.append_assoc]

/-- Every reconfiguring call (valid source, not internal to internal), case by
case: the values `lmk`, `radio`, `idelay` that the three polls read, the outcome
and the state after the call. The clock control register is written and the
synthesizer reset first; the reference PLL is polled on revisions above 4 only and
its failure ends the call only when initialization is done; a failed radio clock
or IDELAYCTRL poll ends the call; the requested source is cached in the last case
only. -/
theorem update_clock_source_reconfigure_spec (k : x300_consts) (hw : hw_oracle)
    (mb : mboard_members_t) (source : String)
    (hvalid : source = "internal" ∨ source = "external" ∨ source = "gpsdo")
    (hrc : ¬ (mb.current_refclk_src = "internal" ∧ source = "internal")) :
    ∃ lmk radio idelay now1,
      ((mb.hw_rev ≤ 4 ∧ lmk = []) ∨
        (4 < mb.hw_rev ∧ poll_values hw clk_status_field.LMK_LOCK lmk)) ∧
      (((4 < mb.hw_rev ∧ lmk.getLast? ≠ some 1 ∧ mb.initialization_done = true) ∧
          update_clock_source k hw mb source =
            (Except.error uhd_error.runtime_error,
              { mb with
                clock_ctrl_reg := clock_mux_setting mb.clock_ctrl_reg source,
                now := now1,
                trace := mb.trace ++
                  [hw_event.clock_ctrl_reg_flush (clock_mux_setting mb.clock_ctrl_reg source),
                   hw_event.reset_clocks] ++
                  status_reads clk_status_field.LMK_LOCK lmk })) ∨
        (¬ (4 < mb.hw_rev ∧ lmk.getLast? ≠ some 1 ∧ mb.initialization_done = true) ∧
          poll_values hw clk_status_field.RADIO_CLK_LOCK radio ∧
          ((radio.getLast? ≠ some 1 ∧
              update_clock_source k hw mb source =
                (Except.error uhd_error.runtime_error,
                  { mb with
                    clock_ctrl_reg := clock_mux_setting mb.clock_ctrl_reg source,
                    now := now1,
                    trace := mb.trace ++
                      [hw_event.clock_ctrl_reg_flush (clock_mux_setting mb.clock_ctrl_reg source),
                       hw_event.reset_clocks] ++
                      status_reads clk_status_field.LMK_LOCK lmk ++
                      sw_rst_pulse k k.ZPU_SR_SW_RST_RADIO_CLK_PLL ++
                      status_reads clk_status_field.RADIO_CLK_LOCK radio })) ∨
            (radio.getLast? = some 1 ∧
              poll_values hw clk_status_field.IDELAYCTRL_LOCK idelay ∧
              ((idelay.getLast? ≠ some 1 ∧
                  update_clock_source k hw mb source =
                    (Except.error uhd_error.runtime_error,
                      { mb with
                        clock_ctrl_reg := clock_mux_setting mb.clock_ctrl_reg source,
                        now := now1,
                        trace := mb.trace ++
                          [hw_event.clock_ctrl_reg_flush
                              (clock_mux_setting mb.clock_ctrl_reg source),
                           hw_event.reset_clocks] ++
                          status_reads clk_status_field.LMK_LOCK lmk ++
                          sw_rst_pulse k k.ZPU_SR_SW_RST_RADIO_CLK_PLL ++
                          status_reads clk_status_field.RADIO_CLK_LOCK radio ++
                          sw_rst_pulse k k.ZPU_SR_SW_RST_ADC_IDELAYCTRL ++
                          status_reads clk_status_field.IDELAYCTRL_LOCK idelay })) ∨
                (idelay.getLast? = some 1 ∧
                  update_clock_source k hw mb source =
                    (Except.ok (),
                      { mb with
                        current_refclk_src := source,
                        clock_ctrl_reg := clock_mux_setting mb.clock_ctrl_reg source,
                        now := now1,
                        trace := mb.trace ++
                          [hw_event.clock_ctrl_reg_flush
                              (clock_mux_setting mb.clock_ctrl_reg source),
                           hw_event.reset_clocks] ++
                          status_reads clk_status_field.LMK_LOCK lmk ++
                          sw_rst_pulse k k.ZPU_SR_SW_RST_RADIO_CLK_PLL ++
                          status_reads clk_status_field.RADIO_CLK_LOCK radio ++
                          sw_rst_pulse k k.ZPU_SR_SW_RST_ADC_IDELAYCTRL ++
                          status_reads clk_status_field.IDELAYCTRL_LOCK idelay ++
                          codec_resets mb.radios }))))))) := by
  have hrc1 : ((mb.current_refclk_src != "internal") || (source != "internal")) = true := by
    by_cases h1 : mb.current_refclk_src = "internal"
    · have h2 : source ≠ "internal" := fun h => hrc ⟨h1, h⟩
      simp [h2]
    · simp [h1]
  have hmux := update_clock_source_mux_valid mb source hvalid
  obtain ⟨lmk, now1, hl, href⟩ := update_clock_source_ref_lock_spec hw
    { mb with
      clock_ctrl_reg := clock_mux_setting mb.clock_ctrl_reg source,
      trace := mb.trace ++
        [hw_event.clock_ctrl_reg_flush (clock_mux_setting mb.clock_ctrl_reg source),
         hw_event.reset_clocks] }
  simp only at hl href
  by_cases hfail : 4 < mb.hw_rev ∧ lmk.getLast? ≠ some 1 ∧ mb.initialization_done = true
  · refine ⟨lmk, [], [], now1, hl, Or.inl ⟨hfail, ?_⟩⟩
    unfold update_clock_source
    simp only [hrc1, if_true, hmux, href]
    rw [if_pos hfail]
  · obtain ⟨radio, idelay, now2, hp1, hcases⟩ := update_clock_source_relock_spec k hw
      { mb with
        clock_ctrl_reg := clock_mux_setting mb.clock_ctrl_reg source,
        now := now1,
        trace := mb.trace ++
          [hw_event.clock_ctrl_reg_flush (clock_mux_setting mb.clock_ctrl_reg source),
           hw_event.reset_clocks] ++ status_reads clk_status_field.LMK_LOCK lmk }
    simp only at hcases
    refine ⟨lmk, radio, idelay, now2, hl, Or.inr ⟨hfail, hp1, ?_⟩⟩
    rcases hcases with ⟨h1, heq⟩ | ⟨h1, hp2, ⟨h2, heq⟩ | ⟨h2, heq⟩⟩
    · left
      refine ⟨h1, ?_⟩
      unfold update_clock_source
      simp only [hrc1, if_true, hmux, href]
      rw [if_neg hfail]
      simp only [heq]
    · right
      refine ⟨h1, hp2, Or.inl ⟨h2, ?_⟩⟩
      unfold update_clock_source
      simp only [hrc1, if_true, hmux, href]
      rw [if_neg hfail]
      simp only [heq]
    · right
      refine ⟨h1, hp2, Or.inr ⟨h2, ?_⟩⟩
      unfold update_clock_source
      simp only [hrc1, if_true, hmux, href]
      rw [if_neg hfail]
      simp only [heq]

theorem update_clock_source_unknown (k : x300_consts) (hw : hw_oracle) (mb : mboard_members_t)
    (source : String)
    (h : source ≠ "internal" ∧ source ≠ "external" ∧ source ≠ "gpsdo") :
    update_clock_source k hw mb source = (Except.error uhd_error.key_error, mb) := by
  unfold update_clock_source update_clock_source_mux
  simp [h.1, h.2.1, h.2.2]

theorem update_clock_source_skip_eq (k : x300_consts) (hw : hw_oracle) (mb : mboard_members_t)
    (hcur : mb.current_refclk_src = "internal") :
    update_clock_source k hw mb "internal" =
      match update_clock_source_ref_lock hw mb with
      | (Except.error e, mb1) => (Except.error e, mb1)
      | (Except.ok (), mb1) => (Except.ok (), { mb1 with current_refclk_src := "internal" }) := by
  unfold update_clock_source
  simp [hcur]

/-- C11 as stated fails: on the sample motherboard (cached source internal,
revision 6) with a radio clock PLL that never locks, a request for external ends
with a runtime error after the radio clock poll: the IDELAYCTRL is not reset, no
codec is reset and the cached source is still internal. And on a revision 4 board
with all locks up, the call returns without ever reading the reference PLL lock. -/
theorem update_clock_source_steps_cut_short :
    update_clock_source sample_consts hw_radio_unlocked sample_mb "external" =
      (Except.error uhd_error.runtime_error,
        { sample_mb with
          clock_ctrl_reg := clock_mux_setting sample_mb.clock_ctrl_reg "external",
          now := 10,
          trace :=
            [hw_event.clock_ctrl_reg_flush (clock_mux_setting sample_mb.clock_ctrl_reg "external"),
             hw_event.reset_clocks,
             hw_event.clock_status_reg_read clk_status_field.LMK_LOCK 1] ++
            sw_rst_pulse sample_consts sample_consts.ZPU_SR_SW_RST_RADIO_CLK_PLL ++
            status_reads clk_status_field.RADIO_CLK_LOCK (List.replicate 11 0) }) ∧
    update_clock_source sample_consts hw_locked sample_mb_rev4 "external" =
      (Except.ok (),
        { sample_mb_rev4 with
          current_refclk_src := "external",
          clock_ctrl_reg := clock_mux_setting sample_mb.clock_ctrl_reg "external",
          trace :=
            [hw_event.clock_ctrl_reg_flush (clock_mux_setting sample_mb.clock_ctrl_reg "external"),
             hw_event.reset_clocks] ++
            sw_rst_pulse sample_consts sample_consts.ZPU_SR_SW_RST_RADIO_CLK_PLL ++
            [hw_event.clock_status_reg_read clk_status_field.RADIO_CLK_LOCK 1] ++
            sw_rst_pulse sample_consts sample_consts.ZPU_SR_SW_RST_ADC_IDELAYCTRL ++
            [hw_event.clock_status_reg_read clk_status_field.IDELAYCTRL_LOCK 1,
             hw_event.reset_codec 0, hw_event.reset_codec 1] }) := by
  constructor <;> rfl

/-- C11, amended: for a transition from cached source internal to requested source
external, update_clock_source runs the steps of the full sequence in order: (1)
write the clock control register with the external source selected and the
on-board oscillator disabled, (2) reset the synthesizer, (3) poll the reference
PLL lock, on hardware revisions above 4 only, (4) pulse-reset the radio clock PLL
and poll its lock, (5) pulse-reset the IDELAYCTRL and poll its lock, (6) reset
every codec, (7) cache external. What the call has done is always an initial part
of that sequence which contains steps 1 and 2; on a normal return it is the whole
sequence, each poll of steps 4 and 5 ending on a read of 1, and external is
cached; a throw is a runtime error and leaves internal cached; and when every lock
reads 1 at all times the call returns normally. -/
theorem update_clock_source_internal_to_external (k : x300_consts) (hw : hw_oracle)
    (mb : mboard_members_t) (hcur : mb.current_refclk_src = "internal") :
    (clock_mux_setting mb.clock_ctrl_reg "external").CLK_SOURCE = clk_src_t.SRC_EXTERNAL ∧
    (clock_mux_setting mb.clock_ctrl_reg "external").TCXO_EN = 0 ∧
    (∃ lmk radio idelay,
      ((mb.hw_rev ≤ 4 ∧ lmk = []) ∨
        (4 < mb.hw_rev ∧ poll_values hw clk_status_field.LMK_LOCK lmk)) ∧
      (mb.trace ++ [hw_event.clock_ctrl_reg_flush (clock_mux_setting mb.clock_ctrl_reg "external"),
          hw_event.reset_clocks]) <+: (update_clock_source k hw mb "external").2.trace ∧
      (update_clock_source k hw mb "external").2.trace <+:
        mb.trace ++ reconfigure_sequence k (clock_mux_setting mb.clock_ctrl_reg "external")
          lmk radio idelay mb.radios ∧
      ((update_clock_source k hw mb "external").1 = Except.ok () →
        (update_clock_source k hw mb "external").2.trace =
          mb.trace ++ reconfigure_sequence k (clock_mux_setting mb.clock_ctrl_reg "external")
            lmk radio idelay mb.radios ∧
        poll_values hw clk_status_field.RADIO_CLK_LOCK radio ∧ radio.getLast? = some 1 ∧
        poll_values hw clk_status_field.IDELAYCTRL_LOCK idelay ∧ idelay.getLast? = some 1 ∧
        (update_clock_source k hw mb "external").2.current_refclk_src = "external") ∧
      (∀ e, (update_clock_source k hw mb "external").1 = Except.error e →
        e = uhd_error.runtime_error ∧
        (update_clock_source k hw mb "external").2.current_refclk_src = "internal")) ∧
    ((∀ which t, hw.clock_status which t = 1) →
      (update_clock_source k hw mb "external").1 = Except.ok ()) := by
  have hspec := update_clock_source_reconfigure_spec k hw mb "external" (by simp)
    (by simp)
  obtain ⟨lmk, radio, idelay, now1, hl, hcases⟩ := hspec
  refine ⟨by simp [clock_mux_setting], by simp [clock_mux_setting], ⟨lmk, radio, idelay, hl, ?_⟩, ?_⟩
  · rcases hcases with ⟨hf, heq⟩ | ⟨hf, hp1, ⟨h1, heq⟩ | ⟨h1, hp2, ⟨h2, heq⟩ | ⟨h2, heq⟩⟩⟩
    all_goals rw [heq]
    all_goals simp only [reconfigure_sequence, List.append_assoc]
    · refine ⟨?_, ?_, ?_, ?_⟩
      · exact (List.prefix_append_right_inj _).mpr (List.prefix_append _ _)
      · exact (List.prefix_append_right_inj _).mpr ((List.prefix_append_right_inj _).mpr
          (List.prefix_append _ _))
      · intro h; simp at h
      · intro e he
        simp only [Except.error.injEq] at he
        exact ⟨he.symm, hcur⟩
    · refine ⟨?_, ?_, ?_, ?_⟩
      · exact (List.prefix_append_right_inj _).mpr (List.prefix_append _ _)
      · exact (List.prefix_append_right_inj _).mpr ((List.prefix_append_right_inj _).mpr
          ((List.prefix_append_right_inj _).mpr ((List.prefix_append_right_inj _).mpr
          (List.prefix_append _ _))))
      · intro h; simp at h
      · intro e he
        simp only [Except.error.injEq] at he
        exact ⟨he.symm, hcur⟩
    · refine ⟨?_, ?_, ?_, ?_⟩
      · exact (List.prefix_append_right_inj _).mpr (List.prefix_append _ _)
      · exact (List.prefix_append_right_inj _).mpr ((List.prefix_append_right_inj _).mpr
          ((List.prefix_append_right_inj _).mpr ((List.prefix_append_right_inj _).mpr
          ((List.prefix_append_right_inj _).mpr ((List.prefix_append_right_inj _).mpr
          (List.prefix_append _ _))))))
      · intro h; simp at h
      · intro e he
        simp only [Except.error.injEq] at he
        exact ⟨he.symm, hcur⟩
    · refine ⟨?_, ?_, ?_, ?_⟩
      · exact (List.prefix_append_right_inj _).mpr (List.prefix_append _ _)
      · exact List.prefix_refl _
      · intro _
        exact ⟨trivial, hp1, h1, hp2, h2, trivial⟩
      · intro e he; simp at he
  · intro hlock
    rcases hcases with ⟨hf, heq⟩ | ⟨hf, hp1, ⟨h1, heq⟩ | ⟨h1, hp2, ⟨h2, heq⟩ | ⟨h2, heq⟩⟩⟩
    · rcases hl with ⟨h4, -⟩ | ⟨-, hp⟩
      · omega
      · exact absurd (poll_values_last_of_always hw _ lmk hp (hlock _)) hf.2.1
    · exact absurd (poll_values_last_of_always hw _ radio hp1 (hlock _)) h1
    · exact absurd (poll_values_last_of_always hw _ idelay hp2 (hlock _)) h2
    · rw [heq]

/-- Witness for C11: the sample motherboard with all locks up. -/
theorem update_clock_source_internal_to_external_witness :
    sample_mb.current_refclk_src = "internal" ∧
    (update_clock_source sample_consts hw_locked sample_mb "external").1 = Except.ok () :=
  ⟨rfl, (update_clock_source_internal_to_external sample_consts hw_locked sample_mb rfl).2.2.2
    (fun _ _ => rfl)⟩

/-- C12 as stated fails: on a revision 4 board the call to external returns
normally and caches external with no read of the reference PLL lock in its trace;
and during bring-up, on a revision 6 board whose reference PLL never reads locked,
the call still returns normally and caches external. -/
theorem update_clock_source_returns_without_ref_lock :
    ((update_clock_source sample_consts hw_locked sample_mb_rev4 "external").1 = Except.ok () ∧
      (update_clock_source sample_consts hw_locked sample_mb_rev4 "external").2.current_refclk_src =
        "external" ∧
      (update_clock_source sample_consts hw_locked sample_mb_rev4 "external").2.trace.filter
        (hw_event.is_status_read clk_status_field.LMK_LOCK) = []) ∧
    ((∀ t, hw_lmk_unlocked.clock_status clk_status_field.LMK_LOCK t = 0) ∧
      (update_clock_source sample_consts hw_lmk_unlocked sample_mb_bringup "external").1 =
        Except.ok () ∧
      (update_clock_source sample_consts hw_lmk_unlocked sample_mb_bringup
        "external").2.current_refclk_src = "external") := by
  refine ⟨⟨rfl, rfl, rfl⟩, fun _ => rfl, ?_⟩
  · obtain ⟨lmk, radio, idelay, now1, hl, hcases⟩ :=
      update_clock_source_reconfigure_spec sample_consts hw_lmk_unlocked sample_mb_bringup
        "external" (by simp) (by simp)
    rcases hcases with ⟨hf, heq⟩ | ⟨hf, hp1, ⟨h1, heq⟩ | ⟨h1, hp2, ⟨h2, heq⟩ | ⟨h2, heq⟩⟩⟩
    · exact absurd hf.2.2 (by decide)
    · exact absurd (poll_values_last_of_always _ _ radio hp1 (fun _ => rfl)) h1
    · exact absurd (poll_values_last_of_always _ _ idelay hp2 (fun _ => rfl)) h2
    · rw [heq]
      exact ⟨rfl, rfl⟩

/-- C12, amended: whenever update_clock_source returns normally after
reconfiguring (the call was not internal to internal), the requested source is
valid and the trace of the call is the full sequence: the radio clock PLL and then
the IDELAYCTRL were each polled, each poll ending on a read of 1, in that order
and after the clock control write and the synthesizer reset, before the requested
source was cached. The reference PLL was polled before them on hardware revisions
above 4 only, and its poll ended on a read of 1 when initialization was done;
during bring-up its failure is tolerated. -/
theorem update_clock_source_locks_before_cache (k : x300_consts) (hw : hw_oracle)
    (mb : mboard_members_t) (source : String)
    (hrc : ¬ (mb.current_refclk_src = "internal" ∧ source = "internal"))
    (hok : (update_clock_source k hw mb source).1 = Except.ok ()) :
    (source = "internal" ∨ source = "external" ∨ source = "gpsdo") ∧
    ∃ lmk radio idelay,
      (update_clock_source k hw mb source).2.trace =
        mb.trace ++ reconfigure_sequence k (clock_mux_setting mb.clock_ctrl_reg source)
          lmk radio idelay mb.radios ∧
      ((mb.hw_rev ≤ 4 ∧ lmk = []) ∨
        (4 < mb.hw_rev ∧ poll_values hw clk_status_field.LMK_LOCK lmk ∧
          (mb.initialization_done = true → lmk.getLast? = some 1))) ∧
      poll_values hw clk_status_field.RADIO_CLK_LOCK radio ∧ radio.getLast? = some 1 ∧
      poll_values hw clk_status_field.IDELAYCTRL_LOCK idelay ∧ idelay.getLast? = some 1 ∧
      (update_clock_source k hw mb source).2.current_refclk_src = source := by
  have hvalid : source = "internal" ∨ source = "external" ∨ source = "gpsdo" := by
    by_contra hinv
    have hne : source ≠ "internal" ∧ source ≠ "external" ∧ source ≠ "gpsdo" := by
      refine ⟨fun h => hinv (Or.inl h), fun h => hinv (Or.inr (Or.inl h)),
        fun h => hinv (Or.inr (Or.inr h))⟩
    rw [update_clock_source_unknown k hw mb source hne] at hok
    simp at hok
  refine ⟨hvalid, ?_⟩
  obtain ⟨lmk, radio, idelay, now1, hl, hcases⟩ :=
    update_clock_source_reconfigure_spec k hw mb source hvalid hrc
  rcases hcases with ⟨hf, heq⟩ | ⟨hf, hp1, ⟨h1, heq⟩ | ⟨h1, hp2, ⟨h2, heq⟩ | ⟨h2, heq⟩⟩⟩
  · rw [heq] at hok; simp at hok
  · rw [heq] at hok; simp at hok
  · rw [heq] at hok; simp at hok
  · refine ⟨lmk, radio, idelay, ?_, ?_, hp1, h1, hp2, h2, ?_⟩
    · rw [heq]; simp only [reconfigure_sequence, List.append_assoc]
    · rcases hl with h4 | ⟨h4, hp⟩
      · exact Or.inl h4
      · refine Or.inr ⟨h4, hp, ?_⟩
        intro hi
        by_contra hlast
        exact hf ⟨h4, hlast, hi⟩
    · rw [heq]

/-- Witness for C12: the sample motherboard, all locks up, internal to external. -/
theorem update_clock_source_locks_before_cache_witness :
    (update_clock_source sample_consts hw_locked sample_mb "external").1 = Except.ok () ∧
    (update_clock_source sample_consts hw_locked sample_mb "external").2.current_refclk_src =
      "external" :=
  ⟨rfl, by
    obtain ⟨-, lmk, radio, idelay, -, -, -, -, -, -, h⟩ :=
      update_clock_source_locks_before_cache sample_consts hw_locked sample_mb "external"
        (by decide) rfl
    exact h⟩

/-- C13: for a valid source name, a failed reference PLL poll (the poll returns
false; in particular when LMK_LOCK never reads 1) makes update_clock_source throw
a runtime error exactly when initialization_done is set; during bring-up it does
not throw there and the sequence continues with the reset pulse of the radio
clock PLL, and returns normally when the other locks are up. A failed radio clock
PLL poll, or a failed IDELAYCTRL poll, during a reconfiguration makes the call
throw a runtime error whatever initialization_done is. -/
theorem update_clock_source_lock_failures (k : x300_consts) (hw : hw_oracle)
    (mb : mboard_members_t) (source : String)
    (hvalid : source = "internal" ∨ source = "external" ∨ source = "gpsdo") :
    (∀ mb1 : mboard_members_t, 4 < mb1.hw_rev →
      (wait_for_clk_locked hw mb1 clk_status_field.LMK_LOCK
        (if mb1.initialization_done then 30000 else 1000)).1 = false →
      (update_clock_source_ref_lock hw mb1).1 =
        (if mb1.initialization_done then Except.error uhd_error.runtime_error
         else Except.ok ())) ∧
    (∀ mb1 : mboard_members_t,
      (wait_for_clk_locked hw
        (poke32 (poke32 mb1 (k.SR_ADDR k.SET0_BASE k.ZPU_SR_SW_RST)
          k.ZPU_SR_SW_RST_RADIO_CLK_PLL) (k.SR_ADDR k.SET0_BASE k.ZPU_SR_SW_RST) 0)
        clk_status_field.RADIO_CLK_LOCK 10).1 = false →
      (update_clock_source_relock k hw mb1).1 = Except.error uhd_error.runtime_error) ∧
    (4 < mb.hw_rev → (∀ t, hw.clock_status clk_status_field.LMK_LOCK t ≠ 1) →
      (mb.initialization_done = true →
        (update_clock_source k hw mb source).1 = Except.error uhd_error.runtime_error) ∧
      (mb.initialization_done = false →
        (¬ (mb.current_refclk_src = "internal" ∧ source = "internal") →
          ∃ lmk, poll_values hw clk_status_field.LMK_LOCK lmk ∧ lmk.getLast? ≠ some 1 ∧
            (mb.trace ++
              [hw_event.clock_ctrl_reg_flush (clock_mux_setting mb.clock_ctrl_reg source),
               hw_event.reset_clocks] ++
              status_reads clk_status_field.LMK_LOCK lmk ++
              sw_rst_pulse k k.ZPU_SR_SW_RST_RADIO_CLK_PLL) <+:
                (update_clock_source k hw mb source).2.trace) ∧
        ((∀ t, hw.clock_status clk_status_field.RADIO_CLK_LOCK t = 1) →
          (∀ t, hw.clock_status clk_status_field.IDELAYCTRL_LOCK t = 1) →
          (update_clock_source k hw mb source).1 = Except.ok () ∧
          (update_clock_source k hw mb source).2.current_refclk_src = source))) ∧
    (¬ (mb.current_refclk_src = "internal" ∧ source = "internal") →
      (∀ t, hw.clock_status clk_status_field.RADIO_CLK_LOCK t ≠ 1) →
      (update_clock_source k hw mb source).1 = Except.error uhd_error.runtime_error) ∧
    (¬ (mb.current_refclk_src = "internal" ∧ source = "internal") →
      (∀ t, hw.clock_status clk_status_field.IDELAYCTRL_LOCK t ≠ 1) →
      (update_clock_source k hw mb source).1 = Except.error uhd_error.runtime_error) := by
  refine ⟨?_, ?_, ?_, ?_, ?_⟩
  · intro mb1 hrev hfail
    unfold update_clock_source_ref_lock
    simp only at hfail ⊢
    simp only [gt_iff_lt, hrev, if_true, hfail, Bool.not_false]
    obtain ⟨vs, now1, -, heq⟩ := wait_for_clk_locked_spec hw mb1 clk_status_field.LMK_LOCK
      (if mb1.initialization_done = true then 30000 else 1000)
    rw [heq]
    by_cases hi : mb1.initialization_done = true <;> simp [hi]
  · intro mb1 hfail
    unfold update_clock_source_relock
    simp only [hfail, Bool.not_false, if_true]
  · intro hrev hnever
    have hskip : mb.current_refclk_src = "internal" ∧ source = "internal" →
        (update_clock_source k hw mb source).1 =
          (if mb.initialization_done = true then Except.error uhd_error.runtime_error
           else Except.ok ()) ∧
        ((update_clock_source k hw mb source).1 = Except.ok () →
          (update_clock_source k hw mb source).2.current_refclk_src = source) := by
      rintro ⟨hcur, rfl⟩
      rw [update_clock_source_skip_eq k hw mb hcur]
      obtain ⟨lmk, now1, hl, href⟩ := update_clock_source_ref_lock_spec hw mb
      rw [href]
      rcases hl with ⟨h4, -⟩ | ⟨-, hp⟩
      · omega
      · have hlast := poll_values_last_of_never hw _ lmk hp hnever
        by_cases hi : mb.initialization_done = true
        · simp [hi, hrev, hlast]
        · simp [hi]
    constructor
    · intro hi
      by_cases hrc : mb.current_refclk_src = "internal" ∧ source = "internal"
      · rw [(hskip hrc).1, if_pos hi]
      · obtain ⟨lmk, radio, idelay, now1, hl, hcases⟩ :=
          update_clock_source_reconfigure_spec k hw mb source hvalid hrc
        rcases hcases with ⟨hf, heq⟩ | ⟨hf, -⟩
        · rw [heq]
        · rcases hl with ⟨h4, -⟩ | ⟨-, hp⟩
          · omega
          · exact absurd ⟨hrev, poll_values_last_of_never hw _ lmk hp hnever, hi⟩ hf
    · intro hi
      constructor
      · intro hrc
        obtain ⟨lmk, radio, idelay, now1, hl, hcases⟩ :=
          update_clock_source_reconfigure_spec k hw mb source hvalid hrc
        rcases hl with ⟨h4, -⟩ | ⟨-, hp⟩
        · omega
        refine ⟨lmk, hp, poll_values_last_of_never hw _ lmk hp hnever, ?_⟩
        rcases hcases with ⟨hf, heq⟩ | ⟨hf, hp1, ⟨h1, heq⟩ | ⟨h1, hp2, ⟨h2, heq⟩ | ⟨h2, heq⟩⟩⟩
        · rw [hi] at hf; simp at hf
        all_goals rw [heq]
        all_goals simp only [List.append_assoc]
        all_goals
          exact (List.prefix_append_right_inj _).mpr ((List.prefix_append_right_inj _).mpr
            ((List.prefix_append_right_inj _).mpr (List.prefix_append _ _)))
      · intro hradio hidelay
        by_cases hrc : mb.current_refclk_src = "internal" ∧ source = "internal"
        · have h1 := (hskip hrc).1
          have hni : ¬ mb.initialization_done = true := by simp [hi]
          rw [if_neg hni] at h1
          exact ⟨h1, (hskip hrc).2 h1⟩
        · obtain ⟨lmk, radio, idelay, now1, hl, hcases⟩ :=
            update_clock_source_reconfigure_spec k hw mb source hvalid hrc
          rcases hcases with ⟨hf, heq⟩ | ⟨hf, hp1, ⟨h1, heq⟩ | ⟨h1, hp2, ⟨h2, heq⟩ | ⟨h2, heq⟩⟩⟩
          · rw [hi] at hf; simp at hf
          · exact absurd (poll_values_last_of_always hw _ radio hp1 hradio) h1
          · exact absurd (poll_values_last_of_always hw _ idelay hp2 hidelay) h2
          · rw [heq]; exact ⟨rfl, rfl⟩
  · intro hrc hnever
    obtain ⟨lmk, radio, idelay, now1, hl, hcases⟩ :=
      update_clock_source_reconfigure_spec k hw mb source hvalid hrc
    rcases hcases with ⟨hf, heq⟩ | ⟨hf, hp1, ⟨h1, heq⟩ | ⟨h1, hp2, ⟨h2, heq⟩ | ⟨h2, heq⟩⟩⟩
    · rw [heq]
    · rw [heq]
    · exact absurd h1 (poll_values_last_of_never hw _ radio hp1 hnever)
    · exact absurd h1 (poll_values_last_of_never hw _ radio hp1 hnever)
  · intro hrc hnever
    obtain ⟨lmk, radio, idelay, now1, hl, hcases⟩ :=
      update_clock_source_reconfigure_spec k hw mb source hvalid hrc
    rcases hcases with ⟨hf, heq⟩ | ⟨hf, hp1, ⟨h1, heq⟩ | ⟨h1, hp2, ⟨h2, heq⟩ | ⟨h2, heq⟩⟩⟩
    · rw [heq]
    · rw [heq]
    · rw [heq]
    · exact absurd h2 (poll_values_last_of_never hw _ idelay hp2 hnever)

/-- Witness for C13: with a reference PLL that never locks the sample motherboard
throws on a request for external, and the same board during bring-up returns
normally; with a radio clock PLL that never locks both throw. -/
theorem update_clock_source_lock_failures_witness :
    (update_clock_source sample_consts hw_lmk_unlocked sample_mb "external").1 =
      Except.error uhd_error.runtime_error ∧
    (update_clock_source sample_consts hw_lmk_unlocked sample_mb_bringup "external").1 =
      Except.ok () ∧
    (update_clock_source sample_consts hw_radio_unlocked sample_mb "external").1 =
      Except.error uhd_error.runtime_error ∧
    (update_clock_source sample_consts hw_radio_unlocked sample_mb_bringup "external").1 =
      Except.error uhd_error.runtime_error :=
  ⟨((update_clock_source_lock_failures sample_consts hw_lmk_unlocked sample_mb "external"
      (by simp)).2.2.1 (by decide) (fun _ => (by decide : (0 : Nat) ≠ 1))).1 rfl,
    ((((update_clock_source_lock_failures sample_consts hw_lmk_unlocked sample_mb_bringup
      "external" (by simp)).2.2.1 (by decide) (fun _ => (by decide : (0 : Nat) ≠ 1))).2 rfl).2
      (fun _ => rfl) (fun _ => rfl)).1,
    (update_clock_source_lock_failures sample_consts hw_radio_unlocked sample_mb "external"
      (by simp)).2.2.2.1 (by decide) (fun _ => (by decide : (0 : Nat) ≠ 1)),
    (update_clock_source_lock_failures sample_consts hw_radio_unlocked sample_mb_bringup
      "external" (by simp)).2.2.2.1 (by decide) (fun _ => (by decide : (0 : Nat) ≠ 1))⟩

/-- C14: update_clock_source and update_time_source called with a name other than
internal, external and gpsdo throw a key error and leave the whole motherboard
state as it was: nothing is appended to the hardware trace (no register write, no
reset, no lock poll), the soft copy of the clock control register and the cached
reference source are unchanged. -/
theorem unknown_source_key_error (k : x300_consts) (hw : hw_oracle) (mb : mboard_members_t)
    (source : String)
    (h : source ≠ "internal" ∧ source ≠ "external" ∧ source ≠ "gpsdo") :
    update_clock_source k hw mb source = (Except.error uhd_error.key_error, mb) ∧
    update_time_source mb source = (Except.error uhd_error.key_error, mb) := by
  refine ⟨update_clock_source_unknown k hw mb source h, ?_⟩
  unfold update_time_source
  simp [h.1, h.2.1, h.2.2]

/-- Witness for C14: the name "GPSDO" (names are case sensitive). -/
theorem unknown_source_key_error_witness :
    update_clock_source sample_consts hw_locked sample_mb "GPSDO" =
      (Except.error uhd_error.key_error, sample_mb) ∧
    update_time_source sample_mb "GPSDO" = (Except.error uhd_error.key_error, sample_mb) :=
  unknown_source_key_error sample_consts hw_locked sample_mb "GPSDO" (by decide)

/-- C15: update_time_source with a name in {internal, external, gpsdo} returns
normally after exactly one register write, the flush of the clock control register
with the PPS_SELECT field set to the matching source and every other field as it
was; it appends nothing else to the hardware trace (no lock poll, no reset) and
leaves the cached reference clock source and the rest of the state unchanged. -/
theorem update_time_source_effect (mb : mboard_members_t) (source : String)
    (hvalid : source = "internal" ∨ source = "external" ∨ source = "gpsdo") :
    update_time_source mb source =
      (Except.ok (),
        { mb with
          clock_ctrl_reg := { mb.clock_ctrl_reg with PPS_SELECT := clk_src_of_name source },
          trace := mb.trace ++
            [hw_event.clock_ctrl_reg_flush
              { mb.clock_ctrl_reg with PPS_SELECT := clk_src_of_name source }] }) ∧
    (update_time_source mb source).2.current_refclk_src = mb.current_refclk_src ∧
    clk_src_of_name "internal" = clk_src_t.SRC_INTERNAL ∧
    clk_src_of_name "external" = clk_src_t.SRC_EXTERNAL ∧
    clk_src_of_name "gpsdo" = clk_src_t.SRC_GPSDO := by
  refine ⟨?_, ?_, by decide, by decide, by decide⟩
  · rcases hvalid with rfl | rfl | rfl <;>
      simp [update_time_source, clock_ctrl_reg_write_PPS_SELECT, clock_ctrl_reg_flush,
        clk_src_of_name]
  · rcases hvalid with rfl | rfl | rfl <;>
      simp [update_time_source, clock_ctrl_reg_write_PPS_SELECT, clock_ctrl_reg_flush]

/-- Witness for C15: selecting the GPSDO as time source on the sample
motherboard. -/
theorem update_time_source_effect_witness :
    (update_time_source sample_mb "gpsdo").2.trace =
      [hw_event.clock_ctrl_reg_flush
        { CLK_SOURCE := clk_src_t.SRC_INTERNAL, TCXO_EN := 1,
          PPS_SELECT := clk_src_t.SRC_GPSDO, PPS_OUT_EN := 0, TIME_SYNC := 0 }] ∧
    (update_time_source sample_mb "gpsdo").2.current_refclk_src = sample_mb.current_refclk_src :=
  ⟨by decide, (update_time_source_effect sample_mb "gpsdo" (by simp)).2.1⟩

/-! ## Claim manager and session teardown -/

/-- C16 as stated fails: is_claimed does not read the claim time word. On a
device whose claim time word reads zero (also right after a write of zero to it)
while the claim status word reads 1 and the claim source is another process,
is_claimed returns true. -/
theorem is_claimed_with_zero_claim_time :
    sample_iface 0 (sample_consts.SR_ADDR sample_consts.X300_FW_SHMEM_BASE
      sample_consts.X300_FW_SHMEM_CLAIM_TIME) = 0 ∧
    is_claimed sample_consts (sample_iface 0) 9 = true ∧
    wb_poke (sample_iface 1477900000)
      (sample_consts.SR_ADDR sample_consts.X300_FW_SHMEM_BASE
        sample_consts.X300_FW_SHMEM_CLAIM_TIME) 0
      (sample_consts.SR_ADDR sample_consts.X300_FW_SHMEM_BASE
        sample_consts.X300_FW_SHMEM_CLAIM_TIME) = 0 ∧
    is_claimed sample_consts
      (wb_poke (sample_iface 1477900000)
        (sample_consts.SR_ADDR sample_consts.X300_FW_SHMEM_BASE
          sample_consts.X300_FW_SHMEM_CLAIM_TIME) 0) 9 = true := by
  decide

/-- C16, amended: for every device register state, if the claim status word
(X300_FW_SHMEM_CLAIM_STATUS) reads zero, is_claimed returns false; if it is
non-zero, is_claimed returns true exactly when the claim source word differs from
the identity hash of the calling process, so a probe from another process returns
true and a probe from the process whose hash is stored returns false. After the
claimer of a process has written its hash, a probe from that process returns
false whatever the status. -/
theorem is_claimed_spec (k : x300_consts) (iface : wb_iface) (process_hash : Nat) :
    (iface (k.SR_ADDR k.X300_FW_SHMEM_BASE k.X300_FW_SHMEM_CLAIM_STATUS) = 0 →
      is_claimed k iface process_hash = false) ∧
    (iface (k.SR_ADDR k.X300_FW_SHMEM_BASE k.X300_FW_SHMEM_CLAIM_STATUS) ≠ 0 →
      (is_claimed k iface process_hash = true ↔
        iface (k.SR_ADDR k.X300_FW_SHMEM_BASE k.X300_FW_SHMEM_CLAIM_SRC) ≠ process_hash)) ∧
    (iface (k.SR_ADDR k.X300_FW_SHMEM_BASE k.X300_FW_SHMEM_CLAIM_SRC) = process_hash →
      is_claimed k iface process_hash = false) ∧
    (∀ time, is_claimed k (claimer_loop k iface time process_hash) process_hash = false) := by
  refine ⟨?_, ?_, ?_, ?_⟩
  · intro h
    simp [is_claimed, h]
  · intro h
    simp [is_claimed, h]
  · intro h
    simp [is_claimed, h]
  · intro time
    simp [is_claimed, claimer_loop, wb_poke]

theorem destroy_mboard_eq (k : x300_consts) (pop : dict_pop_t)
    (registry : pcie_zpu_iface_registry_t) (mb : mboard_members_t) :
    destroy_mboard k pop registry mb =
      match pop registry mb.pri_eth_addr with
      | Except.error e =>
        (Except.error e, registry,
          { mb with claimer_task := false, trace := mb.trace ++ unclaim_writes k })
      | Except.ok registry1 =>
        (Except.ok (), registry1,
          { mb with claimer_task := false, trace := mb.trace ++ unclaim_writes k }) := by
  unfold destroy_mboard
  simp only [poke32, unclaim_writes, List.append_assoc, List.singleton_append]

/-- When no registry pop throws (every motherboard has an entry, or pop is
lenient), the destructor unclaims every motherboard and the registry holds no
entry for any of them afterwards. -/
theorem x300_impl_destructor_clears_all (k : x300_consts) (pop : dict_pop_t)
    (hpop : ∀ keys key, pop keys key = Except.ok (keys.erase key)) :
    ∀ (mbs : List mboard_members_t) (registry : pcie_zpu_iface_registry_t),
      registry.Nodup →
      (x300_impl_destructor k pop registry mbs).2 =
        mbs.map (fun mb =>
          { mb with claimer_task := false, trace := mb.trace ++ unclaim_writes k }) ∧
      (x300_impl_destructor k pop registry mbs).1.Nodup ∧
      (∀ key, key ∈ (x300_impl_destructor k pop registry mbs).1 → key ∈ registry) ∧
      ∀ mb ∈ mbs, mb.pri_eth_addr ∉ (x300_impl_destructor k pop registry mbs).1 := by
  intro mbs
  induction mbs with
  | nil => intro registry hnd; simp [x300_impl_destructor, hnd]
  | cons mb rest ih =>
    intro registry hnd
    unfold x300_impl_destructor
    rw [destroy_mboard_eq, hpop]
    simp only
    obtain ⟨h1, h2, h3, h4⟩ := ih (registry.erase mb.pri_eth_addr) (hnd.erase _)
    refine ⟨by rw [h1]; rfl, h2, ?_, ?_⟩
    · intro key hkey
      exact List.mem_of_mem_erase (h3 key hkey)
    · intro m hm
      rcases List.mem_cons.mp hm with rfl | hm
      · intro hin
        have := h3 _ hin
        exact (List.Nodup.not_mem_erase hnd) this
      · exact h4 m hm

/-- With a pop that throws for a missing key, the destructor stops at the first
motherboard that has no registry entry: that motherboard is unclaimed, the ones
after it are left as they were. -/
theorem x300_impl_destructor_stops_at_unregistered (k : x300_consts)
    (registry : pcie_zpu_iface_registry_t) (mb : mboard_members_t)
    (rest : List mboard_members_t) (h : mb.pri_eth_addr ∉ registry) :
    x300_impl_destructor k dict_pop_throwing registry (mb :: rest) =
      (registry,
        { mb with claimer_task := false, trace := mb.trace ++ unclaim_writes k } :: rest) := by
  unfold x300_impl_destructor
  rw [destroy_mboard_eq]
  simp [dict_pop_throwing, h]

/-- C17: the destructor does not unclaim every motherboard of every session. In an
Ethernet session with two motherboards the registry has no entry for either (only
PCIe motherboards are registered); with a uhd::dict::pop that throws for a missing
key, the pop for the first motherboard throws after its two claim words have been
zeroed, the loop is left, and the second motherboard is never visited: its claim
words are not written and its claimer task stays alive. With a pop that does not
throw, both motherboards are unclaimed. -/
theorem x300_impl_destructor_ethernet_pair :
    (x300_impl_destructor sample_consts dict_pop_throwing [] [sample_mb, sample_mb2]).2 =
      [{ sample_mb with claimer_task := false, trace := unclaim_writes sample_consts },
       sample_mb2] ∧
    (x300_impl_destructor sample_consts dict_pop_lenient [] [sample_mb, sample_mb2]).2 =
      [{ sample_mb with claimer_task := false, trace := unclaim_writes sample_consts },
       { sample_mb2 with claimer_task := false, trace := unclaim_writes sample_consts }] := by
  constructor <;> rfl

/-! ## Device discovery -/

theorem dict_get_append_default (d : device_addr_t) (k key : String) :
    dict_get (d ++ [(k, "")]) key = dict_get d key := by
  unfold dict_get
  induction d with
  | nil =>
    by_cases h : key = k
    · subst h; simp [List.lookup]
    · have : (key == k) = false := by simpa using h
      simp [List.lookup, this]
  | cons p rest ih =>
    obtain ⟨a, b⟩ := p
    by_cases h : key == a
    · simp [List.lookup, h]
    · have h1 : (key == a) = false := by simpa using h
      simpa [List.lookup, h1] using ih

theorem dict_get_touch (d : device_addr_t) (k key : String) :
    dict_get (dict_touch d k) key = dict_get d key := by
  unfold dict_touch
  split
  · rfl
  · exact dict_get_append_default d k key

theorem has_key_touch_self (d : device_addr_t) (k : String) :
    has_key (dict_touch d k) k = true := by
  unfold dict_touch
  split
  · assumption
  · simp [has_key]

theorem has_key_touch_mono (d : device_addr_t) (k key : String) (h : has_key d key = true) :
    has_key (dict_touch d k) key = true := by
  unfold dict_touch
  split
  · exact h
  · simp only [has_key, List.any_append, Bool.or_eq_true]
    exact Or.inl h

/-- The filter on one key: the candidate keeps every value and every key, and when
the conjunct holds and the hint has the key, the candidate has it with the same
value. -/
theorem filter_key_spec (hint new_addr : device_addr_t) (key : String) :
    (∀ key1, dict_get (filter_key hint new_addr key).2 key1 = dict_get new_addr key1) ∧
    (∀ key1, has_key new_addr key1 = true →
      has_key (filter_key hint new_addr key).2 key1 = true) ∧
    ((filter_key hint new_addr key).1 = true → has_key hint key = true →
      has_key (filter_key hint new_addr key).2 key = true ∧
      dict_get (filter_key hint new_addr key).2 key = dict_get hint key) := by
  unfold filter_key
  by_cases h : has_key hint key = true
  · simp only [h, Bool.not_true, Bool.false_eq_true, if_false]
    refine ⟨fun key1 => dict_get_touch _ _ _, fun key1 hk => has_key_touch_mono _ _ _ hk, ?_⟩
    intro hb _
    refine ⟨has_key_touch_self _ _, ?_⟩
    rw [dict_get_touch]
    exact (beq_iff_eq.mp hb).symm
  · have h0 : has_key hint key = false := by simpa using h
    simp [h0]

/-- A candidate that passes the filter of x300_find_with_addr agrees with the hint
on name, serial and product. -/
theorem filter_enet_agrees (hint new_addr : device_addr_t)
    (h : (filter_enet hint new_addr).1 = true) :
    agrees_with hint (filter_enet hint new_addr).2 := by
  obtain ⟨g1, m1, s1⟩ := filter_key_spec hint new_addr "name"
  obtain ⟨g2, m2, s2⟩ := filter_key_spec hint (filter_key hint new_addr "name").2 "serial"
  obtain ⟨g3, m3, s3⟩ := filter_key_spec hint
    (filter_key hint (filter_key hint new_addr "name").2 "serial").2 "product"
  unfold filter_enet at h ⊢
  by_cases h1 : (filter_key hint new_addr "name").1 = true
  · by_cases h2 : (filter_key hint (filter_key hint new_addr "name").2 "serial").1 = true
    · simp only [h1, h2, Bool.not_true, Bool.false_eq_true, if_false] at h ⊢
      intro key hkey hhas
      simp only [filter_keys, List.mem_cons, List.mem_singleton, List.not_mem_nil, or_false]
        at hkey
      rcases hkey with rfl | rfl | rfl
      · obtain ⟨a, b⟩ := s1 h1 hhas
        exact ⟨m3 _ (m2 _ a), by rw [g3, g2, b]⟩
      · obtain ⟨a, b⟩ := s2 h2 hhas
        exact ⟨m3 _ a, by rw [g3, b]⟩
      · exact s3 h hhas
    · have h2f : (filter_key hint (filter_key hint new_addr "name").2 "serial").1 = false := by
        simpa using h2
      simp [h1, h2f] at h
  · have h1f : (filter_key hint new_addr "name").1 = false := by simpa using h1
    simp [h1f] at h

/-- Every address that the reply loop adds agrees with the hint. -/
theorem x300_find_with_addr_loop_agrees (k : x300_consts) (env : find_env)
    (hint : device_addr_t) (sequence : Nat) :
    ∀ (replies : List fw_comms_reply) (addrs : device_addrs_t),
      (∀ a ∈ addrs, agrees_with hint a) →
      ∀ a ∈ x300_find_with_addr_loop k env hint sequence replies addrs, agrees_with hint a := by
  intro replies
  induction replies with
  | nil => intro addrs h; simpa [x300_find_with_addr_loop] using h
  | cons reply rest ih =>
    intro addrs h
    unfold x300_find_with_addr_loop
    split
    · exact h
    · split
      · exact h
      · split
        · exact h
        · simp only
          split
          · exact ih addrs h
          · split
            · rename_i hpass
              apply ih
              intro a ha
              rcases List.mem_append.mp ha with ha | ha
              · exact h a ha
              · rw [List.mem_singleton.mp ha]
                exact filter_enet_agrees _ _ hpass
            · exact ih addrs h

/-- Every address that x300_find_with_addr returns agrees with its hint. -/
theorem x300_find_with_addr_agrees (k : x300_consts) (env : find_env) (n : Nat)
    (hint : device_addr_t) (addrs : device_addrs_t)
    (h : (x300_find_with_addr k env n hint).1 = Except.ok addrs) :
    ∀ a ∈ addrs, agrees_with hint a := by
  unfold x300_find_with_addr at h
  split at h
  · simp at h
  · simp only at h
    split at h
    · simp at h
    · simp only [Except.ok.injEq] at h
      rw [← h]
      exact x300_find_with_addr_loop_agrees k env hint _ _ [] (by simp)

theorem agrees_with_trans (hint reply_addr a : device_addr_t)
    (h1 : agrees_with hint reply_addr) (h2 : agrees_with reply_addr a) : agrees_with hint a := by
  intro key hkey hhas
  obtain ⟨a1, b1⟩ := h1 key hkey hhas
  obtain ⟨a2, b2⟩ := h2 key hkey a1
  exact ⟨a2, by rw [b2, b1]⟩

/-- Every address that the second pass returns agrees with the hint that the
first-pass replies agree with. -/
theorem x300_find_second_pass_agrees (k : x300_consts) (env : find_env) (hint : device_addr_t) :
    ∀ (reply_addrs : List device_addr_t) (n : Nat) (addrs out : device_addrs_t),
      (∀ r ∈ reply_addrs, agrees_with hint r) → (∀ a ∈ addrs, agrees_with hint a) →
      (x300_find_second_pass k env n reply_addrs addrs).1 = Except.ok out →
      ∀ a ∈ out, agrees_with hint a := by
  intro reply_addrs
  induction reply_addrs with
  | nil =>
    intro n addrs out _ h hout
    simp only [x300_find_second_pass, Except.ok.injEq] at hout
    rw [← hout]; exact h
  | cons reply_addr rest ih =>
    intro n addrs out hr h hout
    unfold x300_find_second_pass at hout
    split at hout
    · simp at hout
    · rename_i new_addrs n1 heq
      apply ih n1 (new_addrs ++ addrs) out (fun r hr1 => hr r (List.mem_cons_of_mem _ hr1)) _ hout
      intro a ha
      rcases List.mem_append.mp ha with ha | ha
      · have hnew := x300_find_with_addr_agrees k env n reply_addr new_addrs (by rw [heq])
        exact agrees_with_trans hint reply_addr a (hr reply_addr (List.mem_cons_self _ _))
          (hnew a ha)
      · exact h a ha

/-- C18: for every hint that separates into the single hint `hint` and has an addr
key, x300_find returns or throws (it does not recurse), and every address it
returns has, for each of the keys name, serial and product present in the hint,
that key with exactly the hint's value. The second probing pass filters with the
reply of the first pass as its hint, and that reply agrees with the hint. -/
theorem x300_find_addr_hint_filtered (k : x300_consts) (env : find_env) (fuel n : Nat)
    (hint_ hint : device_addr_t) (hsep : env.separate_device_addr hint_ = [hint])
    (haddr : has_key hint "addr" = true) :
    (∃ r, x300_find k env (fuel + 1) n hint_ = some r) ∧
    ∀ addrs n1, x300_find k env (fuel + 1) n hint_ = some (Except.ok addrs, n1) →
      ∀ a ∈ addrs, ∀ key ∈ ["name", "serial", "product"], has_key hint key = true →
        has_key a key = true ∧ dict_get a key = dict_get hint key := by
  unfold x300_find
  simp only [hsep, List.length_singleton, gt_iff_lt, lt_self_iff_false, if_false,
    List.headD_cons, haddr]
  split
  · refine ⟨⟨_, rfl⟩, ?_⟩
    intro addrs n1 h a ha
    simp only [Option.some.injEq, Prod.mk.injEq, Except.ok.injEq] at h
    rw [← h.1] at ha
    simp at ha
  · simp only [if_true]
    refine ⟨⟨_, rfl⟩, ?_⟩
    intro addrs n1 h a ha
    simp only [Option.some.injEq] at h
    have hout : (x300_find_second_pass k env (x300_find_with_addr k env n hint).2
        (match (x300_find_with_addr k env n hint).1 with
          | Except.error _ => []
          | Except.ok reply_addrs => reply_addrs) []).1 = Except.ok addrs := by
      rw [h]
    refine x300_find_second_pass_agrees k env hint _ _ [] addrs ?_ (by simp) hout a ha
    intro r hr
    split at hr
    · simp at hr
    · rename_i reply_addrs heq
      exact x300_find_with_addr_agrees k env n hint reply_addrs heq r hr

/-- Witness for C18: in the sample network a search of the broadcast address for
the name lab finds the X310 at 192.168.10.2 and not the X300 named bench that
answers the same broadcast. -/
theorem x300_find_addr_hint_filtered_witness :
    x300_find sample_consts sample_env 1 0 [("addr", "192.168.10.255"), ("name", "lab")] =
      some (Except.ok [[("type", "x300"), ("addr", "192.168.10.2"), ("fpga", "1G"),
        ("name", "lab"), ("serial", "30F1A"), ("product", "X310")]], 2) ∧
    ∀ a ∈ [[("type", "x300"), ("addr", "192.168.10.2"), ("fpga", "1G"),
        ("name", "lab"), ("serial", "30F1A"), ("product", "X310")]],
      ∀ key ∈ ["name", "serial", "product"],
        has_key [("addr", "192.168.10.255"), ("name", "lab")] key = true →
        has_key a key = true ∧
          dict_get a key = dict_get [("addr", "192.168.10.255"), ("name", "lab")] key :=
  ⟨rfl, (x300_find_addr_hint_filtered sample_consts sample_env 0 0
    [("addr", "192.168.10.255"), ("name", "lab")] [("addr", "192.168.10.255"), ("name", "lab")]
    rfl rfl).2 _ 2 rfl⟩

/-- The loop over the sub-hints in terms of the results of the recursive calls:
the devices of the sub-hints that resolved to one device are collected in order,
and the message names the others. -/
theorem x300_find_multi_loop_eq (find : Nat → device_addr_t → find_result) :
    ∀ (hints : List device_addr_t) (n : Nat) (found_devices : device_addrs_t)
      (error_msg : List device_addr_t),
      x300_find_multi_loop find n hints found_devices error_msg =
        match x300_find_each find n hints with
        | none => none
        | some (Except.error e, n1) => some (Except.error e, n1)
        | some (Except.ok found, n1) =>
          some (Except.ok (found_devices ++ single_devices found,
            error_msg ++ unresolved_hints hints found), n1) := by
  intro hints
  induction hints with
  | nil =>
    intro n found_devices error_msg
    simp [x300_find_multi_loop, x300_find_each, single_devices, unresolved_hints]
  | cons hint_i rest ih =>
    intro n found_devices error_msg
    unfold x300_find_multi_loop x300_find_each
    cases hfind : find n hint_i with
    | none => rfl
    | some r =>
      obtain ⟨res, n1⟩ := r
      cases res with
      | error e => rfl
      | ok found_devices_i =>
        have hrest : ∀ (fd : device_addrs_t) (em : List device_addr_t) (extra : device_addrs_t)
            (bad : List device_addr_t),
            (∀ found, single_devices (found_devices_i :: found) = extra ++ single_devices found) →
            (∀ found, unresolved_hints (hint_i :: rest) (found_devices_i :: found) =
              bad ++ unresolved_hints rest found) →
            fd = found_devices ++ extra → em = error_msg ++ bad →
            x300_find_multi_loop find n1 rest fd em =
              match
                (match x300_find_each find n1 rest with
                  | none => none
                  | some (Except.error e, n) => some (Except.error e, n)
                  | some (Except.ok found, n) =>
                    some (Except.ok (found_devices_i :: found), n) :
                  Option (Except uhd_error (List device_addrs_t) × Nat)) with
              | none => none
              | some (Except.error e, n1) => some (Except.error e, n1)
              | some (Except.ok found, n1) =>
                some (Except.ok (found_devices ++ single_devices found,
                  error_msg ++ unresolved_hints (hint_i :: rest) found), n1) := by
          intro fd em extra bad hs hu hfd hem
          rw [ih]
          cases heach : x300_find_each find n1 rest with
          | none => rfl
          | some r2 =>
            obtain ⟨res2, n2⟩ := r2
            cases res2 with
            | error e => rfl
            | ok found =>
              simp only [hs, hu, hfd, hem, List.append_assoc]
        rcases found_devices_i with _ | ⟨dev, _ | ⟨dev2, tl⟩⟩
        · exact hrest _ _ [] [hint_i] (fun _ => rfl) (fun _ => rfl) (by simp) rfl
        · exact hrest _ _ [dev] [] (fun _ => rfl) (fun _ => rfl) rfl (by simp)
        · exact hrest _ _ [] [hint_i] (fun _ => rfl) (fun _ => rfl) (by simp) rfl

theorem x300_find_each_length (find : Nat → device_addr_t → find_result) :
    ∀ (hints : List device_addr_t) (n n1 : Nat) (found : List device_addrs_t),
      x300_find_each find n hints = some (Except.ok found, n1) → found.length = hints.length := by
  intro hints
  induction hints with
  | nil =>
    intro n n1 found h
    simp only [x300_find_each, Option.some.injEq, Prod.mk.injEq, Except.ok.injEq] at h
    rw [← h.1]; rfl
  | cons hint_i rest ih =>
    intro n n1 found h
    unfold x300_find_each at h
    split at h
    · simp at h
    · simp at h
    · split at h
      · simp at h
      · simp at h
      · rename_i found1 n3 heach
        simp only [Option.some.injEq, Prod.mk.injEq, Except.ok.injEq] at h
        rw [← h.1, List.length_cons, List.length_cons, ih _ _ _ heach]

theorem single_devices_of_all (found : List device_addrs_t)
    (h : ∀ r ∈ found, r.length = 1) : single_devices found = found.flatten := by
  induction found with
  | nil => rfl
  | cons r rest ih =>
    have hr := h r (List.mem_cons_self _ _)
    obtain ⟨dev, rfl⟩ := List.length_eq_one.mp hr
    unfold single_devices at ih ⊢
    rw [List.filterMap_cons]
    simp only [List.flatten_cons, List.singleton_append]
    rw [ih (fun r1 hr1 => h r1 (List.mem_cons_of_mem _ hr1))]

theorem single_devices_eq_nil (found : List device_addrs_t)
    (h : ∀ r ∈ found, r.length ≠ 1) : single_devices found = [] := by
  induction found with
  | nil => rfl
  | cons r rest ih =>
    have hr := h r (List.mem_cons_self _ _)
    unfold single_devices at ih ⊢
    rw [List.filterMap_cons]
    split
    · exact ih (fun r1 hr1 => h r1 (List.mem_cons_of_mem _ hr1))
    · rename_i dev hsome
      split at hsome
      · exact absurd rfl hr
      · simp at hsome

theorem single_devices_ne_nil (found : List device_addrs_t)
    (h : ∃ r ∈ found, r.length = 1) : single_devices found ≠ [] := by
  obtain ⟨r, hr, hlen⟩ := h
  obtain ⟨dev, rfl⟩ := List.length_eq_one.mp hlen
  intro hnil
  have hmem : dev ∈ single_devices found := by
    unfold single_devices
    exact List.mem_filterMap.mpr ⟨[dev], hr, rfl⟩
  rw [hnil] at hmem
  simp at hmem

theorem unresolved_hints_eq_nil :
    ∀ (hints : List device_addr_t) (found : List device_addrs_t),
      (∀ r ∈ found, r.length = 1) → unresolved_hints hints found = [] := by
  intro hints
  induction hints with
  | nil => intro found _; cases found <;> rfl
  | cons hint_i rest ih =>
    intro found h
    cases found with
    | nil => rfl
    | cons r found1 =>
      have hr := h r (List.mem_cons_self _ _)
      obtain ⟨dev, rfl⟩ := List.length_eq_one.mp hr
      have hstep : unresolved_hints (hint_i :: rest) ([dev] :: found1) =
          unresolved_hints rest found1 := rfl
      rw [hstep]
      exact ih found1 (fun r1 hr1 => h r1 (List.mem_cons_of_mem _ hr1))

theorem unresolved_hints_ne_nil :
    ∀ (hints : List device_addr_t) (found : List device_addrs_t),
      found.length = hints.length → (∃ r ∈ found, r.length ≠ 1) →
      unresolved_hints hints found ≠ [] := by
  intro hints
  induction hints with
  | nil =>
    intro found hlen h
    obtain ⟨r, hr, _⟩ := h
    have : found = [] := List.length_eq_zero.mp hlen
    rw [this] at hr
    simp at hr
  | cons hint_i rest ih =>
    intro found hlen h
    cases found with
    | nil => simp at hlen
    | cons r found1 =>
      rcases r with _ | ⟨dev, _ | ⟨dev2, tl⟩⟩
      · simp [unresolved_hints]
      · have hstep : unresolved_hints (hint_i :: rest) ([dev] :: found1) =
            unresolved_hints rest found1 := rfl
        rw [hstep]
        apply ih found1 (by simpa using hlen)
        obtain ⟨r1, hr1, hne⟩ := h
        rcases List.mem_cons.mp hr1 with rfl | hr1
        · simp at hne
        · exact ⟨r1, hr1, hne⟩
      · simp [unresolved_hints]

/-- C19 as stated fails: in the sample network the hint with addr0 = 192.168.30.2
and addr1 = 192.168.30.3 separates into two sub-hints, each of which resolves to
zero devices, and x300_find returns the empty list without an error. -/
theorem x300_find_multi_none_found :
    sample_env.separate_device_addr [("addr0", "192.168.30.2"), ("addr1", "192.168.30.3")] =
      [[("addr", "192.168.30.2")], [("addr", "192.168.30.3")]] ∧
    x300_find sample_consts sample_env 1 0 [("addr", "192.168.30.2")] = some (Except.ok [], 1) ∧
    x300_find sample_consts sample_env 1 1 [("addr", "192.168.30.3")] = some (Except.ok [], 2) ∧
    x300_find sample_consts sample_env 2 0
      [("addr0", "192.168.30.2"), ("addr1", "192.168.30.3")] = some (Except.ok [], 2) := by
  refine ⟨rfl, rfl, rfl, rfl⟩

/-- C19, amended: for every hint that separates into two or more sub-hints, with
`found` the lists that the recursive calls return for the sub-hints in order: if
every sub-hint resolves to exactly one device, x300_find returns exactly one
address, the combination of those devices in sub-hint order; if no sub-hint
resolves to exactly one device, it returns the empty list without an error; if
some do and some do not, it fails with a value error; and an exception of a
recursive call is the exception of the whole call. -/
theorem x300_find_multi_device (k : x300_consts) (env : find_env) (fuel n : Nat)
    (hint_ : device_addr_t) (hmulti : 1 < (env.separate_device_addr hint_).length) :
    (∀ found n1,
      x300_find_each (x300_find k env fuel) n (env.separate_device_addr hint_) =
        some (Except.ok found, n1) →
      ((∀ r ∈ found, r.length = 1) →
        x300_find k env (fuel + 1) n hint_ =
          some (Except.ok [env.combine_device_addrs found.flatten], n1)) ∧
      ((∀ r ∈ found, r.length ≠ 1) →
        x300_find k env (fuel + 1) n hint_ = some (Except.ok [], n1)) ∧
      ((∃ r ∈ found, r.length = 1) → (∃ r ∈ found, r.length ≠ 1) →
        x300_find k env (fuel + 1) n hint_ = some (Except.error uhd_error.value_error, n1))) ∧
    (∀ e n1,
      x300_find_each (x300_find k env fuel) n (env.separate_device_addr hint_) =
        some (Except.error e, n1) →
      x300_find k env (fuel + 1) n hint_ = some (Except.error e, n1)) := by
  have hunf : x300_find k env (fuel + 1) n hint_ =
      match x300_find_each (x300_find k env fuel) n (env.separate_device_addr hint_) with
      | none => none
      | some (Except.error e, n1) => some (Except.error e, n1)
      | some (Except.ok found, n1) =>
        if (single_devices found).isEmpty then some (Except.ok [], n1)
        else if !(unresolved_hints (env.separate_device_addr hint_) found).isEmpty then
          some (Except.error uhd_error.value_error, n1)
        else some (Except.ok [env.combine_device_addrs (single_devices found)], n1) := by
    rw [x300_find]
    simp only [gt_iff_lt, hmulti, if_true, x300_find_multi_loop_eq, List.nil_append]
    cases x300_find_each (x300_find k env fuel) n (env.separate_device_addr hint_) with
    | none => rfl
    | some r =>
      obtain ⟨res, n1⟩ := r
      cases res <;> rfl
  refine ⟨?_, ?_⟩
  · intro found n1 heach
    have hlen := x300_find_each_length _ _ _ _ _ heach
    rw [hunf, heach]
    simp only
    refine ⟨?_, ?_, ?_⟩
    · intro hall
      have hne : single_devices found ≠ [] := by
        apply single_devices_ne_nil
        cases found with
        | nil => rw [← hlen] at hmulti; simp at hmulti
        | cons r rest => exact ⟨r, List.mem_cons_self _ _, hall r (List.mem_cons_self _ _)⟩
      rw [unresolved_hints_eq_nil _ _ hall, ← single_devices_of_all found hall]
      simp [hne]
    · intro hnone
      rw [single_devices_eq_nil found hnone]
      rfl
    · intro hsome hbad
      have h1 := single_devices_ne_nil found hsome
      have h2 := unresolved_hints_ne_nil _ _ hlen hbad
      simp [h1, h2]
  · intro e n1 heach
    rw [hunf, heach]

/-- Witness for C19: in the sample network the hint with addr0 = 192.168.10.2 and
addr1 = 192.168.10.3 resolves both sub-hints to one device each and the result
is the one combined address, the X310 first. -/
theorem x300_find_multi_device_witness :
    1 < (sample_env.separate_device_addr
      [("addr0", "192.168.10.2"), ("addr1", "192.168.10.3")]).length ∧
    x300_find sample_consts sample_env 2 0
      [("addr0", "192.168.10.2"), ("addr1", "192.168.10.3")] =
      some (Except.ok [sample_env.combine_device_addrs
        [[("type", "x300"), ("addr", "192.168.10.2"), ("fpga", "1G"), ("name", "lab"),
          ("serial", "30F1A"), ("product", "X310")],
         [("type", "x300"), ("addr", "192.168.10.3"), ("fpga", "1G"), ("name", "bench"),
          ("serial", "30F2B"), ("product", "X300")]]], 4) :=
  ⟨by decide,
   ((x300_find_multi_device sample_consts sample_env 1 0
      [("addr0", "192.168.10.2"), ("addr1", "192.168.10.3")] (by decide)).1
      [[[("type", "x300"), ("addr", "192.168.10.2"), ("fpga", "1G"), ("name", "lab"),
          ("serial", "30F1A"), ("product", "X310")]],
       [[("type", "x300"), ("addr", "192.168.10.3"), ("fpga", "1G"), ("name", "bench"),
          ("serial", "30F2B"), ("product", "X300")]]] 4 rfl).1 (by decide)⟩

/-- C20: x300_find raises errors on hints that have no resource key. In the sample
network with a failure after the first probe, the hint addr = 192.168.10.2 (no
resource key) gets a reply in the first pass and the second probe, which is not
inside a try block, throws: the I/O error leaves x300_find. The same error in the
first pass is absorbed and gives the empty list. On a host with a PCIe device
whose kernel proxy cannot be opened, the empty hint raises the I/O error of
make_and_open out of the enumeration. -/
theorem x300_find_raises_without_resource :
    has_key [("addr", "192.168.10.2")] "resource" = false ∧
    failing_env.separate_device_addr [("addr", "192.168.10.2")] = [[("addr", "192.168.10.2")]] ∧
    x300_find sample_consts failing_env 1 0 [("addr", "192.168.10.2")] =
      some (Except.error uhd_error.io_error, 2) ∧
    x300_find sample_consts down_env 1 0 [("addr", "192.168.10.2")] = some (Except.ok [], 1) ∧
    x300_find sample_consts pcie_env 1 0 [] = some (Except.error uhd_error.io_error, 1) := by
  refine ⟨rfl, rfl, rfl, rfl, rfl⟩

/-! ## Lock polls and the cached reference source -/

/-- One lock poll with its timing: besides the values read and the result, the last
value is the one the hardware returns at the time the poll ends, and a poll whose
last value is not 1 ends at or after `timeout_time`, after at least two reads when
the do-while loop was entered. -/
theorem wait_for_clk_locked_loop_timing (hw : hw_oracle) (which : clk_status_field)
    (timeout_time : Nat) :
    ∀ (passes : Nat) (mb : mboard_members_t), timeout_time ≤ mb.now + passes →
      ∃ vs now1, poll_values hw which vs ∧
        wait_for_clk_locked_loop hw which timeout_time passes mb =
          (decide (vs.getLast? = some 1),
            { mb with now := now1, trace := mb.trace ++ status_reads which vs }) ∧
        vs.getLast? = some (hw.clock_status which now1) ∧ mb.now ≤ now1 ∧
        (vs.getLast? ≠ some 1 → timeout_time ≤ now1 ∧ (0 < passes → 2 ≤ vs.length)) := by
  intro passes
  induction passes with
  | zero =>
    intro mb hle
    refine ⟨[hw.clock_status which mb.now], mb.now, ⟨by simp, by simp, ?_⟩, ?_, by simp,
      Nat.le_refl _, ?_⟩
    · intro v hv
      exact ⟨mb.now, List.mem_singleton.mp hv⟩
    · simp [wait_for_clk_locked_loop, clock_status_reg_read, status_reads, beq_one_eq_decide]
    · intro _
      exact ⟨by omega, fun h => absurd h (by omega)⟩
  | succ n ih =>
    intro mb hle
    unfold wait_for_clk_locked_loop
    simp only
    by_cases h1 : (clock_status_reg_read hw mb which).1 = 1
    · simp only [h1, if_true]
      have h2 : hw.clock_status which mb.now = 1 := h1
      refine ⟨[hw.clock_status which mb.now], mb.now, ⟨by simp, by simp, ?_⟩, ?_, by simp,
        Nat.le_refl _, ?_⟩
      · intro v hv
        exact ⟨mb.now, List.mem_singleton.mp hv⟩
      · simp [clock_status_reg_read, status_reads, h2]
      · intro hne
        simp [h2] at hne
    · simp only [h1, if_false]
      have h2 : hw.clock_status which mb.now ≠ 1 := h1
      have hnow : (sleep_1ms hw (clock_status_reg_read hw mb which).2).now =
          mb.now + 1 + hw.sleep_overrun mb.now := rfl
      by_cases h3 : (sleep_1ms hw (clock_status_reg_read hw mb which).2).now < timeout_time
      · simp only [h3, if_true]
        obtain ⟨vs, now1, ⟨hne, hdrop, horacle⟩, heq, hlast, hmono, hfalse⟩ :=
          ih (sleep_1ms hw (clock_status_reg_read hw mb which).2) (by rw [hnow]; omega)
        have hl : (hw.clock_status which mb.now :: vs).getLast? = vs.getLast? := by
          cases vs with
          | nil => exact absurd rfl hne
          | cons a as => simp [List.getLast?_cons_cons]
        refine ⟨hw.clock_status which mb.now :: vs, now1, ⟨by simp, ?_, ?_⟩, ?_, ?_, ?_, ?_⟩
        · intro v hv
          rw [List.dropLast_cons_of_ne_nil hne] at hv
          rcases List.mem_cons.mp hv with rfl | hv
          · exact h2
          · exact hdrop v hv
        · intro v hv
          rcases List.mem_cons.mp hv with rfl | hv
          · exact ⟨mb.now, rfl⟩
          · exact horacle v hv
        · rw [heq, hl]
          simp [sleep_1ms, clock_status_reg_read, status_reads]
        · rw [hl]; exact hlast
        · rw [hnow] at hmono; omega
        · rw [hl]
          intro hn1
          refine ⟨(hfalse hn1).1, fun _ => ?_⟩
          have : 0 < vs.length := List.length_pos.mpr hne
          simp only [List.length_cons]
          omega
      · simp only [h3, if_false]
        refine ⟨[hw.clock_status which mb.now, hw.clock_status which
          (sleep_1ms hw (clock_status_reg_read hw mb which).2).now],
          (sleep_1ms hw (clock_status_reg_read hw mb which).2).now, ⟨by simp, ?_, ?_⟩, ?_,
          by simp, by rw [hnow]; omega, ?_⟩
        · intro v hv
          simp only [List.dropLast_cons₂, List.dropLast_single, List.mem_singleton] at hv
          rw [hv]; exact h2
        · intro v hv
          simp only [List.mem_cons, List.mem_singleton, List.not_mem_nil, or_false] at hv
          rcases hv with rfl | rfl
          · exact ⟨_, rfl⟩
          · exact ⟨_, rfl⟩
        · simp [sleep_1ms, clock_status_reg_read, status_reads, beq_one_eq_decide]
        · intro _
          exact ⟨by omega, fun _ => by simp⟩

/-- C25: wait_for_clk_locked reads the status bit a number of times, every value
being the one the hardware holds at the time of the read; no read but the last
returns 1, so it stops reading as soon as one read returns 1; it returns true
exactly when the last value read is 1; and when it returns false it has made at
least two reads, the last of them at a time at or after the start time plus the
timeout. -/
theorem wait_for_clk_locked_result (hw : hw_oracle) (mb : mboard_members_t)
    (which : clk_status_field) (timeout_ms : Nat) :
    ∃ vs, poll_values hw which vs ∧
      (wait_for_clk_locked hw mb which timeout_ms).2.trace = mb.trace ++ status_reads which vs ∧
      ((wait_for_clk_locked hw mb which timeout_ms).1 = true ↔ vs.getLast? = some 1) ∧
      vs.getLast? =
        some (hw.clock_status which (wait_for_clk_locked hw mb which timeout_ms).2.now) ∧
      ((wait_for_clk_locked hw mb which timeout_ms).1 = false →
        2 ≤ vs.length ∧
        mb.now + timeout_ms ≤ (wait_for_clk_locked hw mb which timeout_ms).2.now) := by
  obtain ⟨vs, now1, hp, heq, hlast, -, hfalse⟩ :=
    wait_for_clk_locked_loop_timing hw which (mb.now + timeout_ms) (timeout_ms + 1) mb
      (by omega)
  have heq1 : wait_for_clk_locked hw mb which timeout_ms =
      (decide (vs.getLast? = some 1),
        { mb with now := now1, trace := mb.trace ++ status_reads which vs }) := heq
  refine ⟨vs, hp, by rw [heq1], by rw [heq1]; simp, by rw [heq1]; exact hlast, ?_⟩
  rw [heq1]
  intro hres
  have hne : vs.getLast? ≠ some 1 := by simpa using hres
  exact ⟨(hfalse hne).2 (by omega), (hfalse hne).1⟩

/-- C30: whatever the hardware does, when update_clock_source throws, the cached
reference source is the one cached before the call, and when it returns normally
the cached source is the requested one. A call that reconfigures and throws a
runtime error (a lock poll failed) has by then written the clock control
register with the requested source selected, which the soft copy keeps, and reset
the synthesizer. -/
theorem update_clock_source_cache_rule (k : x300_consts) (hw : hw_oracle)
    (mb : mboard_members_t) (source : String) :
    (∀ e, (update_clock_source k hw mb source).1 = Except.error e →
      (update_clock_source k hw mb source).2.current_refclk_src = mb.current_refclk_src) ∧
    ((update_clock_source k hw mb source).1 = Except.ok () →
      (update_clock_source k hw mb source).2.current_refclk_src = source) ∧
    (¬ (mb.current_refclk_src = "internal" ∧ source = "internal") →
      (update_clock_source k hw mb source).1 = Except.error uhd_error.runtime_error →
      (update_clock_source k hw mb source).2.clock_ctrl_reg =
        clock_mux_setting mb.clock_ctrl_reg source ∧
      (mb.trace ++ [hw_event.clock_ctrl_reg_flush (clock_mux_setting mb.clock_ctrl_reg source),
        hw_event.reset_clocks]) <+: (update_clock_source k hw mb source).2.trace) := by
  by_cases hvalid : source = "internal" ∨ source = "external" ∨ source = "gpsdo"
  · by_cases hrc : mb.current_refclk_src = "internal" ∧ source = "internal"
    · obtain ⟨hcur, hsrc⟩ := hrc
      subst hsrc
      obtain ⟨lmk, now1, -, href⟩ := update_clock_source_ref_lock_spec hw mb
      rw [update_clock_source_skip_eq k hw mb hcur, href]
      by_cases hc : 4 < mb.hw_rev ∧ lmk.getLast? ≠ some 1 ∧ mb.initialization_done = true
      · rw [if_pos hc]
        refine ⟨fun _ _ => rfl, fun h => ?_, fun h => absurd ⟨hcur, rfl⟩ h⟩
        simp at h
      · rw [if_neg hc]
        refine ⟨fun e he => ?_, fun _ => rfl, fun h => absurd ⟨hcur, rfl⟩ h⟩
        simp at he
    · obtain ⟨lmk, radio, idelay, now1, -, hcases⟩ :=
        update_clock_source_reconfigure_spec k hw mb source hvalid hrc
      rcases hcases with ⟨-, heq⟩ | ⟨-, -, ⟨-, heq⟩ | ⟨-, -, ⟨-, heq⟩ | ⟨-, heq⟩⟩⟩
      · rw [heq]
        refine ⟨fun _ _ => rfl, fun hok => ?_, fun _ _ => ⟨rfl, List.prefix_append _ _⟩⟩
        simp at hok
      · rw [heq]
        refine ⟨fun _ _ => rfl, fun hok => ?_, fun _ _ => ⟨rfl, ?_⟩⟩
        · simp at hok
        · exact ((List.prefix_append _ _).trans (List.prefix_append _ _)).trans
            (List.prefix_append _ _)
      · rw [heq]
        refine ⟨fun _ _ => rfl, fun hok => ?_, fun _ _ => ⟨rfl, ?_⟩⟩
        · simp at hok
        · exact ((((List.prefix_append _ _).trans (List.prefix_append _ _)).trans
            (List.prefix_append _ _)).trans (List.prefix_append _ _)).trans
            (List.prefix_append _ _)
      · rw [heq]
        refine ⟨fun e he => ?_, fun _ => rfl, fun _ herr => ?_⟩
        · simp at he
        · simp at herr
  · have hne : source ≠ "internal" ∧ source ≠ "external" ∧ source ≠ "gpsdo" :=
      ⟨fun h => hvalid (Or.inl h), fun h => hvalid (Or.inr (Or.inl h)),
        fun h => hvalid (Or.inr (Or.inr h))⟩
    rw [update_clock_source_unknown k hw mb source hne]
    refine ⟨fun _ _ => rfl, fun h => ?_, fun _ h => ?_⟩
    · simp at h
    · simp at h

/-! ## Replies that end a discovery probe -/

theorem lookup_map_set_ne (k v key : String) (h : key ≠ k) :
    ∀ d : device_addr_t,
      List.lookup key (d.map (fun p => if p.1 == k then (p.1, v) else p)) = List.lookup key d := by
  intro d
  induction d with
  | nil => rfl
  | cons p rest ih =>
    obtain ⟨a, b⟩ := p
    rw [List.map_cons]
    by_cases hk : (a == k) = true
    · have hak : a = k := by simpa using hk
      have hne : (key == a) = false := by rw [hak]; simpa using h
      rw [if_pos hk, List.lookup_cons, List.lookup_cons]
      simp only [hne]
      exact ih
    · rw [if_neg hk, List.lookup_cons, List.lookup_cons, ih]

theorem lookup_map_set_self (k v : String) :
    ∀ d : device_addr_t, has_key d k = true →
      List.lookup k (d.map (fun p => if p.1 == k then (p.1, v) else p)) = some v := by
  intro d
  induction d with
  | nil => intro h; simp [has_key] at h
  | cons p rest ih =>
    intro hhas
    obtain ⟨a, b⟩ := p
    rw [List.map_cons]
    by_cases hk : (a == k) = true
    · have hak : a = k := by simpa using hk
      have heq : (k == a) = true := by rw [hak]; simp
      rw [if_pos hk, List.lookup_cons]
      simp only [heq]
    · have hne : (k == a) = false := by
        simpa using fun h : k = a => hk (by simp [h])
      have hrest : has_key rest k = true := by
        have hak : (a == k) = false := by simpa using hk
        simpa [has_key, hak] using hhas
      rw [if_neg hk, List.lookup_cons]
      simp only [hne]
      exact ih hrest

theorem lookup_eq_none_of_not_has_key (k : String) :
    ∀ d : device_addr_t, ¬ (has_key d k = true) → List.lookup k d = none := by
  intro d
  induction d with
  | nil => intro _; rfl
  | cons p rest ih =>
    intro hhas
    obtain ⟨a, b⟩ := p
    have hak : ¬ (a = k) := by
      intro h; apply hhas; simp [has_key, h]
    have hne : (k == a) = false := by simpa using fun h : k = a => hak h.symm
    rw [List.lookup_cons]
    simp only [hne]
    apply ih
    intro h
    apply hhas
    simp only [has_key, List.any_cons, Bool.or_eq_true]
    exact Or.inr h

theorem dict_get_set_ne (d : device_addr_t) (k v key : String) (h : key ≠ k) :
    dict_get (dict_set d k v) key = dict_get d key := by
  unfold dict_set dict_get
  split
  · rw [lookup_map_set_ne k v key h d]
  · rw [List.lookup_append]
    have hne : (key == k) = false := by simpa using h
    cases hl : List.lookup key d <;> simp [List.lookup, hne]

theorem dict_get_set_self (d : device_addr_t) (k v : String) :
    dict_get (dict_set d k v) k = v := by
  unfold dict_set dict_get
  split
  · rename_i hhas
    rw [lookup_map_set_self k v d hhas]
    rfl
  · rename_i hhas
    rw [List.lookup_append, lookup_eq_none_of_not_has_key k d hhas]
    simp [List.lookup]

theorem enrich_catch_addr (a : device_addr_t) :
    dict_get (enrich_catch a) "addr" = dict_get a "addr" := by
  unfold enrich_catch
  rw [dict_get_set_ne _ _ _ _ (by decide), dict_get_set_ne _ _ _ _ (by decide)]

/-- The enrichment of a candidate leaves its address entry as it is. -/
theorem enrich_enet_addr (k : x300_consts) (env : find_env) (s : zpu_session)
    (new_addr a : device_addr_t) (h : enrich_enet k env s new_addr = some a) :
    dict_get a "addr" = dict_get new_addr "addr" := by
  have h1 : ∀ (d : device_addr_t) (v : String),
      dict_get (dict_set d "fpga" v) "addr" = dict_get d "addr" :=
    fun d v => dict_get_set_ne d _ v _ (by decide)
  have h2 : ∀ (d : device_addr_t) (v : String),
      dict_get (dict_set d "name" v) "addr" = dict_get d "addr" :=
    fun d v => dict_get_set_ne d _ v _ (by decide)
  have h3 : ∀ (d : device_addr_t) (v : String),
      dict_get (dict_set d "serial" v) "addr" = dict_get d "addr" :=
    fun d v => dict_get_set_ne d _ v _ (by decide)
  have h4 : ∀ (d : device_addr_t) (v : String),
      dict_get (dict_set d "product" v) "addr" = dict_get d "addr" :=
    fun d v => dict_get_set_ne d _ v _ (by decide)
  unfold enrich_enet at h
  repeat' split at h
  all_goals first
    | (exfalso; simp at h; done)
    | (simp only [Option.some.injEq] at h
       rw [← h]
       simp only [enrich_catch_addr, h1, h2, h3, h4])

theorem reply_accepted_iff (k : x300_consts) (sequence : Nat) (reply : fw_comms_reply) :
    reply_accepted k sequence reply = true ↔
      reply.nbytes ≠ 0 ∧ k.X300_FW_COMMS_FLAGS_ACK % 2 ^ 32 = reply.flags ∧
        sequence = reply.sequence := by
  unfold reply_accepted
  simp only [Bool.and_eq_true, decide_eq_true_eq, and_assoc]

/-- The reply loop only looks at the datagrams before the first one that is not
accepted, and every address it adds is the sender of one of them. -/
theorem x300_find_with_addr_loop_accepted (k : x300_consts) (env : find_env)
    (hint : device_addr_t) (sequence : Nat) :
    ∀ (replies : List fw_comms_reply) (addrs : device_addrs_t),
      x300_find_with_addr_loop k env hint sequence replies addrs =
        x300_find_with_addr_loop k env hint sequence
          (replies.takeWhile (reply_accepted k sequence)) addrs ∧
      ∀ a ∈ x300_find_with_addr_loop k env hint sequence replies addrs,
        a ∈ addrs ∨ ∃ r ∈ replies.takeWhile (reply_accepted k sequence),
          dict_get a "addr" = r.recv_addr := by
  intro replies
  induction replies with
  | nil => intro addrs; exact ⟨rfl, fun a ha => Or.inl (by simpa [x300_find_with_addr_loop] using ha)⟩
  | cons reply rest ih =>
    intro addrs
    by_cases hacc : reply_accepted k sequence reply = true
    · have hparts : reply.nbytes ≠ 0 ∧ k.X300_FW_COMMS_FLAGS_ACK % 2 ^ 32 = reply.flags ∧
          sequence = reply.sequence := by
        simpa [reply_accepted, and_assoc] using hacc
      obtain ⟨hn, hf, hs⟩ := hparts
      rw [List.takeWhile_cons_of_pos hacc]
      have hstep : ∀ rs : List fw_comms_reply,
          x300_find_with_addr_loop k env hint sequence (reply :: rs) addrs =
            match enrich_enet k env reply.session
              (dict_set (dict_set [] "type" "x300") "addr" reply.recv_addr) with
            | none => x300_find_with_addr_loop k env hint sequence rs addrs
            | some new_addr =>
              if (filter_enet hint new_addr).1 = true then
                x300_find_with_addr_loop k env hint sequence rs
                  (addrs ++ [(filter_enet hint new_addr).2])
              else x300_find_with_addr_loop k env hint sequence rs addrs := by
        intro rs
        rw [x300_find_with_addr_loop]
        simp only [hn, if_false, hf, hs, ne_eq, not_true_eq_false]
      rw [hstep rest, hstep (rest.takeWhile (reply_accepted k sequence))]
      cases henr : enrich_enet k env reply.session
          (dict_set (dict_set [] "type" "x300") "addr" reply.recv_addr) with
      | none =>
        simp only
        refine ⟨(ih addrs).1, fun a ha => ?_⟩
        rcases (ih addrs).2 a ha with h | ⟨r, hr, hra⟩
        · exact Or.inl h
        · exact Or.inr ⟨r, List.mem_cons_of_mem _ hr, hra⟩
      | some new_addr =>
        simp only
        by_cases hpass : (filter_enet hint new_addr).1 = true
        · simp only [hpass, if_true]
          refine ⟨(ih _).1, fun a ha => ?_⟩
          rcases (ih _).2 a ha with h | ⟨r, hr, hra⟩
          · rcases List.mem_append.mp h with h | h
            · exact Or.inl h
            · refine Or.inr ⟨reply, List.mem_cons_self _ _, ?_⟩
              rw [List.mem_singleton.mp h]
              have hg : dict_get (filter_enet hint new_addr).2 "addr" = dict_get new_addr "addr" := by
                unfold filter_enet
                simp only
                split
                · exact (filter_key_spec hint new_addr "name").1 _
                · split
                  · rw [(filter_key_spec hint _ "serial").1, (filter_key_spec hint _ "name").1]
                  · rw [(filter_key_spec hint _ "product").1, (filter_key_spec hint _ "serial").1,
                      (filter_key_spec hint _ "name").1]
              rw [hg, enrich_enet_addr k env _ _ _ henr, dict_get_set_self]
          · exact Or.inr ⟨r, List.mem_cons_of_mem _ hr, hra⟩
        · simp only [hpass, if_false]
          refine ⟨(ih addrs).1, fun a ha => ?_⟩
          rcases (ih addrs).2 a ha with h | ⟨r, hr, hra⟩
          · exact Or.inl h
          · exact Or.inr ⟨r, List.mem_cons_of_mem _ hr, hra⟩
    · rw [List.takeWhile_cons_of_neg hacc]
      have hstop : x300_find_with_addr_loop k env hint sequence (reply :: rest) addrs = addrs := by
        rw [x300_find_with_addr_loop]
        by_cases hn : reply.nbytes = 0
        · rw [if_pos hn]
        · by_cases hf : k.X300_FW_COMMS_FLAGS_ACK % 2 ^ 32 = reply.flags
          · by_cases hs : sequence = reply.sequence
            · exact absurd ((reply_accepted_iff k sequence reply).mpr ⟨hn, hf, hs⟩) hacc
            · rw [if_neg hn, if_neg (not_not.mpr hf), if_pos hs]
          · rw [if_neg hn, if_pos hf]
      rw [hstop]
      exact ⟨by simp [x300_find_with_addr_loop], fun a ha => Or.inl ha⟩

/-- C29: a call of x300_find_with_addr whose socket is made and whose request is
sent returns what its reply loop makes of the datagrams before the first one that
is empty (a timeout) or differs from the request in its flags or its sequence
word: that datagram and every datagram after it, a valid reply included, adds
nothing, and every address returned is the sender of one of the datagrams before
it. -/
theorem x300_find_with_addr_stops_at_mismatch (k : x300_consts) (env : find_env) (n : Nat)
    (hint : device_addr_t) (addr : String) (haddr : dict_at hint "addr" = Except.ok addr)
    (hsent : (env.udp n addr).failure = none) :
    (x300_find_with_addr k env n hint).1 =
      Except.ok (x300_find_with_addr_loop k env hint ((env.udp n addr).rand % 2 ^ 32)
        ((env.udp n addr).replies.takeWhile
          (reply_accepted k ((env.udp n addr).rand % 2 ^ 32))) []) ∧
    (∀ a ∈ x300_find_with_addr_loop k env hint ((env.udp n addr).rand % 2 ^ 32)
        ((env.udp n addr).replies.takeWhile
          (reply_accepted k ((env.udp n addr).rand % 2 ^ 32))) [],
      ∃ r ∈ (env.udp n addr).replies.takeWhile
          (reply_accepted k ((env.udp n addr).rand % 2 ^ 32)),
        dict_get a "addr" = r.recv_addr) ∧
    (∀ r ∈ (env.udp n addr).replies.takeWhile
        (reply_accepted k ((env.udp n addr).rand % 2 ^ 32)),
      r.nbytes ≠ 0 ∧ k.X300_FW_COMMS_FLAGS_ACK % 2 ^ 32 = r.flags ∧
        (env.udp n addr).rand % 2 ^ 32 = r.sequence) := by
  have hloop := x300_find_with_addr_loop_accepted k env hint ((env.udp n addr).rand % 2 ^ 32)
    (env.udp n addr).replies []
  refine ⟨?_, ?_, ?_⟩
  · unfold x300_find_with_addr
    simp only [haddr, hsent]
    rw [← hloop.1]
  · intro a ha
    rw [← hloop.1] at ha
    rcases hloop.2 a ha with h | h
    · simp at h
    · exact h
  · intro r hr
    exact (reply_accepted_iff k _ r).mp (List.mem_takeWhile_imp hr)

/-- Witness for C29: on the broadcast search of the network with the stray
datagram, the X310 that answers first is returned and the X300 whose valid reply
comes after the datagram with the wrong sequence word is not. -/
theorem x300_find_with_addr_stops_at_mismatch_witness :
    (stray_env.udp 0 "192.168.10.255").replies.map (fun r => (r.recv_addr, r.sequence)) =
      [("192.168.10.2", 0), ("192.168.10.9", 77), ("192.168.10.3", 0)] ∧
    (x300_find_with_addr sample_consts stray_env 0 [("addr", "192.168.10.255")]).1 =
      Except.ok [[("type", "x300"), ("addr", "192.168.10.2"), ("fpga", "1G"), ("name", "lab"),
        ("serial", "30F1A"), ("product", "X310")]] ∧
    (x300_find_with_addr sample_consts stray_env 0 [("addr", "192.168.10.255")]).1 =
      Except.ok (x300_find_with_addr_loop sample_consts stray_env [("addr", "192.168.10.255")]
        ((stray_env.udp 0 "192.168.10.255").rand % 2 ^ 32)
        ((stray_env.udp 0 "192.168.10.255").replies.takeWhile
          (reply_accepted sample_consts ((stray_env.udp 0 "192.168.10.255").rand % 2 ^ 32))) []) :=
  ⟨rfl, rfl,
    (x300_find_with_addr_stops_at_mismatch sample_consts stray_env 0
      [("addr", "192.168.10.255")] "192.168.10.255" rfl rfl).1⟩

/-! ## Frame size detection: termination, ceilings, failures -/

/-- Against a threshold peer a send probe of at most the threshold is reported
back with its own size. -/
theorem send_probe_threshold_peer (k : x300_consts) (T bufsize n s : Nat)
    (h8 : sizeof_x300_mtu_t ≤ T) (hbuf : T ≤ bufsize) (hs : s ≤ T) :
    send_probe k (threshold_peer k T) bufsize n s = s := by
  unfold sizeof_x300_mtu_t at h8
  have h1 : min s bufsize = s := Nat.min_eq_left (by omega)
  have h2 : min 8 bufsize = 8 := Nat.min_eq_left (by omega)
  have hc : s ≤ T ∧ 8 ≤ T := ⟨hs, h8⟩
  simp [send_probe, threshold_peer, udp_recv, sizeof_x300_mtu_t, h1, h2, hc]

/-- The send loop never exits against a threshold peer when the user ceiling is 1
modulo 4 and the threshold is the ceiling or one less. -/
theorem send_search_stuck (k : x300_consts) (bufsize C T : Nat)
    (h8 : sizeof_x300_mtu_t ≤ T) (hbuf : T ≤ bufsize) (hC : C % 4 = 1) (hT : C ≤ T + 1) :
    ∀ (fuel n mn : Nat), mn % 4 = 0 → mn < C →
      send_search k (threshold_peer k T) bufsize fuel n mn C = none := by
  intro fuel
  induction fuel with
  | zero => intro n mn _ _; rfl
  | succ fuel ih =>
    intro n mn hmn hlt
    rw [send_search_succ]
    have htest : test_frame_size mn C ≤ T := by unfold test_frame_size; omega
    have hprobe := send_probe_threshold_peer k T bufsize n (test_frame_size mn C) h8 hbuf htest
    simp only [hlt, if_true, hprobe, ge_iff_le, le_refl]
    apply ih
    · unfold test_frame_size; omega
    · unfold test_frame_size; omega

/-- C23: the search loops of determine_max_frame_size do not terminate for every
ceiling and peer, and do not always end with low == high. With a receive ceiling
of 8001 on a path that carries 8000 bytes the receive loop is still running after
any number of passes. With ceilings 8000 and 1473 on a path that carries 1472
bytes the receive loop ends with 1472 and the send loop is still running after any
number of passes, so the call never returns. And with a ceiling of 9 against a
peer that answers nothing but the test holler both loops end after one pass with
low = 8 and high = 4. -/
theorem frame_size_searches_hang (fuel : Nat) :
    recv_search sample_consts (threshold_peer sample_consts 8000) 8001 fuel 1
      sizeof_x300_mtu_t 8001 = none ∧
    recv_search sample_consts (threshold_peer sample_consts 1472) 8000 16 1
      sizeof_x300_mtu_t 8000 = some (12, 1472, 1472) ∧
    send_search sample_consts (threshold_peer sample_consts 1472) 8000 fuel 12
      sizeof_x300_mtu_t 1473 = none ∧
    determine_max_frame_size sample_consts (threshold_peer sample_consts 1472) fuel
      ⟨8000, 1473⟩ = none ∧
    recv_search sample_consts (holler_only_peer sample_consts) 9 2 1 sizeof_x300_mtu_t 9 =
      some (2, 8, 4) ∧
    send_search sample_consts (holler_only_peer sample_consts) 9 2 1 sizeof_x300_mtu_t 9 =
      some (2, 8, 4) := by
  have hsend : ∀ n, send_search sample_consts (threshold_peer sample_consts 1472) 8000 fuel n
      sizeof_x300_mtu_t 1473 = none := fun n =>
    send_search_stuck sample_consts 8000 1473 1472 (by decide) (by decide) (by decide)
      (by decide) fuel n sizeof_x300_mtu_t (by decide) (by decide)
  have hrecv16 : recv_search sample_consts (threshold_peer sample_consts 1472) 8000 16 1
      sizeof_x300_mtu_t 8000 = some (12, 1472, 1472) := rfl
  refine ⟨?_, hrecv16, hsend 12, ?_, rfl, rfl⟩
  · exact recv_search_stuck sample_consts (threshold_peer sample_consts 8000) 8001 8001 8000
      (threshold_peer_echo_threshold sample_consts 8000 (by decide)) (by decide) (by decide)
      (by decide) fuel 1 sizeof_x300_mtu_t (by decide) (by decide)
  · have hh : (test_holler sample_consts (threshold_peer sample_consts 1472)
        (max 8000 1473)).flags &&& sample_consts.X300_MTU_DETECT_ECHO_REPLY ≠ 0 := by decide
    cases hr : recv_search sample_consts (threshold_peer sample_consts 1472) (max 8000 1473) fuel 1
        sizeof_x300_mtu_t 8000 with
    | none =>
      exact determine_max_frame_size_recv_none sample_consts _ fuel ⟨8000, 1473⟩ hh hr
    | some r =>
      have h1 := recv_search_mono sample_consts _ _ fuel 1 _ _ r hr (max fuel 16)
        (Nat.le_max_left _ _)
      have h2 := recv_search_mono sample_consts _ _ 16 1 _ _ _ hrecv16 (max fuel 16)
        (Nat.le_max_right _ _)
      have hmax : max 8000 1473 = 8000 := by decide
      rw [hmax] at h1 hr
      rw [h2] at h1
      simp only [Option.some.injEq] at h1
      subst h1
      unfold determine_max_frame_size
      simp only [hmax]
      rw [hmax] at hh
      simp only [hh, if_false, hr, hsend 12]
      have hmin : ¬ (1472 < min_frame_size sample_consts) := by decide
      simp only [hmin, if_false]

/-- C27: the sizes found can exceed the ceilings of the user. On a path that
carries 1472 bytes, with a receive ceiling of 1002 and a send ceiling of 8000, the
receive search probes 1004 from the window [1000, 1002], the reply fits the
buffer of 8000 bytes, and the search ends with 1004; the call returns 1004 for
both directions, above the receive ceiling. With the ceilings exchanged the send
search ends with 1004 and the call returns 1004, above the send ceiling. -/
theorem determine_max_frame_size_exceeds_ceiling :
    test_frame_size 1000 1002 = 1004 ∧
    recv_search sample_consts (threshold_peer sample_consts 1472) (max 1002 8000) 40 1
      sizeof_x300_mtu_t 1002 = some (9, 1004, 1002) ∧
    determine_max_frame_size sample_consts (threshold_peer sample_consts 1472) 40 ⟨1002, 8000⟩ =
      some (Except.ok ⟨1004, 1004⟩) ∧
    send_search sample_consts (threshold_peer sample_consts 1472) (max 8000 1002) 40 12
      sizeof_x300_mtu_t 1002 = some (20, 1004, 1002) ∧
    determine_max_frame_size sample_consts (threshold_peer sample_consts 1472) 40 ⟨8000, 1002⟩ =
      some (Except.ok ⟨1004, 1004⟩) := by
  refine ⟨rfl, rfl, rfl, rfl, rfl⟩

/-- C24: when the flags in the buffer after the test holler lack the echo-reply
bit, determine_max_frame_size throws the not-implemented error, whatever the
number of loop passes allowed, and the test holler is the only datagram it has
sent. The flags lack the bit in particular when fewer than four bytes arrive
(nothing at all when the receive times out), since the buffer then still holds
the flags of the request, provided the request bit and the reply bit are
different bits. -/
theorem determine_max_frame_size_no_echo (k : x300_consts) (peer : mtu_peer) (fuel : Nat)
    (user : frame_size_t)
    (h : (test_holler k peer (max user.recv_frame_size user.send_frame_size)).flags &&&
      k.X300_MTU_DETECT_ECHO_REPLY = 0) :
    determine_max_frame_size k peer fuel user =
      some (Except.error uhd_error.not_implemented_error) ∧
    determine_max_frame_size_sent k peer fuel user = some 1 ∧
    ∀ (peer1 : mtu_peer) (bufsize : Nat),
      k.X300_MTU_DETECT_ECHO_REQUEST &&& k.X300_MTU_DETECT_ECHO_REPLY = 0 →
      (peer1 0 ⟨⟨k.X300_MTU_DETECT_ECHO_REQUEST, sizeof_x300_mtu_t⟩,
        min sizeof_x300_mtu_t bufsize⟩).len < 4 →
      (test_holler k peer1 bufsize).flags &&& k.X300_MTU_DETECT_ECHO_REPLY = 0 := by
  refine ⟨?_, ?_, ?_⟩
  · unfold determine_max_frame_size
    simp only [h, if_true]
  · unfold determine_max_frame_size_sent
    simp only [h, if_true]
  · intro peer1 bufsize hbits hlen
    have hlt : ¬ (4 ≤ min (peer1 0 ⟨⟨k.X300_MTU_DETECT_ECHO_REQUEST, sizeof_x300_mtu_t⟩,
        min sizeof_x300_mtu_t bufsize⟩).len bufsize) := by
      have := Nat.min_le_left (peer1 0 ⟨⟨k.X300_MTU_DETECT_ECHO_REQUEST, sizeof_x300_mtu_t⟩,
        min sizeof_x300_mtu_t bufsize⟩).len bufsize
      omega
    simp only [test_holler, udp_recv, hlt, if_false]
    exact hbits

/-- Witness for C24: a peer that never answers, with ceilings of 8000 bytes. -/
theorem determine_max_frame_size_no_echo_witness :
    determine_max_frame_size sample_consts silent_peer 40 ⟨8000, 8000⟩ =
      some (Except.error uhd_error.not_implemented_error) ∧
    determine_max_frame_size_sent sample_consts silent_peer 40 ⟨8000, 8000⟩ = some 1 ∧
    determine_max_frame_size_sent sample_consts (threshold_peer sample_consts 1472) 40
      ⟨8000, 8000⟩ = some 23 :=
  ⟨(determine_max_frame_size_no_echo sample_consts silent_peer 40 ⟨8000, 8000⟩
      (by decide)).1,
   (determine_max_frame_size_no_echo sample_consts silent_peer 40 ⟨8000, 8000⟩
      (by decide)).2.1, rfl⟩

/-- C21 as stated fails: a failure of the MTU probing is not fatal to the open.
Against a peer that never answers determine_max_frame_size throws the
not-implemented error, and on a path that carries 500 bytes it throws the runtime
error of a size below the protocol minimum; in both cases the frame size part of
setup_mb ends normally and `_max_frame_sizes` is what it was before, here 0 and
0. -/
theorem setup_mb_absorbs_probe_failure :
    determine_max_frame_size sample_consts silent_peer 40 ⟨8000, 8000⟩ =
      some (Except.error uhd_error.not_implemented_error) ∧
    setup_mb_max_frame_sizes sample_consts (fun _ => none) silent_peer 40 [] [] ⟨0, 0⟩ =
      some (Except.ok ⟨0, 0⟩) ∧
    determine_max_frame_size sample_consts (threshold_peer sample_consts 500) 40 ⟨8000, 8000⟩ =
      some (Except.error uhd_error.runtime_error) ∧
    setup_mb_max_frame_sizes sample_consts (fun _ => none) (threshold_peer sample_consts 500) 40
      [] [] ⟨0, 0⟩ = some (Except.ok ⟨0, 0⟩) := by
  refine ⟨rfl, rfl, rfl, rfl⟩

/-- C21, amended: if MTU probing fails while an Ethernet device is being opened
(determine_max_frame_size throws, for a peer without MTU-probe support or for a
size below the protocol minimum), the frame size part of setup_mb does not raise:
it ends normally with `_max_frame_sizes` unchanged, the value held before
probing. When probing succeeds `_max_frame_sizes` is the probed pair. The only
exception that leaves this part of setup_mb is the bad cast of a frame size
argument that is not a number. -/
theorem setup_mb_max_frame_sizes_spec (k : x300_consts) (lexical_cast : String → Option Nat)
    (peer : mtu_peer) (fuel : Nat) (recv_args send_args : device_addr_t)
    (_max_frame_sizes : frame_size_t) (recv_frame_size send_frame_size : Nat)
    (hrecv : req_frame_size k lexical_cast recv_args "recv_frame_size" =
      Except.ok recv_frame_size)
    (hsend : req_frame_size k lexical_cast send_args "send_frame_size" =
      Except.ok send_frame_size) :
    (∀ e, determine_max_frame_size k peer fuel ⟨recv_frame_size, send_frame_size⟩ =
        some (Except.error e) →
      setup_mb_max_frame_sizes k lexical_cast peer fuel recv_args send_args _max_frame_sizes =
        some (Except.ok _max_frame_sizes)) ∧
    (∀ frame_size, determine_max_frame_size k peer fuel ⟨recv_frame_size, send_frame_size⟩ =
        some (Except.ok frame_size) →
      setup_mb_max_frame_sizes k lexical_cast peer fuel recv_args send_args _max_frame_sizes =
        some (Except.ok frame_size)) ∧
    (∀ (recv_args1 send_args1 : device_addr_t) (e : uhd_error),
      setup_mb_max_frame_sizes k lexical_cast peer fuel recv_args1 send_args1 _max_frame_sizes =
        some (Except.error e) → e = uhd_error.bad_lexical_cast) := by
  refine ⟨?_, ?_, ?_⟩
  · intro e he
    unfold setup_mb_max_frame_sizes
    simp only [hrecv, hsend, he]
  · intro fs hfs
    unfold setup_mb_max_frame_sizes
    simp only [hrecv, hsend, hfs]
  · intro recv_args1 send_args1 e he
    have hreq : ∀ (args : device_addr_t) (key : String) (e1 : uhd_error),
        req_frame_size k lexical_cast args key = Except.error e1 →
        e1 = uhd_error.bad_lexical_cast := by
      intro args key e1 h1
      unfold req_frame_size at h1
      split at h1
      · split at h1
        · simp at h1
        · simp only [Except.error.injEq] at h1
          exact h1.symm
      · simp at h1
    unfold setup_mb_max_frame_sizes at he
    split at he
    · rename_i e1 h1
      simp only [Option.some.injEq, Except.error.injEq] at he
      rw [← he]
      exact hreq _ _ _ h1
    · split at he
      · rename_i e1 h1
        simp only [Option.some.injEq, Except.error.injEq] at he
        rw [← he]
        exact hreq _ _ _ h1
      · split at he <;> simp at he

/-- Witness for C21: no frame size argument is given, the peer never answers, and
the sizes held before, 1472 and 1472, are the sizes held afterwards. -/
theorem setup_mb_max_frame_sizes_spec_witness :
    setup_mb_max_frame_sizes sample_consts (fun _ => none) silent_peer 40 [] [] ⟨1472, 1472⟩ =
      some (Except.ok ⟨1472, 1472⟩) :=
  (setup_mb_max_frame_sizes_spec sample_consts (fun _ => none) silent_peer 40 [] []
    ⟨1472, 1472⟩ 8000 8000 rfl rfl).1 uhd_error.not_implemented_error rfl

/-! ## Exhaustion of the DMA channels -/

/-- Once the pool is over the budget, every request of a run gets the outcome of
exhaustion. -/
theorem allocate_pcie_dma_chans_exhausted (k : x300_consts) :
    ∀ (reqs : List (sid_t × xport_type_t)) (pool : dma_chan_pool_t),
      pool.length + 1 > k.X300_PCIE_MAX_CHANNELS →
      (allocate_pcie_dma_chans k pool reqs).1 = reqs.map exhausted_outcome := by
  intro reqs
  induction reqs with
  | nil => intro pool _; rfl
  | cons req rest ih =>
    intro pool hover
    obtain ⟨sid, ty⟩ := req
    unfold allocate_pcie_dma_chans
    simp only [List.map_cons]
    by_cases hty : ty = xport_type_t.CTRL
    · subst hty
      rw [allocate_ctrl_eq]
      simp only [ih pool hover]
      rfl
    · rw [allocate_data_eq k pool sid ty hty]
      have h1 : pool.length + 1 > k.X300_PCIE_MAX_CHANNELS := hover
      have h2 : pool.length + 2 > k.X300_PCIE_MAX_CHANNELS := by omega
      by_cases hm : sid.get ∈ pool_keys pool
      · simp only [hm, h1, if_true, ih pool hover]
        simp [exhausted_outcome, hty]
      · simp only [hm, h2, if_true, if_false]
        rw [ih _ (by simp only [List.length_append, List.length_singleton]; omega)]
        simp [exhausted_outcome, hty]

/-- C26: a data-kind allocate_pcie_dma_chan call that throws the runtime error of
exhaustion leaves its SID in the pool: a SID that was not in the pool has been
appended with the next channel number. The pool is over the budget afterwards, so
in every later run of requests each data-kind request throws the same error, also
one for a SID that got a channel before, and each Control request returns
channel 0. -/
theorem allocate_pcie_dma_chan_exhaustion (k : x300_consts) (pool : dma_chan_pool_t)
    (sid : sid_t) (ty : xport_type_t) (hty : ty ≠ xport_type_t.CTRL)
    (hfail : (allocate_pcie_dma_chan k pool sid ty).1 = Except.error uhd_error.runtime_error) :
    sid.get ∈ pool_keys (allocate_pcie_dma_chan k pool sid ty).2 ∧
    (sid.get ∉ pool_keys pool →
      (allocate_pcie_dma_chan k pool sid ty).2 = pool ++ [(sid.get, pool.length + 1)]) ∧
    (∀ reqs : List (sid_t × xport_type_t),
      (allocate_pcie_dma_chans k (allocate_pcie_dma_chan k pool sid ty).2 reqs).1 =
        reqs.map exhausted_outcome) ∧
    (∀ (sid1 : sid_t) (ty1 : xport_type_t), ty1 ≠ xport_type_t.CTRL →
      sid1.get ∈ pool_keys pool →
      (allocate_pcie_dma_chan k (allocate_pcie_dma_chan k pool sid ty).2 sid1 ty1).1 =
        Except.error uhd_error.runtime_error) ∧
    (∀ sid1 : sid_t,
      (allocate_pcie_dma_chan k (allocate_pcie_dma_chan k pool sid ty).2 sid1
        xport_type_t.CTRL).1 = Except.ok 0) := by
  have hover : (allocate_pcie_dma_chan k pool sid ty).2.length + 1 > k.X300_PCIE_MAX_CHANNELS ∧
      sid.get ∈ pool_keys (allocate_pcie_dma_chan k pool sid ty).2 ∧
      (sid.get ∉ pool_keys pool →
        (allocate_pcie_dma_chan k pool sid ty).2 = pool ++ [(sid.get, pool.length + 1)]) := by
    have heq := allocate_data_eq k pool sid ty hty
    by_cases hm : sid.get ∈ pool_keys pool
    · by_cases hb : pool.length + 1 > k.X300_PCIE_MAX_CHANNELS
      · rw [if_pos hm, if_pos hb] at heq
        rw [heq]
        exact ⟨hb, hm, fun h => absurd hm h⟩
      · rw [if_pos hm, if_neg hb] at heq
        rw [heq] at hfail
        simp at hfail
    · by_cases hb : pool.length + 2 > k.X300_PCIE_MAX_CHANNELS
      · rw [if_neg hm, if_pos hb] at heq
        rw [heq]
        refine ⟨?_, ?_, fun _ => rfl⟩
        · simp only [List.length_append, List.length_singleton]; omega
        · simp [pool_keys]
      · rw [if_neg hm, if_neg hb] at heq
        rw [heq] at hfail
        simp at hfail
  obtain ⟨h1, h2, h3⟩ := hover
  refine ⟨h2, h3, fun reqs => allocate_pcie_dma_chans_exhausted k reqs _ h1, ?_, ?_⟩
  · intro sid1 ty1 hty1 _
    have := allocate_pcie_dma_chans_exhausted k [(sid1, ty1)] _ h1
    simp only [allocate_pcie_dma_chans, List.map_cons, List.map_nil, List.cons.injEq,
      and_true] at this
    rw [this]
    simp [exhausted_outcome, hty1]
  · intro sid1
    rw [allocate_ctrl_eq]

/-- Witness for C26: with a budget of 6 and the SIDs 1 to 5 on the channels 1 to 5,
the request for SID 6 throws and leaves SID 6 in the pool; after it the request
for SID 1, which has channel 1, throws as well, and a Control request returns 0. -/
theorem allocate_pcie_dma_chan_exhaustion_witness :
    (allocate_pcie_dma_chan sample_consts sample_pool ⟨6⟩ xport_type_t.TX_DATA).1 =
      Except.error uhd_error.runtime_error ∧
    (allocate_pcie_dma_chan sample_consts sample_pool ⟨6⟩ xport_type_t.TX_DATA).2 =
      sample_pool ++ [(6, 6)] ∧
    (allocate_pcie_dma_chan sample_consts sample_pool ⟨1⟩ xport_type_t.RX_DATA).1 =
      Except.ok 1 ∧
    (allocate_pcie_dma_chan sample_consts
      (allocate_pcie_dma_chan sample_consts sample_pool ⟨6⟩ xport_type_t.TX_DATA).2 ⟨1⟩
      xport_type_t.RX_DATA).1 = Except.error uhd_error.runtime_error ∧
    (allocate_pcie_dma_chan sample_consts
      (allocate_pcie_dma_chan sample_consts sample_pool ⟨6⟩ xport_type_t.TX_DATA).2 ⟨9⟩
      xport_type_t.CTRL).1 = Except.ok 0 :=
  ⟨rfl, rfl, rfl,
    (allocate_pcie_dma_chan_exhaustion sample_consts sample_pool ⟨6⟩ xport_type_t.TX_DATA
      (by decide) rfl).2.2.2.1 ⟨1⟩ xport_type_t.RX_DATA (by decide) (by decide),
    (allocate_pcie_dma_chan_exhaustion sample_consts sample_pool ⟨6⟩ xport_type_t.TX_DATA
      (by decide) rfl).2.2.2.2 ⟨9⟩⟩

/-! ## Ethernet transports -/

theorem eth_data_rec_frame_size_1G (k : x300_consts) (loaded_fpga_image : String)
    (xbar_src_dst conns : Nat)
    (h : loaded_fpga_image = "1G" ∨ loaded_fpga_image = "1GS") :
    eth_data_rec_frame_size k loaded_fpga_image xbar_src_dst conns = (0, none) := by
  have h1 : substr loaded_fpga_image 0 2 ≠ "HG" := by
    rcases h with rfl | rfl <;> decide
  have h2 : substr loaded_fpga_image 0 2 ≠ "XG" := by
    rcases h with rfl | rfl <;> decide
  unfold eth_data_rec_frame_size
  rw [if_neg h1, if_neg h2]

/-- The descriptor that get_fpga_option returns is one of six. -/
theorem get_fpga_option_mem (k : x300_consts) (zpu_ctrl : wb_iface)
    (dram_fifo_check : Nat → Nat → Bool) :
    get_fpga_option k zpu_ctrl dram_fifo_check ∈ ["1G", "HG", "XG", "1GS", "HGS", "XGS"] := by
  unfold get_fpga_option
  simp only
  cases zpu_ctrl (k.SR_ADDR k.SET0_BASE k.ZPU_RB_ETH_TYPE0) == 1 <;>
    cases zpu_ctrl (k.SR_ADDR k.SET0_BASE k.ZPU_RB_ETH_TYPE1) == 1 <;>
    cases has_dram_buff k dram_fifo_check <;> decide

/-- C28: get_fpga_option returns one of the six descriptors 1G, HG, XG, 1GS, HGS,
XGS, of which 1G and 1GS are the ones that start with neither HG nor XG. For a
motherboard whose loaded image descriptor is 1G or 1GS, every call of the Ethernet
branch of make_transport (any address, kind and arguments, any probed sizes)
throws the runtime error, and by then the link index has advanced by one modulo
the number of links, the SID counter has been incremented and the three router
registers of allocate_sid have been written. -/
theorem make_transport_eth_1G_fails (k : x300_consts)
    (udp_zero_copy_make : udp_zero_copy_make_t) (mb : mboard_members_t) (_sid_framer : Nat)
    (_max_frame_sizes : frame_size_t) (address : sid_t) (xport_type : xport_type_t)
    (args : device_addr_t) (conn : x300_eth_conn_t)
    (hconn : mb.eth_conns[mb.next_src_addr]? = some conn)
    (hfpga : mb.loaded_fpga_image = "1G" ∨ mb.loaded_fpga_image = "1GS") :
    make_transport_eth k udp_zero_copy_make mb _sid_framer _max_frame_sizes address xport_type
        args =
      some (Except.error uhd_error.runtime_error,
        (allocate_sid k
          { mb with next_src_addr := (mb.next_src_addr + 1) % mb.eth_conns.length }
          _sid_framer address
          (if mb.next_src_addr = 0 then k.X300_SRC_ADDR0 else k.X300_SRC_ADDR1)
          (if conn.type = x300_eth_iface_t.X300_IFACE_ETH0 then k.X300_XB_DST_E0
            else k.X300_XB_DST_E1)).2.1,
        _sid_framer + 1) ∧
    (allocate_sid k
      { mb with next_src_addr := (mb.next_src_addr + 1) % mb.eth_conns.length }
      _sid_framer address
      (if mb.next_src_addr = 0 then k.X300_SRC_ADDR0 else k.X300_SRC_ADDR1)
      (if conn.type = x300_eth_iface_t.X300_IFACE_ETH0 then k.X300_XB_DST_E0
        else k.X300_XB_DST_E1)).2.1.next_src_addr =
      (mb.next_src_addr + 1) % mb.eth_conns.length ∧
    (∀ (k1 : x300_consts) (zpu_ctrl : wb_iface) (dram_fifo_check : Nat → Nat → Bool),
      get_fpga_option k1 zpu_ctrl dram_fifo_check ∈ ["1G", "HG", "XG", "1GS", "HGS", "XGS"]) ∧
    (∀ d ∈ ["1G", "HG", "XG", "1GS", "HGS", "XGS"],
      (substr d 0 2 ≠ "HG" ∧ substr d 0 2 ≠ "XG") ↔ (d = "1G" ∨ d = "1GS")) := by
  refine ⟨?_, rfl, get_fpga_option_mem, by decide⟩
  have hrec : eth_data_rec_frame_size k
      (make_transport_eth_route k mb _sid_framer address conn).2.1.loaded_fpga_image
      (if conn.type = x300_eth_iface_t.X300_IFACE_ETH0 then k.X300_XB_DST_E0
        else k.X300_XB_DST_E1)
      (make_transport_eth_route k mb _sid_framer address conn).2.1.eth_conns.length =
      (0, none) :=
    eth_data_rec_frame_size_1G k _ _ _ hfpga
  unfold make_transport_eth
  simp only [hconn, hrec, if_true]
  rfl

/-- Witness for C28: the sample motherboard with the image 1GS, SID counter 5: the
call throws, the counter is 6 and the link index 1 afterwards. -/
theorem make_transport_eth_1G_fails_witness :
    make_transport_eth sample_consts sample_udp_zero_copy_make sample_mb_1G 5 ⟨8000, 8000⟩
        ⟨0x230⟩ xport_type_t.RX_DATA [] =
      some (Except.error uhd_error.runtime_error,
        { sample_mb_1G with
          next_src_addr := 1,
          trace := [hw_event.poke32 40972 2, hw_event.poke32 46272 3, hw_event.poke32 45056 0] },
        6) :=
  (make_transport_eth_1G_fails sample_consts sample_udp_zero_copy_make sample_mb_1G 5
    ⟨8000, 8000⟩ ⟨0x230⟩ xport_type_t.RX_DATA []
    ⟨"192.168.10.2", x300_eth_iface_t.X300_IFACE_ETH0⟩ rfl (Or.inr rfl)).1

/-- C22: when the Ethernet branch of make_transport gets past the check of the
link type and udp_zero_copy::make makes the socket, it returns a transport whose
default buffer arguments, as handed to udp_zero_copy::make, have
the send frame size min(probed send maximum, ceiling), the ceiling being
X300_10GE_DATA_FRAME_MAX_SIZE for TX_DATA and X300_ETH_MSG_FRAME_SIZE otherwise,
and the receive frame size min(probed receive maximum, ceiling), the ceiling being
X300_10GE_DATA_FRAME_MAX_SIZE for RX_DATA and X300_ETH_MSG_FRAME_SIZE otherwise.
Neither size exceeds the size probed for its direction, and nothing is asked of
the probed sizes: a probed size below the recommended size does not make the call
fail. -/
theorem make_transport_eth_frame_sizes (k : x300_consts)
    (udp_zero_copy_make : udp_zero_copy_make_t) (mb : mboard_members_t) (_sid_framer : Nat)
    (_max_frame_sizes : frame_size_t) (address : sid_t) (xport_type : xport_type_t)
    (args : device_addr_t) (conn : x300_eth_conn_t) (params : buff_params)
    (hconn : mb.eth_conns[mb.next_src_addr]? = some conn)
    (hrec : (eth_data_rec_frame_size k mb.loaded_fpga_image
      (if conn.type = x300_eth_iface_t.X300_IFACE_ETH0 then k.X300_XB_DST_E0
        else k.X300_XB_DST_E1) mb.eth_conns.length).1 ≠ 0)
    (hmake : udp_zero_copy_make conn.addr (eth_buff_args k _max_frame_sizes xport_type)
      (if xport_type = xport_type_t.CTRL then [] else args) = Except.ok params) :
    (∃ xports mb1,
      make_transport_eth k udp_zero_copy_make mb _sid_framer _max_frame_sizes address
        xport_type args = some (Except.ok xports, mb1, _sid_framer + 1) ∧
      xports.buff_args = eth_buff_args k _max_frame_sizes xport_type ∧
      xports.buff_args.send_frame_size =
        min _max_frame_sizes.send_frame_size
          (if xport_type = xport_type_t.TX_DATA then k.X300_10GE_DATA_FRAME_MAX_SIZE
            else k.X300_ETH_MSG_FRAME_SIZE) ∧
      xports.buff_args.recv_frame_size =
        min _max_frame_sizes.recv_frame_size
          (if xport_type = xport_type_t.RX_DATA then k.X300_10GE_DATA_FRAME_MAX_SIZE
            else k.X300_ETH_MSG_FRAME_SIZE) ∧
      xports.buff_args.send_frame_size ≤ _max_frame_sizes.send_frame_size ∧
      xports.buff_args.recv_frame_size ≤ _max_frame_sizes.recv_frame_size) := by
  have hsend : (eth_buff_args k _max_frame_sizes xport_type).send_frame_size =
      min _max_frame_sizes.send_frame_size
        (if xport_type = xport_type_t.TX_DATA then k.X300_10GE_DATA_FRAME_MAX_SIZE
          else k.X300_ETH_MSG_FRAME_SIZE) := by
    unfold eth_buff_args
    by_cases h : xport_type = xport_type_t.TX_DATA <;> simp [h]
  have hrecv : (eth_buff_args k _max_frame_sizes xport_type).recv_frame_size =
      min _max_frame_sizes.recv_frame_size
        (if xport_type = xport_type_t.RX_DATA then k.X300_10GE_DATA_FRAME_MAX_SIZE
          else k.X300_ETH_MSG_FRAME_SIZE) := by
    unfold eth_buff_args
    by_cases h : xport_type = xport_type_t.RX_DATA <;> simp [h]
  have hrec1 : ¬ ((eth_data_rec_frame_size k
      (make_transport_eth_route k mb _sid_framer address conn).2.1.loaded_fpga_image
      (if conn.type = x300_eth_iface_t.X300_IFACE_ETH0 then k.X300_XB_DST_E0
        else k.X300_XB_DST_E1)
      (make_transport_eth_route k mb _sid_framer address conn).2.1.eth_conns.length).1 = 0) :=
    hrec
  unfold make_transport_eth
  simp only [hconn]
  rw [if_neg hrec1]
  unfold make_transport_eth_socket
  simp only [hmake]
  refine ⟨_, _, rfl, rfl, hsend, hrecv, ?_, ?_⟩
  · rw [hsend]; exact Nat.min_le_left _ _
  · rw [hrecv]; exact Nat.min_le_left _ _

/-- Witness for C22: the sample motherboard (image HG, first link on port 0, for
which 1472 bytes are recommended) with probed sizes of 1000 bytes: a TX_DATA
transport is made with 1000 bytes in both directions. -/
theorem make_transport_eth_frame_sizes_witness :
    (eth_data_rec_frame_size sample_consts "HG" sample_consts.X300_XB_DST_E0 2).1 = 1472 ∧
    ∃ xports mb1,
      make_transport_eth sample_consts sample_udp_zero_copy_make sample_mb 5 ⟨1000, 1000⟩
        ⟨0x230⟩ xport_type_t.TX_DATA [] = some (Except.ok xports, mb1, 5 + 1) ∧
      xports.buff_args = eth_buff_args sample_consts ⟨1000, 1000⟩ xport_type_t.TX_DATA ∧
      xports.buff_args.send_frame_size =
        min 1000 (if xport_type_t.TX_DATA = xport_type_t.TX_DATA then
          sample_consts.X300_10GE_DATA_FRAME_MAX_SIZE else sample_consts.X300_ETH_MSG_FRAME_SIZE) ∧
      xports.buff_args.recv_frame_size =
        min 1000 (if xport_type_t.TX_DATA = xport_type_t.RX_DATA then
          sample_consts.X300_10GE_DATA_FRAME_MAX_SIZE else sample_consts.X300_ETH_MSG_FRAME_SIZE) ∧
      xports.buff_args.send_frame_size ≤ 1000 ∧
      xports.buff_args.recv_frame_size ≤ 1000 :=
  ⟨by decide,
   make_transport_eth_frame_sizes sample_consts sample_udp_zero_copy_make sample_mb 5
    ⟨1000, 1000⟩ ⟨0x230⟩ xport_type_t.TX_DATA []
    ⟨"192.168.10.2", x300_eth_iface_t.X300_IFACE_ETH0⟩ ⟨1048576, 1048576⟩ rfl (by decide) rfl⟩

end X300
